import Mathlib

/-!
# Scratch-Cloud-Server: the admission queue, the command handler and the record store

A shallow embedding of `run` (src/index.js, lines 164-372): the `set` and `addvariable`
listeners, the serve loop and the per-session `handle` function with its `loadJSON` and
`writeJSON` helpers.

What the program takes from outside is a parameter of the embedding:
* the cloud session of scratch3-api (`name`, `stringify`, `numerify`, `usetw`);
* `LZString.compressToUTF16`, `LZString.decompressFromUTF16`, `JSON.stringify`, `JSON.parse`;
* the working directory of the process.

Console logging is left out, and with it the test of `settings.logCloudSet` in the `set`
listener (lines 201-211): it changes no state that the program reads back. An exception that a
listener throws is caught nowhere in the program; the embedding follows the process up to the
throw and keeps the files as they are at that point.
-/

namespace ScratchCloudServer

/-! ## JavaScript values -/

/-- The JavaScript values the server handles. `obj` lists the own properties of a plain object in
the order they were created; `inherited k` stands for the value `Object.prototype[k]`, which a
lookup of `k` in a plain object yields when the object has no own property `k`. Numbers are the
integer-valued ones (the idle value of a slot is `num 0`). -/
inductive JVal where
  | undefined
  | null
  | bool (b : Bool)
  | num (n : Int)
  | str (s : String)
  | arr (items : List JVal)
  | obj (props : List (String × JVal))
  | inherited (name : String)

/-- What a JavaScript statement of the handler can throw. `storage` is an error of the `fs`
module (ENOENT, EEXIST, EISDIR, ...), `typeError` a TypeError of strict-mode code (the file is an
ES module), `syntaxError` what `JSON.parse` throws. `unsupported` marks an operation on a value the
embedding does not cover (property access on arrays and primitives, `includes` on a string):
nothing is proved about the program there. -/
inductive Err where
  | storage
  | typeError
  | syntaxError
  | unsupported
  deriving DecidableEq, Repr

/-- The names of the properties of `Object.prototype`. -/
def objectPrototypeNames : List String :=
  ["constructor", "__defineGetter__", "__defineSetter__", "hasOwnProperty",
   "__lookupGetter__", "__lookupSetter__", "isPrototypeOf", "propertyIsEnumerable",
   "toString", "valueOf", "__proto__", "toLocaleString"]

/-- Own-property lookup in a property list. -/
def ownProp : List (String × JVal) → String → Option JVal
  | [], _ => none
  | (k, v) :: rest, name => if k = name then some v else ownProp rest name

/-- Own-property assignment: an existing property keeps its place, a new one goes last. -/
def setOwn : List (String × JVal) → String → JVal → List (String × JVal)
  | [], name, v => [(name, v)]
  | (k, w) :: rest, name, v =>
    if k = name then (k, v) :: rest else (k, w) :: setOwn rest name v

/-- Own-property removal. -/
def deleteOwn : List (String × JVal) → String → List (String × JVal)
  | [], _ => []
  | (k, w) :: rest, name =>
    if k = name then deleteOwn rest name else (k, w) :: deleteOwn rest name

/-- The value of `o[name]` for a plain object with the own properties `props`: the own property,
else what `Object.prototype` holds under the name, else `undefined`. -/
def lookupProp (props : List (String × JVal)) (name : String) : JVal :=
  match ownProp props name with
  | some v => v
  | none => if name ∈ objectPrototypeNames then .inherited name else .undefined

/-- The expression `o[name]`. -/
def getProp (o : JVal) (name : String) : Except Err JVal :=
  match o with
  | .obj props => .ok (lookupProp props name)
  | .undefined => .error .typeError
  | .null => .error .typeError
  | _ => .error .unsupported

/-- The own properties of a plain object after `o[name] = s` for a string `s`. An object without
an own `__proto__` passes the assignment of `__proto__` to the setter of `Object.prototype`, which
ignores a string; every other property of `Object.prototype` is a writable data property, so the
assignment creates an own property. -/
def assignProp (props : List (String × JVal)) (name : String) (s : String) :
    List (String × JVal) :=
  if name = "__proto__" ∧ (ownProp props name).isNone then props
  else setOwn props name (.str s)

/-- The statement `o[name] = s` for a string `s`. Strict-mode code throws on a primitive base. -/
def setProp (o : JVal) (name : String) (s : String) : Except Err JVal :=
  match o with
  | .obj props => .ok (.obj (assignProp props name s))
  | .undefined => .error .typeError
  | .null => .error .typeError
  | .bool _ => .error .typeError
  | .num _ => .error .typeError
  | .str _ => .error .typeError
  | _ => .error .unsupported

/-- The statement `delete o[name]`. -/
def deleteProp (o : JVal) (name : String) : Except Err JVal :=
  match o with
  | .obj props => .ok (.obj (deleteOwn props name))
  | .undefined => .error .typeError
  | .null => .error .typeError
  | _ => .error .unsupported

/-- The test `x === s` for a string `s`. -/
def strictEqStr (x : JVal) (s : String) : Bool :=
  match x with
  | .str t => t = s
  | _ => false

/-- The call `xs.includes(s)` for a string `s`: an array compares each item with `===`; a value
without an `includes` method makes the call a TypeError. -/
def includesStr (xs : JVal) (s : String) : Except Err Bool :=
  match xs with
  | .arr items => .ok (items.any fun x => strictEqStr x s)
  | .str _ => .error .unsupported
  | _ => .error .typeError

/-- The call `xs.push(s)` for a string `s`. -/
def pushStr (xs : JVal) (s : String) : Except Err JVal :=
  match xs with
  | .arr items => .ok (.arr (items ++ [.str s]))
  | _ => .error .typeError

/-! ## The file system -/

/-- What a path names. -/
inductive Node where
  | dir
  | file (content : String)
  deriving DecidableEq, Repr

/-- The file system: what each absolute path names. A path is the list of its names, the
innermost first; the empty list is the root directory. Names are compared as they are written
(a POSIX file system that tells upper from lower case); the lengths of names and paths are limited
as on Linux (`nameMax`, `pathMax`, tested in `resolve`); symbolic links and permissions are not
represented. -/
abbrev FS := List String → Option Node

/-- Cut a string at each occurrence of the character `sep`, as `split` does in JavaScript for
a separator of one character: the result is never empty. -/
def splitOnChar (sep : Char) : List Char → List (List Char)
  | [] => [[]]
  | c :: cs =>
    if c = sep then [] :: splitOnChar sep cs
    else
      match splitOnChar sep cs with
      | [] => [[c]]
      | w :: ws => (c :: w) :: ws

/-- The names of a path. A path is given by the pieces of its template literal, which the
literal joins with `/`: the path "./data/" + usercode + "/account" is
`[".", "data", usercode, "account"]`. A value that is spliced in may hold `/` itself. -/
def components (pieces : List String) : List String :=
  pieces.flatMap fun s => (splitOnChar '/' s.data).map String.mk

/-- Follow one name from the directory `cur`. -/
def enter (cur : List String) (c : String) : List String :=
  if c = "" ∨ c = "." then cur else if c = ".." then cur.tail else c :: cur

/-- Whether the path names a directory. -/
def isDir (fs : FS) (p : List String) : Bool :=
  p = [] || fs p = some .dir

/-- Whether the path names anything. -/
def present (fs : FS) (p : List String) : Bool :=
  p = [] || (fs p).isSome

/-- Follow the names of a path from the directory `cur`: every name but the last has to lead to
a directory. -/
def walk (fs : FS) : List String → List String → Option (List String)
  | cur, [] => some cur
  | cur, [c] => some (enter cur c)
  | cur, c :: d :: rest =>
    if isDir fs (enter cur c) then walk fs (enter cur c) (d :: rest) else none

/-- The number of bytes of a character in UTF-8. -/
def charBytes (c : Char) : Nat :=
  if c.toNat < 128 then 1 else if c.toNat < 2048 then 2 else if c.toNat < 65536 then 3 else 4

/-- The number of bytes of a name in UTF-8, the encoding in which Node hands a path to the
system. -/
def nameBytes (s : String) : Nat :=
  (s.data.map charBytes).sum

/-- The number of bytes of the path that a template literal prints: its pieces joined
with `/`. -/
def pathBytes (pieces : List String) : Nat :=
  (pieces.map nameBytes).sum + (pieces.length - 1)

/-- The longest name the file system takes, in bytes (NAME_MAX). -/
def nameMax : Nat := 255

/-- The number of bytes from which on the system refuses a path (PATH_MAX, which counts the
closing NUL). -/
def pathMax : Nat := 4096

/-- The absolute path a relative path names in a process whose working directory is `cwd`;
`none` when the path holds a NUL character, when one of its names is longer than `nameMax` or
the path as a whole reaches `pathMax` (ENAMETOOLONG), or when it passes through something that
is no directory. -/
def resolve (cwd : List String) (fs : FS) (pieces : List String) : Option (List String) :=
  if (components pieces).any (fun c => c.data.contains (Char.ofNat 0)) then none
  else if (components pieces).any (fun c => decide (nameMax < nameBytes c)) then none
  else if pathMax ≤ pathBytes pieces then none
  else walk fs cwd (components pieces)

/-- The file system with `p` naming `n`. -/
def FS.put (fs : FS) (p : List String) (n : Option Node) : FS :=
  fun q => if q = p then n else fs q

/-- A text that is a single name of a path: not empty, not `.` or `..`, free of `/` and of the
NUL character, and not longer than `nameMax` bytes. -/
def PlainName (s : String) : Prop :=
  s ≠ "" ∧ s ≠ "." ∧ s ≠ ".." ∧ '/' ∉ s.data ∧ Char.ofNat 0 ∉ s.data ∧ nameBytes s ≤ nameMax

instance (s : String) : Decidable (PlainName s) := by
  unfold PlainName; infer_instance

/-! ## What the program takes from outside -/

/-- The cloud session of scratch3-api as far as `run` uses it: `name` turns a label into the
name of a slot, `stringify` decodes a value of the channel into text, `numerify` encodes a value
for the channel (its result is taken as the text that a template literal prints for it), `usetw`
tells the Turbowarp variant. -/
structure Cloud where
  name : String → String
  stringify : JVal → String
  numerify : JVal → String
  usetw : Bool

/-- The codec functions: `compress` is `LZString.compressToUTF16`, `expand` is
`LZString.decompressFromUTF16` (`none` for its result `null`), `jsonStringify` is
`JSON.stringify` on the values the program passes to it, `jsonParse` is `JSON.parse` (`none` when
it throws a SyntaxError). -/
structure Codec where
  compress : String → String
  expand : String → Option String
  jsonStringify : JVal → String
  jsonParse : String → Option JVal

/-- The surroundings of one `run`. `cwd` is the working directory of the process, innermost name
first. -/
structure Env where
  cloud : Cloud
  codec : Codec
  cwd : List String

/-! ## The state a handler call works on -/

/-- The variables of one session (lines 242-244): `currentAction` is `none` while undefined,
`gameid` is `none` while `null`. -/
structure Session where
  currentAction : Option String
  gamedata : JVal
  gameid : Option String

/-- The state of lines 241-244 at the start of a session. -/
def Session.fresh : Session :=
  { currentAction := none, gamedata := .obj [], gameid := none }

/-- What a call of `handle` reads and writes: the file system, the `cloud.set` calls made so far
(oldest first), the session variables, and whether `end` has been called. -/
structure Ctx where
  fs : FS
  sent : List (String × JVal)
  session : Session
  ended : Bool

/-- How a computation ends: with a result, or by a throw; both leave a state behind, a throw the
state at the throwing statement. -/
inductive Outcome (α : Type) where
  | done (a : α) (c : Ctx)
  | thrown (e : Err) (c : Ctx)

/-- The state an outcome leaves behind. -/
def Outcome.ctx {α : Type} : Outcome α → Ctx
  | .done _ c => c
  | .thrown _ c => c

/-- Whether the computation ended without a throw. -/
def Outcome.isDone {α : Type} : Outcome α → Bool
  | .done _ _ => true
  | .thrown _ _ => false

/-- What the computation threw, if it threw. -/
def Outcome.thrownErr {α : Type} : Outcome α → Option Err
  | .done _ _ => none
  | .thrown e _ => some e

/-- Statements: state passing with throws. -/
def Eff (α : Type) : Type := Ctx → Outcome α

/-- Sequencing of statements: a throw skips the rest. -/
def Eff.andThen {α β : Type} (m : Eff α) (f : α → Eff β) : Eff β :=
  fun c =>
    match m c with
    | .done a c1 => f a c1
    | .thrown e c1 => .thrown e c1

instance : Monad Eff where
  pure a := fun c => .done a c
  bind := Eff.andThen

/-- The statement `throw`. -/
def throwErr {α : Type} (e : Err) : Eff α := fun c => .thrown e c

/-- Read the state. -/
def getCtx : Eff Ctx := fun c => .done c c

/-- Run an expression that may throw. -/
def liftExcept {α : Type} : Except Err α → Eff α
  | .ok a => pure a
  | .error e => throwErr e

/-! ## The fs module -/

/-- Whether the relative path names anything in the file system. -/
def pathExists (env : Env) (fs : FS) (path : List String) : Bool :=
  match resolve env.cwd fs path with
  | some p => present fs p
  | none => false

/-- The call `fs.existsSync(path)`, which never throws. -/
def existsSync (env : Env) (path : List String) : Eff Bool :=
  fun c => .done (pathExists env c.fs path) c

/-- The call `fs.mkdirSync(path)`: throws when the path does not resolve (a name that is too
long among the reasons), names something already, or its parent is no directory. -/
def mkdirSync (env : Env) (path : List String) : Eff Unit :=
  fun c =>
    match resolve env.cwd c.fs path with
    | some p =>
      if present c.fs p || !isDir c.fs p.tail then .thrown .storage c
      else .done () { c with fs := c.fs.put p (some .dir) }
    | none => .thrown .storage c

/-- The call `fs.writeFileSync(path, content)`: creates or overwrites a file; throws when the
path does not resolve (a name that is too long among the reasons), names a directory, or its
parent is no directory. -/
def writeFileSync (env : Env) (path : List String) (content : String) : Eff Unit :=
  fun c =>
    match resolve env.cwd c.fs path with
    | some p =>
      if isDir c.fs p || !isDir c.fs p.tail then .thrown .storage c
      else .done () { c with fs := c.fs.put p (some (.file content)) }
    | none => .thrown .storage c

/-- The call `fs.readFileSync(path, "utf-8")`. -/
def readFileSync (env : Env) (path : List String) : Eff String :=
  fun c =>
    match resolve env.cwd c.fs path with
    | some p =>
      match c.fs p with
      | some (.file content) => .done content c
      | _ => .thrown .storage c
    | none => .thrown .storage c

/-- The call `fs.unlinkSync(path)`. -/
def unlinkSync (env : Env) (path : List String) : Eff Unit :=
  fun c =>
    match resolve env.cwd c.fs path with
    | some p =>
      match c.fs p with
      | some (.file _) => .done () { c with fs := c.fs.put p none }
      | _ => .thrown .storage c
    | none => .thrown .storage c

/-- The call `cloud.set(name, value)`. -/
def cloudSet (name : String) (value : JVal) : Eff Unit :=
  fun c => .done () { c with sent := c.sent ++ [(name, value)] }

/-! ## The session handler (lines 246-359) -/

/-- The expression `JSON.parse(expand(text))` of line 353; `JSON.parse(null)` parses the text
`null`. -/
def decodeText (env : Env) (text : String) : Option JVal :=
  env.codec.jsonParse ((env.codec.expand text).getD "null")

/-- The expression `compress(JSON.stringify(data))` of line 357. -/
def encode (env : Env) (data : JVal) : String :=
  env.codec.compress (env.codec.jsonStringify data)

/-- The helper `loadJSON` (line 352): `JSON.parse(expand(fs.readFileSync(file, "utf-8")))`. -/
def loadJSON (env : Env) (file : List String) : Eff JVal := do
  let text ← readFileSync env file
  match decodeText env text with
  | some v => pure v
  | none => throwErr .syntaxError

/-- The helper `writeJSON` (line 356): `fs.writeFileSync(file, compress(JSON.stringify(data)))`. -/
def writeJSON (env : Env) (file : List String) (data : JVal) : Eff Unit :=
  writeFileSync env file (encode env data)

/-- The path "./data/" + usercode. -/
def userDir (usercode : String) : List String := [".", "data", usercode]

/-- The path "./data/" + usercode + "/account". -/
def accountFile (usercode : String) : List String := [".", "data", usercode, "account"]

/-- The path "./data/" + usercode + "/games". -/
def gamesDir (usercode : String) : List String := [".", "data", usercode, "games"]

/-- The path "./data/" + usercode + "/games/played". -/
def playedFile (usercode : String) : List String := [".", "data", usercode, "games", "played"]

/-- The path "./data/" + usercode + "/games/" + gameid; the template prints `null` as the text
`null`. -/
def gameFile (usercode : String) (gameid : Option String) : List String :=
  [".", "data", usercode, "games", gameid.getD "null"]

/-- The fields `command.split(";")`. -/
def splitFields (command : String) : List String :=
  (splitOnChar ';' command.data).map String.mk

/-- A field of the command as a JavaScript value: a missing field is `undefined`. -/
def fieldVal : Option String → JVal
  | some s => .str s
  | none => .undefined

/-- For a key that matches `/^data\//`, the name `key.replace("data/", "")`: the first
occurrence of `data/` is the one at the start. -/
def dataName (key : String) : Option String :=
  match key.data with
  | 'd' :: 'a' :: 't' :: 'a' :: '/' :: rest => some (String.mk rest)
  | _ => none

/-- The inner function `respond(res)` (lines 265 and 341): the key of the response is the field
`data[1]` as it came in. -/
def respond (env : Env) (field1 : Option String) (res : JVal) : Eff Unit :=
  cloudSet (env.cloud.name "Main")
    (.str (env.cloud.numerify
      (.str ("respond;" ++ field1.getD "undefined" ++ ";" ++ env.cloud.numerify res))))

/-- The inner function `received(res)` (line 280) for the text of `res`: the empty string for
`received()`, `true` and `false` for the booleans. -/
def received (env : Env) (res : String) : Eff Unit :=
  cloudSet (env.cloud.name "Main")
    (.str (env.cloud.numerify (.str ("received;" ++ env.cloud.numerify (.str res)))))

/-- Assign the session variable `currentAction`. -/
def setCurrentAction (a : String) : Eff Unit :=
  fun c => .done () { c with session := { c.session with currentAction := some a } }

/-- Assign the session variable `gameid`. -/
def setGameid (g : String) : Eff Unit :=
  fun c => .done () { c with session := { c.session with gameid := some g } }

/-- Assign the session variable `gamedata`. -/
def setGamedata (d : JVal) : Eff Unit :=
  fun c => .done () { c with session := { c.session with gamedata := d } }

/-- The call `end?.()`: line 362 unsubscribes `handle` and resolves the promise of the session. -/
def endSession : Eff Unit :=
  fun c => .done () { c with ended := true }

/-- The branch `key === "action"` (lines 291-309). -/
def setAction (env : Env) (user : JVal) (usercode val : String) : Eff Unit := do
  setCurrentAction val
  if val = "create account" then do
    mkdirSync env (userDir usercode)
    writeJSON env (accountFile usercode) (.obj [("username", user)])
    mkdirSync env (gamesDir usercode)
    writeJSON env (playedFile usercode) (.arr [])
    received env ""
  else if val = "log in" then do
    let _ ← loadJSON env (accountFile usercode)
    received env ""
  else if val = "delete game" then do
    let c ← getCtx
    let there ← existsSync env (gameFile usercode c.session.gameid)
    if there then unlinkSync env (gameFile usercode c.session.gameid) else pure ()
  else pure ()

/-- The branch `key === "password"` (lines 310-321). -/
def setPassword (env : Env) (usercode : String) (account : JVal) (val : String) : Eff Unit := do
  let c ← getCtx
  if c.session.currentAction = some "create account" then do
    let account1 ← liftExcept (setProp account "password" val)
    writeJSON env (accountFile usercode) account1
    received env ""
  else if c.session.currentAction = some "log in" then do
    let password ← liftExcept (getProp account "password")
    if strictEqStr password val then received env "true" else received env "false"
  else pure ()

/-- The branch `key === "game"` (lines 322-334). -/
def setGame (env : Env) (usercode val : String) : Eff Unit := do
  setGameid val
  let playedgames ← loadJSON env (playedFile usercode)
  let known ← liftExcept (includesStr playedgames val)
  if known then do
    let gamedata ← loadJSON env (gameFile usercode (some val))
    setGamedata gamedata
    received env "true"
  else do
    setGamedata (.obj [])
    writeJSON env (gameFile usercode (some val)) (.obj [])
    let playedgames1 ← liftExcept (pushStr playedgames val)
    writeJSON env (playedFile usercode) playedgames1
    received env "false"

/-- The branch of `set` for a key that matches `/^data\//` (lines 335-338). -/
def setData (env : Env) (usercode name val : String) : Eff Unit := do
  let c ← getCtx
  let gamedata ← liftExcept (setProp c.session.gamedata name val)
  setGamedata gamedata
  writeJSON env (gameFile usercode c.session.gameid) gamedata
  received env ""

/-- The branch `data[0] === "get"` (lines 264-276). -/
def handleGet (env : Env) (usercode : String) (field1 : Option String) (key : String) :
    Eff Unit :=
  if key = "has account" then do
    let there ← existsSync env (accountFile usercode)
    respond env field1 (.bool there)
  else
    match dataName key with
    | some name => do
      let c ← getCtx
      let res ← liftExcept (getProp c.session.gamedata name)
      respond env field1 res
    | none => pure ()

/-- The branch `data[0] === "set"` (lines 277-339). -/
def handleSet (env : Env) (user : JVal) (usercode : String) (account : JVal)
    (key val : String) : Eff Unit :=
  if key = "action" then setAction env user usercode val
  else if key = "password" then setPassword env usercode account val
  else if key = "game" then setGame env usercode val
  else
    match dataName key with
    | some name => setData env usercode name val
    | none => pure ()

/-- The branch `data[0] === "delete"` (lines 340-350): the whole key names the property. -/
def handleDelete (env : Env) (usercode : String) (field1 : Option String) (key : String) :
    Eff Unit := do
  let c ← getCtx
  let gamedata ← liftExcept (deleteProp c.session.gamedata key)
  setGamedata gamedata
  writeJSON env (gameFile usercode c.session.gameid) gamedata
  respond env field1 .undefined

/-- The value `data[2] ? stringify(data[2]) : ""` (line 258): a missing or empty field gives
the empty string. -/
def decodeVal (env : Env) : Option String → String
  | some s => if s = "" then "" else env.cloud.stringify (.str s)
  | none => ""

/-- Lines 260-350 of `handle`: `verb` is `data[0]`, `field1` is `data[1]`, `key` and `val` are the
constants of lines 257 and 258. -/
def serveCommand (env : Env) (user : JVal) (usercode : String) (verb field1 : Option String)
    (key val : String) : Eff Unit := do
  let hasAccount ← existsSync env (accountFile usercode)
  let account ← (if hasAccount then loadJSON env (accountFile usercode) else pure (.obj []))
  if verb = some "get" then handleGet env usercode field1 key
  else if verb = some "set" then handleSet env user usercode account key val
  else if verb = some "delete" then handleDelete env usercode field1 key
  else pure ()

/-- The function `handle(name, value)` of the session of `user` (lines 246-350); `user` is the
value of `queue[0]` and `usercode` is `numerify(user)`. -/
def handle (env : Env) (user : JVal) (usercode : String) (name : String) (value : JVal) :
    Eff Unit :=
  if name ≠ env.cloud.name "Main" then pure ()
  else
    let data := splitFields (env.cloud.stringify value)
    if data[0]? = some "end" then endSession
    else
      serveCommand env user usercode data[0]? data[1]?
        (env.cloud.stringify (fieldVal data[1]?)) (decodeVal env data[2]?)

/-- A session handles the values that arrive on the Main slot one after the other; a throw ends
the process, so what follows it is not handled. -/
def handleAll (env : Env) (user : JVal) (usercode : String) : List JVal → Ctx → Outcome Unit
  | [], c => .done () c
  | value :: rest, c =>
    match handle env user usercode (env.cloud.name "Main") value c with
    | .done _ c1 => handleAll env user usercode rest c1
    | .thrown e c1 => .thrown e c1

/-- The state of a session that starts on the file system `fs`. -/
def newSession (fs : FS) : Ctx :=
  { fs := fs, sent := [], session := Session.fresh, ended := false }

/-! ## The listeners and the serve loop (lines 164-244 and 361-371) -/

/-- The value of the variable `addToQueue`: the plain append of lines 175 and 227, or the
closure of line 226 that the serve loop installs while it waits on an empty queue. -/
inductive AddFn where
  | plain
  | waiter
  deriving DecidableEq, Repr

/-- Where the serve loop stands.
* `parked`: awaiting the promise of line 223, which nothing has resolved yet;
* `woken`: that promise is resolved, line 236 runs next;
* `serving user usercode`: awaiting the promise of line 361, `handle` is subscribed;
* `finishing`: `end` has resolved that promise and unsubscribed `handle`, line 369 runs next;
* `crashed`: a listener threw, which nothing catches. -/
inductive Pc where
  | parked
  | woken
  | serving (user : JVal) (usercode : String)
  | finishing
  | crashed

/-- The variables of `run` together with the file system and the `cloud.set` calls made. -/
structure RunState where
  queue : List String
  recent : List String
  addToQueue : AddFn
  pc : Pc
  session : Session
  fs : FS
  sent : List (String × JVal)

/-- What happens to a running server: the channel emits `addvariable` or `set`, or the event
loop resumes the serve loop after a promise it awaits has been resolved. -/
inductive Event where
  | addvariable (name : String) (value : JVal)
  | set (name : String) (value : JVal)
  | resume

/-- The call `addToQueue(a)`. The closure of line 226 first puts the plain append back, then
appends, then resolves the promise it was made for; resolving wakes the loop only while the loop
awaits that promise. -/
def callAddToQueue (s : RunState) (a : String) : RunState :=
  match s.addToQueue with
  | .plain => { s with queue := s.queue ++ [a] }
  | .waiter =>
    { s with
      addToQueue := .plain
      queue := s.queue ++ [a]
      pc := match s.pc with
        | .parked => .woken
        | other => other }

/-- The `addvariable` listener (lines 188-192). -/
def onAddVariable (env : Env) (s : RunState) (name : String) (value : JVal) : RunState :=
  match value with
  | .num 0 => if env.cloud.usetw then { s with recent := s.recent ++ [name] } else s
  | _ => s

/-- Lines 212-219 of the `set` listener. -/
def queueBranch (env : Env) (s : RunState) (name : String) (value : JVal) : RunState :=
  if name = env.cloud.name "Queue" then
    let s1 :=
      if env.cloud.stringify value ∈ s.queue then s
      else callAddToQueue s (env.cloud.stringify value)
    { s1 with sent := s1.sent ++ [(env.cloud.name "Queue", .num 0)] }
  else s

/-- The `set` listener of line 194: on Turbowarp a name found in `recent` is taken out of it and
the event is skipped. -/
def onSet (env : Env) (s : RunState) (name : String) (value : JVal) : RunState :=
  if env.cloud.usetw ∧ name ∈ s.recent then { s with recent := s.recent.erase name }
  else queueBranch env s name value

/-- The listener `handle` on a `set` event while a session is served: a throw ends the process,
the call of `end` lets the serve loop go on. -/
def onSetHandle (env : Env) (s : RunState) (name : String) (value : JVal) : RunState :=
  match s.pc with
  | .serving user usercode =>
    match handle env user usercode name value
        { fs := s.fs, sent := s.sent, session := s.session, ended := false } with
    | .done _ c =>
      { s with
        fs := c.fs, sent := c.sent, session := c.session
        pc := if c.ended then .finishing else .serving user usercode }
    | .thrown _ c => { s with fs := c.fs, sent := c.sent, session := c.session, pc := .crashed }
  | _ => s

/-- The executor of the promise of line 223, which the loop runs before it awaits. -/
def loopTop (s : RunState) : RunState :=
  if s.queue.length > 0 then { s with pc := .woken }
  else { s with addToQueue := .waiter, pc := .parked }

/-- Lines 236-244 and 361-367: take the head of the queue, announce it in the Current User slot,
start a session with fresh variables and subscribe `handle`. -/
def startSession (env : Env) (s : RunState) : RunState :=
  let user := fieldVal s.queue.head?
  let usercode := env.cloud.numerify user
  { s with
    sent := s.sent ++ [(env.cloud.name "Current User", .str usercode)]
    session := Session.fresh
    pc := .serving user usercode }

/-- The serve loop goes on after the promise it awaits has been resolved. -/
def onResume (env : Env) (s : RunState) : RunState :=
  match s.pc with
  | .woken => startSession env s
  | .finishing => loopTop { s with queue := s.queue.tail }
  | _ => s

/-- One event. Listeners run in the order they were subscribed: the `set` listener of line 194
before `handle`. A crashed process does nothing. -/
def step (env : Env) (s : RunState) : Event → RunState
  | .addvariable name value =>
    match s.pc with
    | .crashed => s
    | _ => onAddVariable env s name value
  | .set name value =>
    match s.pc with
    | .crashed => s
    | _ => onSetHandle env (onSet env s name value) name value
  | .resume => onResume env s

/-- The state in which `run` first awaits (lines 167-223): the three slots are reset, the
listeners are subscribed, the queue is empty and the loop waits for the first arrival. -/
def initial (env : Env) (fs : FS) : RunState :=
  loopTop
    { queue := []
      recent := []
      addToQueue := .plain
      pc := .finishing
      session := Session.fresh
      fs := fs
      sent := [(env.cloud.name "Queue", .num 0), (env.cloud.name "Current User", .num 0),
               (env.cloud.name "Main", .num 0)] }

/-- The state after a sequence of events. -/
def runEvents (env : Env) (s : RunState) (events : List Event) : RunState :=
  events.foldl (step env) s

/-- The session one event starts: the user taken at line 236 when the woken loop goes on. -/
def startedBy (s : RunState) : Event → List JVal
  | .resume =>
    match s.pc with
    | .woken => [fieldVal s.queue.head?]
    | _ => []
  | _ => []

/-- The sessions a sequence of events starts, in order. -/
def sessionsStarted (env : Env) : RunState → List Event → List JVal
  | _, [] => []
  | s, e :: rest => startedBy s e ++ sessionsStarted env (step env s e) rest

/-- The identifier that an event brings to the Queue slot, if it is a `set` event of that slot. -/
def arrivalOf (env : Env) : Event → List String
  | .set name value => if name = env.cloud.name "Queue" then [env.cloud.stringify value] else []
  | _ => []

/-- The identifiers that the `set` events of the Queue slot carry, in order of arrival. -/
def arrivals (env : Env) (events : List Event) : List String :=
  events.flatMap (arrivalOf env)

/-- Whether the event is the creation of the Queue slot with the value 0, which arms the
Turbowarp guard of line 196 for that slot. -/
def declaresQueue (env : Env) : Event → Bool
  | .addvariable name (.num 0) => name = env.cloud.name "Queue"
  | _ => false

/-- Whether the process has crashed. -/
def Pc.isCrashed : Pc → Bool
  | .crashed => true
  | _ => false

/-- Whether the serve loop is at a point where it has found the queue non-empty and has not yet
removed the head. -/
def Pc.holdsHead : Pc → Bool
  | .woken => true
  | .serving _ _ => true
  | .finishing => true
  | _ => false

/-- The queue entries that wait for their session: all but the head while the head is served. -/
def waiting (s : RunState) : List String :=
  match s.pc with
  | .serving _ _ => s.queue.tail
  | .finishing => s.queue.tail
  | _ => s.queue

/-- What the serve loop relies on between events: while it holds the head of the queue the queue
is not empty, and on Turbowarp the guard of line 196 is not armed for the Queue slot. -/
def Ready (env : Env) (s : RunState) : Prop :=
  (s.pc.holdsHead = true → s.queue ≠ []) ∧
  (env.cloud.usetw = true → env.cloud.name "Queue" ∉ s.recent)

/-- The absolute path of the directory of a user. -/
def userPath (env : Env) (usercode : String) : List String :=
  usercode :: "data" :: env.cwd

/-- The absolute path of the account file of a user. -/
def accountPath (env : Env) (usercode : String) : List String :=
  "account" :: userPath env usercode

/-- The absolute path of the games directory of a user. -/
def gamesPath (env : Env) (usercode : String) : List String :=
  "games" :: userPath env usercode

/-- The absolute path of the games index of a user. -/
def playedPath (env : Env) (usercode : String) : List String :=
  "played" :: gamesPath env usercode

/-- The absolute path of the record of a game whose id is a plain name. -/
def gamePath (env : Env) (usercode gameid : String) : List String :=
  gameid :: gamesPath env usercode

/-- A name without `/` and without a NUL character. -/
def Clean (s : String) : Prop := '/' ∉ s.data ∧ Char.ofNat 0 ∉ s.data

/-- The file system after `set;action;create account` (lines 297-300). -/
def afterCreate (env : Env) (fs : FS) (user : JVal) (u : String) : FS :=
  (((fs.put (userPath env u) (some .dir)).put (accountPath env u)
      (some (.file (encode env (.obj [("username", user)]))))).put (gamesPath env u)
      (some .dir)).put (playedPath env u) (some (.file (encode env (.arr []))))

/-- The file system after the first visit of game `g` (lines 330 and 332). -/
def afterFirstVisit (env : Env) (fs : FS) (u g : String) (items : List JVal) : FS :=
  (fs.put (gamePath env u g) (some (.file (encode env (.obj []))))).put (playedPath env u)
    (some (.file (encode env (.arr (items ++ [.str g])))))

/-- The name under which the files of a user are stored: `numerify(user)` (line 237). -/
def usercodeOf (env : Env) (user : String) : String :=
  env.cloud.numerify (.str user)

/-- The working directory and its `data` directory exist (line 39 ensures the latter). -/
def Based (env : Env) (fs : FS) : Prop :=
  isDir fs env.cwd = true ∧ fs ("data" :: env.cwd) = some .dir

/-- Nothing is stored for the user: no path at or below the directory of the user names
anything. -/
def NoRecords (env : Env) (fs : FS) (usercode : String) : Prop :=
  ∀ q : List String, fs (q ++ userPath env usercode) = none

/-- The directory of the user exists. -/
def HasUserDir (env : Env) (fs : FS) (usercode : String) : Prop :=
  Based env fs ∧ fs (userPath env usercode) = some .dir

/-- The directory of the user and its games directory exist. -/
def HasGamesDir (env : Env) (fs : FS) (usercode : String) : Prop :=
  HasUserDir env fs usercode ∧ fs (gamesPath env usercode) = some .dir

/-- The value that line 260 gives the variable `account`: the empty object when no account file
exists, the decoded content of the account file when it exists. -/
def AccountLoads (env : Env) (fs : FS) (usercode : String) (account : JVal) : Prop :=
  (fs (accountPath env usercode) = none ∧ account = .obj []) ∨
  ∃ text, fs (accountPath env usercode) = some (.file text) ∧ decodeText env text = some account

/-- The codec gives the record back: `loadJSON` of what `writeJSON` stores for `v` is `v`. -/
def Lossless (env : Env) (v : JVal) : Prop :=
  decodeText env (encode env v) = some v

/-- The value of the Main slot carries the command `verb;key;val` for this session: `verb` is
`data[0]`, `key` is the constant of line 257 and `val` the constant of line 258. -/
def Carries (env : Env) (value : JVal) (verb key val : String) : Prop :=
  (splitFields (env.cloud.stringify value))[0]? = some verb ∧
  env.cloud.stringify (fieldVal (splitFields (env.cloud.stringify value))[1]?) = key ∧
  decodeVal env (splitFields (env.cloud.stringify value))[2]? = val

/-- The field `data[1]` of the command that the value carries. -/
def field1 (env : Env) (value : JVal) : Option String :=
  (splitFields (env.cloud.stringify value))[1]?

/-- The value `received;<payload>` that `received` writes to the Main slot. -/
def ack (env : Env) (payload : String) : String × JVal :=
  (env.cloud.name "Main",
    .str (env.cloud.numerify (.str ("received;" ++ env.cloud.numerify (.str payload)))))

/-- The value `respond;<key>;<payload>` that `respond` writes to the Main slot. -/
def response (env : Env) (key : Option String) (res : JVal) : String × JVal :=
  (env.cloud.name "Main",
    .str (env.cloud.numerify
      (.str ("respond;" ++ key.getD "undefined" ++ ";" ++ env.cloud.numerify res))))

/-- The commands `handle` has no branch for: a verb other than `get`, `set`, `delete` and `end`,
a `get` whose key is neither `has account` nor of the form `data/...`, and a `set` whose key is
none of `action`, `password`, `game` and not of the form `data/...`. -/
def Unrecognized (env : Env) (value : JVal) : Prop :=
  let data := splitFields (env.cloud.stringify value)
  let key := env.cloud.stringify (fieldVal data[1]?)
  (data[0]? ≠ some "get" ∧ data[0]? ≠ some "set" ∧ data[0]? ≠ some "delete" ∧
    data[0]? ≠ some "end") ∨
  (data[0]? = some "get" ∧ key ≠ "has account" ∧ dataName key = none) ∨
  (data[0]? = some "set" ∧ key ≠ "action" ∧ key ≠ "password" ∧ key ≠ "game" ∧
    dataName key = none)

/-! ## A sample environment -/

/-- A cloud session for examples: the text of a value is the value, a slot is named by its
label. -/
def sampleCloud : Cloud :=
  { name := fun label => label
    stringify := fun v =>
      match v with
      | .str s => s
      | _ => ""
    numerify := fun v =>
      match v with
      | .str s => s
      | .bool true => "true"
      | .bool false => "false"
      | _ => ""
    usetw := false }

/-- A codec for examples: it stores four records under one-letter texts. -/
def sampleCodec : Codec :=
  { compress := fun s => s
    expand := fun s => some s
    jsonStringify := fun v =>
      match v with
      | .obj [] => "E"
      | .arr [] => "L"
      | .obj [("username", .str "7")] => "U"
      | .obj [("username", .str "7"), ("password", .str "pw")] => "P"
      | .arr [.str "level1"] => "G"
      | .obj [("score", .str "42")] => "S"
      | .arr [.str "played"] => "B"
      | _ => "?"
    jsonParse := fun s =>
      if s = "E" then some (.obj [])
      else if s = "L" then some (.arr [])
      else if s = "U" then some (.obj [("username", .str "7")])
      else if s = "P" then some (.obj [("username", .str "7"), ("password", .str "pw")])
      else if s = "G" then some (.arr [.str "level1"])
      else if s = "S" then some (.obj [("score", .str "42")])
      else if s = "B" then some (.arr [.str "played"])
      else none }

/-- The sample environment: the process runs in `/srv`. -/
def sampleEnv : Env :=
  { cloud := sampleCloud, codec := sampleCodec, cwd := ["srv"] }

/-- A file system that holds the working directory and its `data` directory only. -/
def emptyData : FS :=
  fun p => if p = ["srv"] ∨ p = ["data", "srv"] then some .dir else none

/-- A running server with two users in the queue, the first of them being served. -/
def twoQueued : RunState :=
  { queue := ["a", "b"]
    recent := []
    addToQueue := .plain
    pc := .serving (.str "a") "a"
    session := Session.fresh
    fs := emptyData
    sent := [] }

/-- Two arrivals, the session of the first up to its `end`, and the start of the second. -/
def twoArrivals : List Event :=
  [.set "Queue" (.str "a"), .set "Queue" (.str "b"), .resume, .set "Main" (.str "end"),
   .resume, .resume]

/-- A session of user `7` that has not handled anything yet, on the bare data directory. -/
def freshCtx : Ctx :=
  { fs := emptyData, sent := [], session := Session.fresh, ended := false }

/-- The store of user `7` right after `set;action;create account`: an account and an empty
games index. -/
def accountStore : FS := afterCreate sampleEnv emptyData (.str "7") "7"

/-- User `7` visits the game `played` for the first time and stores a score in it. -/
def afterPlayed : Outcome Unit :=
  handleAll sampleEnv (.str "7") "7" [.str "set;game;played", .str "set;data/score;42"]
    (newSession accountStore)

/-- User `7` visits the game `level1` for the first time and stores a score in it. -/
def afterLevel : Outcome Unit :=
  handleAll sampleEnv (.str "7") "7" [.str "set;game;level1", .str "set;data/score;42"]
    (newSession accountStore)

/-- User `7` creates an account, visits the game `level1` and deletes it. -/
def afterDelete : Outcome Unit :=
  handleAll sampleEnv (.str "7") "7"
    [.str "set;action;create account", .str "set;game;level1", .str "set;action;delete game"]
    freshCtx

/-- The session of user `7` in the game `level1` after the score was stored in an earlier
session. -/
def scoreCtx : Ctx :=
  (handleAll sampleEnv (.str "7") "7" [.str "set;game;level1"]
    (newSession afterLevel.ctx.fs)).ctx

/-- A user whose code has 256 characters, one more than a name may have bytes. -/
def longCode : String := String.mk (List.replicate 256 '7')

/-- The store of user `7` with the games directory and the empty index, and no account file. -/
def gamesOnly : FS := accountStore.put (accountPath sampleEnv "7") none

/-- The session of user `7`, who has an account, after it has handled `set;game;../account`:
the active game id is `../account`. -/
def traversalCtx : Ctx :=
  (handleAll sampleEnv (.str "7") "7" [.str "set;game;../account"] (newSession accountStore)).ctx

/-- Whether the serve loop awaits the promise of line 223 with nothing having resolved it. -/
def Pc.isParked : Pc → Bool
  | .parked => true
  | _ => false

/-- Whether the promise of line 223 is resolved and line 236 has not run yet. -/
def Pc.isWoken : Pc → Bool
  | .woken => true
  | _ => false

/-- The closure of line 226 is the value of `addToQueue` exactly while the serve loop is parked,
and the loop is parked on an empty queue only. -/
def WaiterBound (s : RunState) : Prop :=
  (s.addToQueue = .waiter ↔ s.pc.isParked = true) ∧ (s.pc.isParked = true → s.queue = [])

/-- The sample environment with the channel of the Turbowarp server. -/
def turbowarpEnv : Env :=
  { sampleEnv with cloud := { sampleCloud with usetw := true } }

/-- The sample server on Turbowarp right after its start. -/
def turbowarpStart : RunState := initial turbowarpEnv emptyData

/-- A server whose loop was woken for user `b` while the variables of the session of user `a`
still hold a game, a buffered score and an action. -/
def staleWoken : RunState :=
  { queue := ["b"]
    recent := []
    addToQueue := .plain
    pc := .woken
    session :=
      { currentAction := some "delete game"
        gamedata := .obj [("score", .str "42")]
        gameid := some "level1" }
    fs := accountStore
    sent := [] }

/-! ## The admission queue -/

theorem onSetHandle_queue (env : Env) (s : RunState) (name : String) (value : JVal) :
    (onSetHandle env s name value).queue = s.queue := by
  unfold onSetHandle
  split
  · split <;> rfl
  · rfl

theorem onSetHandle_recent (env : Env) (s : RunState) (name : String) (value : JVal) :
    (onSetHandle env s name value).recent = s.recent := by
  unfold onSetHandle
  split
  · split <;> rfl
  · rfl

theorem onSetHandle_addToQueue (env : Env) (s : RunState) (name : String) (value : JVal) :
    (onSetHandle env s name value).addToQueue = s.addToQueue := by
  unfold onSetHandle
  split
  · split <;> rfl
  · rfl

theorem callAddToQueue_queue (s : RunState) (a : String) :
    (callAddToQueue s a).queue = s.queue ++ [a] := by
  unfold callAddToQueue
  split <;> rfl

theorem queueBranch_queue (env : Env) (s : RunState) (value : JVal) :
    (queueBranch env s (env.cloud.name "Queue") value).queue =
      if env.cloud.stringify value ∈ s.queue then s.queue
      else s.queue ++ [env.cloud.stringify value] := by
  unfold queueBranch
  by_cases h : env.cloud.stringify value ∈ s.queue
  · simp [h]
  · simp [h, callAddToQueue_queue]

/-- A `set` event of the Queue slot that the Turbowarp guard lets through appends the decoded
value exactly when the queue does not hold it yet. -/
theorem step_set_queue (env : Env) (s : RunState) (value : JVal)
    (hrun : s.pc.isCrashed = false)
    (hguard : ¬ (env.cloud.usetw = true ∧ env.cloud.name "Queue" ∈ s.recent)) :
    (step env s (.set (env.cloud.name "Queue") value)).queue =
      if env.cloud.stringify value ∈ s.queue then s.queue
      else s.queue ++ [env.cloud.stringify value] := by
  have hstep : step env s (.set (env.cloud.name "Queue") value) =
      onSetHandle env (onSet env s (env.cloud.name "Queue") value)
        (env.cloud.name "Queue") value := by
    unfold step
    cases hpc : s.pc <;> simp_all [Pc.isCrashed]
  rw [hstep, onSetHandle_queue]
  unfold onSet
  rw [if_neg hguard]
  exact queueBranch_queue env s value

theorem loopTop_queue (s : RunState) : (loopTop s).queue = s.queue := by
  unfold loopTop
  split <;> rfl

theorem onAddVariable_queue (env : Env) (s : RunState) (name : String) (value : JVal) :
    (onAddVariable env s name value).queue = s.queue := by
  unfold onAddVariable
  split
  · split <;> rfl
  · rfl

theorem onSet_queue_nodup (env : Env) (s : RunState) (name : String) (value : JVal)
    (h : s.queue.Nodup) : (onSet env s name value).queue.Nodup := by
  unfold onSet
  split
  · exact h
  · by_cases hn : name = env.cloud.name "Queue"
    · subst hn
      rw [queueBranch_queue]
      split
      · exact h
      · rename_i hmem
        exact List.Nodup.append h (List.nodup_singleton _) (by simpa using hmem)
    · unfold queueBranch
      rw [if_neg hn]
      exact h

theorem step_queue_nodup (env : Env) (s : RunState) (e : Event) (h : s.queue.Nodup) :
    (step env s e).queue.Nodup := by
  cases e with
  | addvariable name value =>
    unfold step
    cases hpc : s.pc <;> simp only [] <;> first | exact h | (rw [onAddVariable_queue]; exact h)
  | set name value =>
    unfold step
    cases hpc : s.pc <;> simp only [] <;>
      first
        | exact h
        | (rw [onSetHandle_queue]; exact onSet_queue_nodup env s name value h)
  | resume =>
    unfold step onResume
    cases hpc : s.pc <;> simp only [] <;>
      first
        | exact h
        | (rw [loopTop_queue]; exact h.sublist (List.tail_sublist _))

theorem runEvents_queue_nodup (env : Env) (events : List Event) :
    ∀ s : RunState, s.queue.Nodup → (runEvents env s events).queue.Nodup := by
  induction events with
  | nil => intro s h; exact h
  | cons e rest ih =>
    intro s h
    exact ih (step env s e) (step_queue_nodup env s e h)

/-! ### C8 -/

/-- C8, as the code has it: a `set` event of the Queue slot that carries the idle value 0 is
decoded like any other value, and `stringify(0)` is appended to the queue unless the queue holds
that text already (the Turbowarp guard apart). -/
theorem idle_value_is_enqueued (env : Env) (s : RunState)
    (hrun : s.pc.isCrashed = false)
    (hguard : ¬ (env.cloud.usetw = true ∧ env.cloud.name "Queue" ∈ s.recent)) :
    (step env s (.set (env.cloud.name "Queue") (.num 0))).queue =
      if env.cloud.stringify (.num 0) ∈ s.queue then s.queue
      else s.queue ++ [env.cloud.stringify (.num 0)] :=
  step_set_queue env s (.num 0) hrun hguard

/-- Witness of C8: on the waiting server of the sample environment the idle value becomes the
one entry of the queue. -/
theorem idle_value_is_enqueued_witness :
    (step sampleEnv (initial sampleEnv emptyData)
        (.set (sampleEnv.cloud.name "Queue") (.num 0))).queue =
      if sampleEnv.cloud.stringify (.num 0) ∈ (initial sampleEnv emptyData).queue
      then (initial sampleEnv emptyData).queue
      else (initial sampleEnv emptyData).queue ++ [sampleEnv.cloud.stringify (.num 0)] :=
  idle_value_is_enqueued sampleEnv (initial sampleEnv emptyData) (by rfl)
    (by simp [sampleEnv, sampleCloud])

/-- Counterexample to C8: the queue of the waiting server is empty, and a `set` event of the
Queue slot with the idle value 0 leaves one entry in it. -/
theorem idle_value_adds_entry :
    (initial sampleEnv emptyData).queue = [] ∧
    (step sampleEnv (initial sampleEnv emptyData)
        (.set (sampleEnv.cloud.name "Queue") (.num 0))).queue.length = 1 := by
  refine ⟨rfl, ?_⟩
  rw [step_set_queue sampleEnv _ (.num 0) (by rfl) (by simp [sampleEnv, sampleCloud])]
  simp [initial, loopTop]

/-! ### C9 -/

/-- C9, as the code has it: a `set` event of the Queue slot that decodes to `u` appends `u` to
the end of the queue if `u` occurs nowhere in the queue, and leaves the queue unchanged if `u`
occurs anywhere in it, the last place or an earlier one. -/
theorem enqueue_unless_listed (env : Env) (s : RunState) (value : JVal)
    (hrun : s.pc.isCrashed = false)
    (hguard : ¬ (env.cloud.usetw = true ∧ env.cloud.name "Queue" ∈ s.recent)) :
    (env.cloud.stringify value ∉ s.queue →
      (step env s (.set (env.cloud.name "Queue") value)).queue =
        s.queue ++ [env.cloud.stringify value]) ∧
    (env.cloud.stringify value ∈ s.queue →
      (step env s (.set (env.cloud.name "Queue") value)).queue = s.queue) := by
  rw [step_set_queue env s value hrun hguard]
  constructor
  · intro h; rw [if_neg h]
  · intro h; rw [if_pos h]

/-- Witness of C9: with `a` and `b` queued, `c` is appended and `a` is not. -/
theorem enqueue_unless_listed_witness :
    (step sampleEnv twoQueued (.set (sampleEnv.cloud.name "Queue") (.str "c"))).queue =
      ["a", "b", "c"] ∧
    (step sampleEnv twoQueued (.set (sampleEnv.cloud.name "Queue") (.str "a"))).queue =
      ["a", "b"] :=
  ⟨(enqueue_unless_listed sampleEnv twoQueued (.str "c") (by rfl)
      (by simp [sampleEnv, sampleCloud])).1 (by decide),
   (enqueue_unless_listed sampleEnv twoQueued (.str "a") (by rfl)
      (by simp [sampleEnv, sampleCloud])).2 (by decide)⟩

/-- Counterexample to C9: with `a` and `b` queued, a write that decodes to `a` differs from the
last entry `b`, and yet it is not appended. -/
theorem earlier_entry_not_appended :
    twoQueued.queue.getLast? ≠ some (sampleEnv.cloud.stringify (.str "a")) ∧
    (step sampleEnv twoQueued (.set (sampleEnv.cloud.name "Queue") (.str "a"))).queue ≠
      twoQueued.queue ++ [sampleEnv.cloud.stringify (.str "a")] := by
  refine ⟨by decide, ?_⟩
  rw [step_set_queue sampleEnv twoQueued (.str "a") (by rfl) (by simp [sampleEnv, sampleCloud])]
  decide

/-! ### C10 -/

/-- C10: in every state the server reaches from its start by any sequence of events (arrivals
on any slot, variable creations, resumptions of the serve loop after an arrival or after the end
of a session), no identifier occurs twice in the queue. -/
theorem queue_never_holds_duplicates (env : Env) (fs : FS) (events : List Event) :
    (runEvents env (initial env fs) events).queue.Nodup :=
  runEvents_queue_nodup env events (initial env fs) (by simp [initial, loopTop])

/-! ### C1 -/

theorem onSet_summary (env : Env) (s : RunState) (name : String) (value : JVal)
    (hready : Ready env s) (hrun : s.pc.isCrashed = false)
    (hfresh : ∀ u ∈ arrivalOf env (.set name value), u ∉ s.queue) :
    Ready env (onSet env s name value) ∧
    (onSet env s name value).pc.isCrashed = false ∧
    waiting (onSet env s name value) = waiting s ++ arrivalOf env (.set name value) ∧
    (onSet env s name value).queue = s.queue ++ arrivalOf env (.set name value) := by
  obtain ⟨hhead, hrec⟩ := hready
  unfold onSet
  split
  · rename_i hg
    have hne : name ≠ env.cloud.name "Queue" := by
      intro h; subst h; exact hrec hg.1 hg.2
    refine ⟨⟨hhead, ?_⟩, hrun, ?_, ?_⟩
    · intro htw hmem
      exact hrec htw (List.mem_of_mem_erase hmem)
    · simp [arrivalOf, hne, waiting]
    · simp [arrivalOf, hne]
  · rename_i hg
    unfold queueBranch
    by_cases hn : name = env.cloud.name "Queue"
    · subst hn
      have hnew : env.cloud.stringify value ∉ s.queue := by
        apply hfresh; simp [arrivalOf]
      simp only [if_true, if_neg hnew]
      unfold callAddToQueue
      cases hadd : s.addToQueue <;> cases hpc : s.pc <;>
        simp_all [Ready, arrivalOf, waiting, Pc.holdsHead, Pc.isCrashed, List.tail_append_of_ne_nil]
    · simp [hn, arrivalOf]
      exact ⟨⟨hhead, hrec⟩, hrun⟩

theorem onSetHandle_summary (env : Env) (m : RunState) (name : String) (value : JVal)
    (hready : Ready env m) :
    (onSetHandle env m name value).pc.isCrashed = true ∨
    (Ready env (onSetHandle env m name value) ∧
      (onSetHandle env m name value).pc.isCrashed = m.pc.isCrashed ∧
      waiting (onSetHandle env m name value) = waiting m) := by
  obtain ⟨hhead, hrec⟩ := hready
  unfold onSetHandle
  split
  · rename_i user usercode hpc
    split
    · rename_i a c hc
      right
      by_cases hend : c.ended = true
      · simp_all [Ready, waiting, Pc.holdsHead, Pc.isCrashed]
      · simp_all [Ready, waiting, Pc.holdsHead, Pc.isCrashed]
    · left; rfl
  · right; exact ⟨⟨hhead, hrec⟩, rfl, rfl⟩

theorem step_fifo (env : Env) (s : RunState) (e : Event)
    (hready : Ready env s) (hrun : s.pc.isCrashed = false)
    (hguard : env.cloud.usetw = true → declaresQueue env e = false)
    (hfresh : ∀ u ∈ arrivalOf env e, u ∉ s.queue) :
    (startedBy s e = [] ∧ (step env s e).pc.isCrashed = true) ∨
    (Ready env (step env s e) ∧ (step env s e).pc.isCrashed = false ∧
      (waiting s ++ arrivalOf env e).map JVal.str =
        startedBy s e ++ (waiting (step env s e)).map JVal.str ∧
      (step env s e).queue.Sublist (s.queue ++ arrivalOf env e)) := by
  cases e with
  | addvariable name value =>
    right
    have hstep : step env s (.addvariable name value) = onAddVariable env s name value := by
      unfold step
      cases hpc : s.pc <;> simp_all [Pc.isCrashed]
    rw [hstep]
    obtain ⟨hhead, hrec⟩ := hready
    unfold onAddVariable
    split
    · split
      · rename_i htw
        refine ⟨⟨hhead, ?_⟩, hrun, by simp [arrivalOf, startedBy, waiting], by simp [arrivalOf]⟩
        intro _ hmem
        have hd := hguard htw
        simp [declaresQueue] at hd
        simp only [List.mem_append, List.mem_singleton] at hmem
        rcases hmem with hmem | hmem
        · exact hrec htw hmem
        · exact hd hmem.symm
      · exact ⟨⟨hhead, hrec⟩, hrun, by simp [arrivalOf, startedBy], by simp [arrivalOf]⟩
    · exact ⟨⟨hhead, hrec⟩, hrun, by simp [arrivalOf, startedBy], by simp [arrivalOf]⟩
  | set name value =>
    have hstep : step env s (.set name value) =
        onSetHandle env (onSet env s name value) name value := by
      unfold step
      cases hpc : s.pc <;> simp_all [Pc.isCrashed]
    rw [hstep]
    obtain ⟨hr, hc, hw, hq⟩ := onSet_summary env s name value hready hrun hfresh
    rcases onSetHandle_summary env (onSet env s name value) name value hr with h | ⟨h1, h2, h3⟩
    · left; exact ⟨rfl, h⟩
    · right
      refine ⟨h1, by rw [h2, hc], ?_, ?_⟩
      · rw [h3, hw]; simp [startedBy]
      · rw [onSetHandle_queue, hq]
  | resume =>
    right
    obtain ⟨hhead, hrec⟩ := hready
    unfold step onResume
    cases hpc : s.pc with
    | crashed => simp [hpc, Pc.isCrashed] at hrun
    | parked =>
      simp only []
      refine ⟨⟨hhead, hrec⟩, hrun, by simp [arrivalOf, startedBy, hpc], by simp [arrivalOf]⟩
    | serving user usercode =>
      simp only []
      refine ⟨⟨hhead, hrec⟩, hrun, by simp [arrivalOf, startedBy, hpc], by simp [arrivalOf]⟩
    | woken =>
      simp only []
      have hne : s.queue ≠ [] := hhead (by simp [hpc, Pc.holdsHead])
      obtain ⟨h, t, hq⟩ := List.exists_cons_of_ne_nil hne
      refine ⟨⟨fun _ => by simpa [startSession] using hne, hrec⟩, rfl, ?_, by simp [arrivalOf, startSession]⟩
      simp [arrivalOf, startedBy, hpc, waiting, startSession, hq, fieldVal]
    | finishing =>
      simp only []
      unfold loopTop
      by_cases hlen : s.queue.tail.length > 0
      · simp only [hlen, if_true]
        refine ⟨⟨fun _ => ?_, hrec⟩, rfl, ?_, ?_⟩
        · exact List.ne_nil_of_length_pos hlen
        · simp [arrivalOf, startedBy, hpc, waiting]
        · simpa [arrivalOf] using List.tail_sublist s.queue
      · simp only [hlen, if_false]
        refine ⟨⟨fun h => ?_, hrec⟩, rfl, ?_, ?_⟩
        · simp [Pc.holdsHead] at h
        · simp [arrivalOf, startedBy, hpc, waiting]
        · simpa [arrivalOf] using List.tail_sublist s.queue

theorem runEvents_crashed (env : Env) (events : List Event) :
    ∀ s : RunState, s.pc.isCrashed = true →
      runEvents env s events = s ∧ sessionsStarted env s events = [] := by
  induction events with
  | nil => intro s _; exact ⟨rfl, rfl⟩
  | cons e rest ih =>
    intro s h
    have hstep : step env s e = s := by
      cases hpc : s.pc <;> simp [hpc, Pc.isCrashed] at h
      cases e <;> simp [step, onResume, hpc]
    have hnone : startedBy s e = [] := by
      cases hpc : s.pc <;> simp [hpc, Pc.isCrashed] at h
      cases e <;> simp [startedBy, hpc]
    have := ih s h
    simp [runEvents, sessionsStarted, hstep, hnone] at this ⊢
    exact this

theorem fifo_from (env : Env) (events : List Event) :
    ∀ s : RunState, Ready env s → s.pc.isCrashed = false →
      (∀ e ∈ events, env.cloud.usetw = true → declaresQueue env e = false) →
      (s.queue ++ arrivals env events).Nodup →
      sessionsStarted env s events <+: (waiting s ++ arrivals env events).map JVal.str ∧
      ((runEvents env s events).pc.isCrashed = false →
        (waiting s ++ arrivals env events).map JVal.str =
          sessionsStarted env s events ++ (waiting (runEvents env s events)).map JVal.str) := by
  induction events with
  | nil =>
    intro s _ _ _ _
    simp [sessionsStarted, arrivals, runEvents]
  | cons e rest ih =>
    intro s hready hrun hguard hnodup
    have harr : arrivals env (e :: rest) = arrivalOf env e ++ arrivals env rest := by
      simp [arrivals]
    rw [harr] at hnodup ⊢
    have hfresh : ∀ u ∈ arrivalOf env e, u ∉ s.queue := by
      intro u hu hq
      have := (List.nodup_append.1 hnodup).2.2
      exact this hq (List.mem_append_left _ hu) 
    rcases step_fifo env s e hready hrun (hguard e (List.mem_cons_self _ _)) hfresh with
      ⟨h0, hcr⟩ | ⟨hr, hc, heq, hsub⟩
    · obtain ⟨hfix, hnil⟩ := runEvents_crashed env rest (step env s e) hcr
      simp only [sessionsStarted, h0, hnil, List.append_nil]
      refine ⟨List.nil_prefix, ?_⟩
      intro hfinal
      have : runEvents env s (e :: rest) = step env s e := hfix
      rw [this, hcr] at hfinal
      exact absurd hfinal (by decide)
    · have hnodup1 : ((step env s e).queue ++ arrivals env rest).Nodup := by
        refine hnodup.sublist ?_
        rw [← List.append_assoc]
        exact List.Sublist.append hsub (List.Sublist.refl _)
      obtain ⟨ih1, ih2⟩ := ih (step env s e) hr hc
        (fun e1 he1 => hguard e1 (List.mem_cons_of_mem _ he1)) hnodup1
      have hsplit : (waiting s ++ (arrivalOf env e ++ arrivals env rest)).map JVal.str =
          startedBy s e ++
            (waiting (step env s e) ++ arrivals env rest).map JVal.str := by
        rw [← List.append_assoc, List.map_append, heq, List.map_append, List.append_assoc]
      refine ⟨?_, ?_⟩
      · rw [hsplit]
        simp only [sessionsStarted]
        exact (List.prefix_append_right_inj _).2 ih1
      · intro hfinal
        rw [hsplit]
        simp only [sessionsStarted]
        have : runEvents env s (e :: rest) = runEvents env (step env s e) rest := rfl
        rw [this] at hfinal ⊢
        rw [ih2 hfinal, List.append_assoc]


/-- C1: when the `set` events of the Queue slot carry pairwise distinct identifiers, the sessions
start in the order of arrival: the users taken at line 236 are an initial stretch of the arrivals,
and as long as the process runs the arrivals are exactly the started sessions followed by the
waiting part of the queue, so nobody is skipped, reordered or served twice. Other events may
occur in between, save the creation of the Queue slot with the value 0 on Turbowarp, which arms the
guard of line 196. -/
theorem sessions_start_in_arrival_order (env : Env) (fs : FS) (events : List Event)
    (hdistinct : (arrivals env events).Nodup)
    (hguard : ∀ e ∈ events, env.cloud.usetw = true → declaresQueue env e = false) :
    sessionsStarted env (initial env fs) events <+: (arrivals env events).map JVal.str ∧
    ((runEvents env (initial env fs) events).pc.isCrashed = false →
      (arrivals env events).map JVal.str =
        sessionsStarted env (initial env fs) events ++
          (waiting (runEvents env (initial env fs) events)).map JVal.str) := by
  have hready : Ready env (initial env fs) := by
    simp [Ready, initial, loopTop, Pc.holdsHead]
  have h := fifo_from env events (initial env fs) hready (by simp [initial, loopTop, Pc.isCrashed])
    hguard (by simpa [initial, loopTop] using hdistinct)
  have hw : waiting (initial env fs) = [] := by simp [waiting, initial, loopTop]
  simpa [hw] using h

/-- Witness of C1: two users arrive, the first is served to its end, then the second. -/
theorem sessions_start_in_arrival_order_witness :
    sessionsStarted sampleEnv (initial sampleEnv emptyData) twoArrivals <+:
      (arrivals sampleEnv twoArrivals).map JVal.str ∧
    ((runEvents sampleEnv (initial sampleEnv emptyData) twoArrivals).pc.isCrashed = false →
      (arrivals sampleEnv twoArrivals).map JVal.str =
        sessionsStarted sampleEnv (initial sampleEnv emptyData) twoArrivals ++
          (waiting (runEvents sampleEnv (initial sampleEnv emptyData) twoArrivals)).map
            JVal.str) :=
  sessions_start_in_arrival_order sampleEnv emptyData twoArrivals (by decide)
    (by simp [sampleEnv, sampleCloud])

/-! ## The session handler -/

theorem bind_apply {α β : Type} (m : Eff α) (f : α → Eff β) (c : Ctx) :
    (m >>= f) c = Eff.andThen m f c := rfl

theorem pure_apply {α : Type} (a : α) (c : Ctx) : (pure a : Eff α) c = .done a c := rfl

theorem readFileSync_ctx (env : Env) (path : List String) (c : Ctx) :
    (readFileSync env path c).ctx = c := by
  unfold readFileSync
  split
  · split <;> rfl
  · rfl

theorem readFileSync_done (env : Env) (path : List String) (c c1 : Ctx) (text : String)
    (h : readFileSync env path c = .done text c1) : c1 = c := by
  have := readFileSync_ctx env path c
  rw [h] at this
  exact this

theorem bind_ctx {α β : Type} (m : Eff α) (f : α → Eff β) (c : Ctx)
    (hm : (m c).ctx = c) (hf : ∀ a, (f a c).ctx = c) : ((m >>= f) c).ctx = c := by
  rw [bind_apply]
  unfold Eff.andThen
  cases h : m c with
  | done a c1 =>
    rw [h] at hm
    change c1 = c at hm
    subst hm
    exact hf a
  | thrown e c1 =>
    rw [h] at hm
    exact hm

theorem loadJSON_ctx (env : Env) (path : List String) (c : Ctx) :
    (loadJSON env path c).ctx = c := by
  unfold loadJSON
  refine bind_ctx _ _ c (readFileSync_ctx env path c) ?_
  intro text
  beta_reduce
  cases h : decodeText env text <;> rfl

theorem loadJSON_done (env : Env) (path : List String) (c c1 : Ctx) (v : JVal)
    (h : loadJSON env path c = .done v c1) : c1 = c := by
  have := loadJSON_ctx env path c
  rw [h] at this
  exact this

theorem serveCommand_ignored (env : Env) (user : JVal) (usercode : String)
    (verb field1 : Option String) (key val : String) (c : Ctx)
    (h : (verb ≠ some "get" ∧ verb ≠ some "set" ∧ verb ≠ some "delete") ∨
      (verb = some "get" ∧ key ≠ "has account" ∧ dataName key = none) ∨
      (verb = some "set" ∧ key ≠ "action" ∧ key ≠ "password" ∧ key ≠ "game" ∧
        dataName key = none)) :
    (serveCommand env user usercode verb field1 key val c).ctx = c := by
  have hbranch : ∀ account : JVal,
      ((if verb = some "get" then handleGet env usercode field1 key
        else if verb = some "set" then handleSet env user usercode account key val
        else if verb = some "delete" then handleDelete env usercode field1 key
        else pure ()) : Eff Unit) c = .done () c := by
    intro account
    rcases h with ⟨h1, h2, h3⟩ | ⟨h1, h2, h3⟩ | ⟨h1, h2, h3, h4, h5⟩
    · simp [h1, h2, h3, pure_apply]
    · simp [h1, handleGet, h2, h3, pure_apply]
    · simp [h1, handleSet, h2, h3, h4, h5, pure_apply]
  have hbranch' : ∀ account : JVal,
      (((if verb = some "get" then handleGet env usercode field1 key
        else if verb = some "set" then handleSet env user usercode account key val
        else if verb = some "delete" then handleDelete env usercode field1 key
        else pure ()) : Eff Unit) c).ctx = c := by
    intro account
    rw [hbranch account]
    rfl
  unfold serveCommand
  refine bind_ctx _ _ c rfl ?_
  intro hasAccount
  refine bind_ctx _ _ c ?_ hbranch'
  split
  · exact loadJSON_ctx env _ c
  · rfl

/-! ### Paths -/

theorem splitOnChar_of_not_mem (sep : Char) :
    ∀ cs : List Char, sep ∉ cs → splitOnChar sep cs = [cs] := by
  intro cs
  induction cs with
  | nil => intro _; rfl
  | cons c rest ih =>
    intro h
    have hc : c ≠ sep := fun e => h (by simp [e])
    have hr : sep ∉ rest := fun e => h (by simp [e])
    simp [splitOnChar, hc, ih hr]

theorem PlainName.clean {s : String} (h : PlainName s) : Clean s :=
  ⟨h.2.2.2.1, h.2.2.2.2.1⟩

theorem PlainName.short {s : String} (h : PlainName s) : nameBytes s ≤ nameMax :=
  h.2.2.2.2.2

theorem nameBytes_dot : nameBytes "." = 1 := by decide
theorem nameBytes_data : nameBytes "data" = 4 := by decide
theorem nameBytes_games : nameBytes "games" = 5 := by decide

theorem components_clean : ∀ pieces : List String, (∀ s ∈ pieces, Clean s) →
    components pieces = pieces := by
  intro pieces
  induction pieces with
  | nil => intro _; rfl
  | cons s rest ih =>
    intro h
    have hs := (h s (by simp)).1
    have hr := ih (fun t ht => h t (by simp [ht]))
    unfold components at hr ⊢
    simp only [List.flatMap_cons, hr, splitOnChar_of_not_mem '/' s.data hs, List.map_cons,
      List.map_nil, List.singleton_append]

theorem resolve_clean (cwd : List String) (fs : FS) (pieces : List String)
    (h : ∀ s ∈ pieces, Clean s) (hname : ∀ s ∈ pieces, nameBytes s ≤ nameMax)
    (hpath : pathBytes pieces < pathMax) : resolve cwd fs pieces = walk fs cwd pieces := by
  unfold resolve
  rw [components_clean pieces h]
  have hnul : (pieces.any fun c => c.data.contains (Char.ofNat 0)) = false := by
    rw [List.any_eq_false]
    intro s hs
    have := (h s hs).2
    simpa using this
  have hlong : (pieces.any fun c => decide (nameMax < nameBytes c)) = false := by
    rw [List.any_eq_false]
    intro s hs
    have := hname s hs
    simpa using this
  rw [hnul, hlong, if_neg (Nat.not_le.mpr hpath)]
  rfl

theorem clean_dot : Clean "." := by unfold Clean; decide
theorem clean_data : Clean "data" := by unfold Clean; decide
theorem clean_account : Clean "account" := by unfold Clean; decide
theorem clean_games : Clean "games" := by unfold Clean; decide
theorem clean_played : Clean "played" := by unfold Clean; decide

theorem enter_plain (cur : List String) (s : String) (h : PlainName s) :
    enter cur s = s :: cur := by
  unfold enter
  rw [if_neg (by
    intro h1
    rcases h1 with h1 | h1
    · exact h.1 h1
    · exact h.2.1 h1), if_neg h.2.2.1]

theorem plain_account : PlainName "account" := by decide
theorem plain_games : PlainName "games" := by decide
theorem plain_played : PlainName "played" := by decide
theorem plain_data : PlainName "data" := by decide

theorem resolve_userDir (env : Env) (fs : FS) (u : String) (hb : Based env fs)
    (hu : PlainName u) : resolve env.cwd fs (userDir u) = some (userPath env u) := by
  rw [resolve_clean]
  · have h1 : enter env.cwd "." = env.cwd := by simp [enter]
    have h2 : isDir fs ("data" :: env.cwd) = true := by simp [isDir, hb.2]
    simp [userDir, walk, h1, hb.1, enter_plain _ _ plain_data, h2, enter_plain _ _ hu, userPath]
  · intro s hs
    simp [userDir] at hs
    rcases hs with rfl | rfl | rfl
    · exact clean_dot
    · exact clean_data
    · exact hu.clean
  · intro s hs
    simp [userDir] at hs
    rcases hs with rfl | rfl | rfl
    · decide
    · decide
    · exact hu.short
  · have := hu.short
    simp only [userDir, pathBytes, List.map_cons, List.map_nil, List.sum_cons, List.sum_nil,
      List.length_cons, List.length_nil, nameBytes_dot, nameBytes_data, nameMax, pathMax] at this ⊢
    omega

theorem resolve_under_user (env : Env) (fs : FS) (u leaf : String) (hb : Based env fs)
    (hu : PlainName u) (hl : PlainName leaf) :
    resolve env.cwd fs [".", "data", u, leaf] =
      if isDir fs (userPath env u) then some (leaf :: userPath env u) else none := by
  rw [resolve_clean]
  · have h1 : enter env.cwd "." = env.cwd := by simp [enter]
    have h2 : isDir fs ("data" :: env.cwd) = true := by simp [isDir, hb.2]
    simp [walk, h1, hb.1, enter_plain _ _ plain_data, h2, enter_plain _ _ hu, userPath,
      enter_plain _ _ hl]
  · intro s hs
    simp at hs
    rcases hs with rfl | rfl | rfl | rfl
    · exact clean_dot
    · exact clean_data
    · exact hu.clean
    · exact hl.clean
  · intro s hs
    simp at hs
    rcases hs with rfl | rfl | rfl | rfl
    · decide
    · decide
    · exact hu.short
    · exact hl.short
  · have h3 := hu.short
    have h4 := hl.short
    simp only [pathBytes, List.map_cons, List.map_nil, List.sum_cons, List.sum_nil,
      List.length_cons, List.length_nil, nameBytes_dot, nameBytes_data, nameMax, pathMax]
      at h3 h4 ⊢
    omega

theorem resolve_under_games (env : Env) (fs : FS) (u leaf : String) (hb : Based env fs)
    (hu : PlainName u) (hl : PlainName leaf) :
    resolve env.cwd fs [".", "data", u, "games", leaf] =
      if isDir fs (userPath env u) ∧ isDir fs (gamesPath env u)
      then some (leaf :: gamesPath env u) else none := by
  rw [resolve_clean]
  · have h1 : enter env.cwd "." = env.cwd := by simp [enter]
    have h2 : isDir fs ("data" :: env.cwd) = true := by simp [isDir, hb.2]
    by_cases hd : isDir fs (userPath env u) = true
    · by_cases hg : isDir fs (gamesPath env u) = true
      · simp [walk, h1, hb.1, enter_plain _ _ plain_data, h2, enter_plain _ _ hu,
          enter_plain _ _ hl, enter_plain _ _ plain_games, hd, hg]
        simp [userPath, gamesPath] at hd hg ⊢
        simp [hd, hg]
      · simp [walk, h1, hb.1, enter_plain _ _ plain_data, h2, enter_plain _ _ hu,
          enter_plain _ _ hl, enter_plain _ _ plain_games, hd, hg]
        simp [userPath, gamesPath] at hd hg ⊢
        simp [hd, hg]
    · simp [walk, h1, hb.1, enter_plain _ _ plain_data, h2, enter_plain _ _ hu,
          enter_plain _ _ hl, enter_plain _ _ plain_games, hd]
      simp [userPath, gamesPath] at hd ⊢
      simp [hd]
  · intro s hs
    simp at hs
    rcases hs with rfl | rfl | rfl | rfl | rfl
    · exact clean_dot
    · exact clean_data
    · exact hu.clean
    · exact clean_games
    · exact hl.clean
  · intro s hs
    simp at hs
    rcases hs with rfl | rfl | rfl | rfl | rfl
    · decide
    · decide
    · exact hu.short
    · decide
    · exact hl.short
  · have h3 := hu.short
    have h4 := hl.short
    simp only [pathBytes, List.map_cons, List.map_nil, List.sum_cons, List.sum_nil,
      List.length_cons, List.length_nil, nameBytes_dot, nameBytes_data, nameBytes_games,
      nameMax, pathMax] at h3 h4 ⊢
    omega

theorem put_same (fs : FS) (p : List String) (n : Option Node) : (fs.put p n) p = n := by
  simp [FS.put]

theorem put_other (fs : FS) (p q : List String) (n : Option Node) (h : q ≠ p) :
    (fs.put p n) q = fs q := by
  simp [FS.put, h]

theorem put_of_length (fs : FS) (p q : List String) (n : Option Node)
    (h : q.length ≠ p.length) : (fs.put p n) q = fs q :=
  put_other fs p q n (fun e => h (by rw [e]))

theorem isDir_put_of_length (fs : FS) (p q : List String) (n : Option Node)
    (h : q.length ≠ p.length) : isDir (fs.put p n) q = isDir fs q := by
  unfold isDir
  rw [put_of_length fs p q n h]

theorem length_userPath (env : Env) (u : String) :
    (userPath env u).length = env.cwd.length + 2 := by simp [userPath]

theorem length_accountPath (env : Env) (u : String) :
    (accountPath env u).length = env.cwd.length + 3 := by simp [accountPath, userPath]

theorem length_gamesPath (env : Env) (u : String) :
    (gamesPath env u).length = env.cwd.length + 3 := by simp [gamesPath, userPath]

theorem length_playedPath (env : Env) (u : String) :
    (playedPath env u).length = env.cwd.length + 4 := by simp [playedPath, gamesPath, userPath]

theorem length_gamePath (env : Env) (u g : String) :
    (gamePath env u g).length = env.cwd.length + 4 := by simp [gamePath, gamesPath, userPath]

theorem based_put {env : Env} {fs : FS} (h : Based env fs) (p : List String) (n : Option Node)
    (hp : env.cwd.length + 1 < p.length) : Based env (fs.put p n) := by
  obtain ⟨h1, h2⟩ := h
  refine ⟨?_, ?_⟩
  · rw [isDir_put_of_length _ _ _ _ (by omega)]; exact h1
  · rw [put_of_length _ _ _ _ (by simp; omega)]; exact h2

theorem hasUserDir_put {env : Env} {fs : FS} {u : String} (h : HasUserDir env fs u)
    (p : List String) (n : Option Node) (hp : env.cwd.length + 2 < p.length) :
    HasUserDir env (fs.put p n) u := by
  obtain ⟨h1, h2⟩ := h
  refine ⟨based_put h1 p n (by omega), ?_⟩
  rw [put_of_length _ _ _ _ (by rw [length_userPath]; omega)]; exact h2

theorem hasGamesDir_put {env : Env} {fs : FS} {u : String} (h : HasGamesDir env fs u)
    (p : List String) (n : Option Node) (hp : env.cwd.length + 3 < p.length) :
    HasGamesDir env (fs.put p n) u := by
  obtain ⟨h1, h2⟩ := h
  refine ⟨hasUserDir_put h1 p n (by omega), ?_⟩
  rw [put_of_length _ _ _ _ (by rw [length_gamesPath]; omega)]; exact h2

theorem hasUserDir_isDir {env : Env} {fs : FS} {u : String} (h : HasUserDir env fs u) :
    isDir fs (userPath env u) = true := by
  simp [isDir, h.2]

theorem hasGamesDir_isDir {env : Env} {fs : FS} {u : String} (h : HasGamesDir env fs u) :
    isDir fs (gamesPath env u) = true := by
  simp [isDir, h.2]

theorem resolve_accountFile (env : Env) (fs : FS) (u : String) (hu : PlainName u)
    (h : HasUserDir env fs u) :
    resolve env.cwd fs (accountFile u) = some (accountPath env u) := by
  unfold accountFile
  rw [resolve_under_user env fs u "account" h.1 hu plain_account, if_pos (hasUserDir_isDir h)]
  rfl

theorem resolve_gamesDir (env : Env) (fs : FS) (u : String) (hu : PlainName u)
    (h : HasUserDir env fs u) :
    resolve env.cwd fs (gamesDir u) = some (gamesPath env u) := by
  unfold gamesDir
  rw [resolve_under_user env fs u "games" h.1 hu plain_games, if_pos (hasUserDir_isDir h)]
  rfl

theorem resolve_playedFile (env : Env) (fs : FS) (u : String) (hu : PlainName u)
    (h : HasGamesDir env fs u) :
    resolve env.cwd fs (playedFile u) = some (playedPath env u) := by
  unfold playedFile
  rw [resolve_under_games env fs u "played" h.1.1 hu plain_played,
    if_pos ⟨hasUserDir_isDir h.1, hasGamesDir_isDir h⟩]
  rfl

theorem resolve_gameFile (env : Env) (fs : FS) (u g : String) (hu : PlainName u)
    (hg : PlainName g) (h : HasGamesDir env fs u) :
    resolve env.cwd fs (gameFile u (some g)) = some (gamePath env u g) := by
  unfold gameFile
  rw [Option.getD_some, resolve_under_games env fs u g h.1.1 hu hg,
    if_pos ⟨hasUserDir_isDir h.1, hasGamesDir_isDir h⟩]
  rfl

/-! ### The fs operations where they succeed -/

theorem mkdirSync_ok (env : Env) (path p : List String) (c : Ctx)
    (hres : resolve env.cwd c.fs path = some p) (hnew : present c.fs p = false)
    (hpar : isDir c.fs p.tail = true) :
    mkdirSync env path c = .done () { c with fs := c.fs.put p (some .dir) } := by
  simp [mkdirSync, hres, hnew, hpar]

theorem writeFileSync_ok (env : Env) (path p : List String) (text : String) (c : Ctx)
    (hres : resolve env.cwd c.fs path = some p) (hfile : isDir c.fs p = false)
    (hpar : isDir c.fs p.tail = true) :
    writeFileSync env path text c =
      .done () { c with fs := c.fs.put p (some (.file text)) } := by
  simp [writeFileSync, hres, hfile, hpar]

theorem writeJSON_ok (env : Env) (path p : List String) (v : JVal) (c : Ctx)
    (hres : resolve env.cwd c.fs path = some p) (hfile : isDir c.fs p = false)
    (hpar : isDir c.fs p.tail = true) :
    writeJSON env path v c =
      .done () { c with fs := c.fs.put p (some (.file (encode env v))) } :=
  writeFileSync_ok env path p (encode env v) c hres hfile hpar

theorem readFileSync_ok (env : Env) (path p : List String) (text : String) (c : Ctx)
    (hres : resolve env.cwd c.fs path = some p) (hfile : c.fs p = some (.file text)) :
    readFileSync env path c = .done text c := by
  simp [readFileSync, hres, hfile]

theorem loadJSON_ok (env : Env) (path p : List String) (text : String) (v : JVal) (c : Ctx)
    (hres : resolve env.cwd c.fs path = some p) (hfile : c.fs p = some (.file text))
    (hdec : decodeText env text = some v) :
    loadJSON env path c = .done v c := by
  unfold loadJSON
  rw [bind_apply]
  unfold Eff.andThen
  rw [readFileSync_ok env path p text c hres hfile]
  simp only [hdec]
  rfl

theorem received_apply (env : Env) (payload : String) (c : Ctx) :
    received env payload c = .done () { c with sent := c.sent ++ [ack env payload] } := rfl

theorem respond_apply (env : Env) (key : Option String) (res : JVal) (c : Ctx) :
    respond env key res c = .done () { c with sent := c.sent ++ [response env key res] } := rfl

theorem handle_of_carries (env : Env) (user : JVal) (u : String) (value : JVal)
    (verb key val : String) (h : Carries env value verb key val) (hv : verb ≠ "end") :
    handle env user u (env.cloud.name "Main") value =
      serveCommand env user u (some verb) (field1 env value) key val := by
  obtain ⟨h0, h1, h2⟩ := h
  unfold handle
  simp only [ne_eq, not_true_eq_false, if_false]
  rw [if_neg (by rw [h0]; simpa using hv), h0, h1, h2]
  rfl

theorem pathExists_account (env : Env) (fs : FS) (u : String) (hu : PlainName u)
    (h : HasUserDir env fs u) :
    pathExists env fs (accountFile u) = present fs (accountPath env u) := by
  unfold pathExists
  rw [resolve_accountFile env fs u hu h]


theorem present_of_file {fs : FS} {p : List String} {text : String}
    (h : fs p = some (.file text)) : present fs p = true := by
  simp [present, h]

theorem handle_login_action (env : Env) (user : JVal) (u : String) (value : JVal) (c : Ctx)
    (text : String) (account : JVal) (hu : PlainName u) (hfs : HasUserDir env c.fs u)
    (hfile : c.fs (accountPath env u) = some (.file text))
    (hdec : decodeText env text = some account)
    (hm : Carries env value "set" "action" "log in") :
    handle env user u (env.cloud.name "Main") value c =
      .done () { c with
        session := { c.session with currentAction := some "log in" }
        sent := c.sent ++ [ack env ""] } := by
  rw [handle_of_carries env user u value _ _ _ hm (by decide)]
  have hres := resolve_accountFile env c.fs u hu hfs
  have hload : ∀ c1 : Ctx, c1.fs = c.fs → loadJSON env (accountFile u) c1 = .done account c1 := by
    intro c1 h1
    exact loadJSON_ok env _ (accountPath env u) text account c1 (by rw [h1]; exact hres)
      (by rw [h1]; exact hfile) hdec
  simp only [serveCommand, bind_apply, Eff.andThen, existsSync, pathExists_account env c.fs u hu hfs,
    present_of_file hfile, if_true, hload c rfl]
  simp [handleSet, setAction, bind_apply, Eff.andThen, setCurrentAction, hload, received_apply]

theorem handle_login_password (env : Env) (user : JVal) (u : String) (value : JVal) (c : Ctx)
    (text : String) (account password : JVal) (q : String) (hu : PlainName u)
    (hfs : HasUserDir env c.fs u)
    (hfile : c.fs (accountPath env u) = some (.file text))
    (hdec : decodeText env text = some account)
    (hpw : getProp account "password" = .ok password)
    (hact : c.session.currentAction = some "log in")
    (hm : Carries env value "set" "password" q) :
    handle env user u (env.cloud.name "Main") value c =
      .done () { c with
        sent := c.sent ++ [ack env (if strictEqStr password q then "true" else "false")] } := by
  rw [handle_of_carries env user u value _ _ _ hm (by decide)]
  have hres := resolve_accountFile env c.fs u hu hfs
  have hload := loadJSON_ok env _ (accountPath env u) text account c hres hfile hdec
  simp only [serveCommand, bind_apply, Eff.andThen, existsSync,
    pathExists_account env c.fs u hu hfs, present_of_file hfile, if_true, hload]
  by_cases hq : strictEqStr password q = true <;>
    simp [handleSet, setPassword, bind_apply, Eff.andThen, getCtx, hact, hpw, liftExcept,
      pure_apply, received_apply, hq]

theorem isDir_of_file {fs : FS} {p : List String} {text : String} (hp : p ≠ [])
    (h : fs p = some (.file text)) : isDir fs p = false := by
  simp [isDir, h, hp]

theorem handle_create_password (env : Env) (user : JVal) (u : String) (value : JVal) (c : Ctx)
    (text : String) (account account1 : JVal) (p : String) (hu : PlainName u)
    (hfs : HasUserDir env c.fs u)
    (hfile : c.fs (accountPath env u) = some (.file text))
    (hdec : decodeText env text = some account)
    (hset : setProp account "password" p = .ok account1)
    (hact : c.session.currentAction = some "create account")
    (hm : Carries env value "set" "password" p) :
    handle env user u (env.cloud.name "Main") value c =
      .done () { c with
        fs := c.fs.put (accountPath env u) (some (.file (encode env account1)))
        sent := c.sent ++ [ack env ""] } := by
  rw [handle_of_carries env user u value _ _ _ hm (by decide)]
  have hres := resolve_accountFile env c.fs u hu hfs
  have hload := loadJSON_ok env _ (accountPath env u) text account c hres hfile hdec
  have hwrite := writeJSON_ok env _ (accountPath env u) account1 c hres
    (isDir_of_file (by simp [accountPath]) hfile) (hasUserDir_isDir hfs)
  simp only [serveCommand, bind_apply, Eff.andThen, existsSync,
    pathExists_account env c.fs u hu hfs, present_of_file hfile, if_true, hload]
  simp [handleSet, setPassword, bind_apply, Eff.andThen, getCtx, hact, hset, liftExcept,
      pure_apply, received_apply, hwrite]

theorem NoRecords.at_user {env : Env} {fs : FS} {u : String} (h : NoRecords env fs u) :
    fs (userPath env u) = none := h []

theorem NoRecords.at_account {env : Env} {fs : FS} {u : String} (h : NoRecords env fs u) :
    fs (accountPath env u) = none := h ["account"]

theorem NoRecords.at_games {env : Env} {fs : FS} {u : String} (h : NoRecords env fs u) :
    fs (gamesPath env u) = none := h ["games"]

theorem NoRecords.at_played {env : Env} {fs : FS} {u : String} (h : NoRecords env fs u) :
    fs (playedPath env u) = none := h ["played", "games"]

theorem accountPath_ne_gamesPath (env : Env) (u : String) :
    gamesPath env u ≠ accountPath env u := by
  simp [gamesPath, accountPath]

theorem isDir_of_none {fs : FS} {p : List String} (hp : p ≠ []) (h : fs p = none) :
    isDir fs p = false := by
  simp [isDir, h, hp]

theorem present_of_none {fs : FS} {p : List String} (hp : p ≠ []) (h : fs p = none) :
    present fs p = false := by
  simp [present, h, hp]

theorem userPath_ne_nil (env : Env) (u : String) : userPath env u ≠ [] := by simp [userPath]

theorem accountPath_ne_nil (env : Env) (u : String) : accountPath env u ≠ [] := by
  simp [accountPath]

theorem gamesPath_ne_nil (env : Env) (u : String) : gamesPath env u ≠ [] := by
  simp [gamesPath]

theorem playedPath_ne_nil (env : Env) (u : String) : playedPath env u ≠ [] := by
  simp [playedPath]

theorem gamePath_ne_nil (env : Env) (u g : String) : gamePath env u g ≠ [] := by
  simp [gamePath]

theorem handle_create_account (env : Env) (user : JVal) (u : String) (value : JVal) (c : Ctx)
    (hu : PlainName u) (hb : Based env c.fs) (hnone : NoRecords env c.fs u)
    (hm : Carries env value "set" "action" "create account") :
    handle env user u (env.cloud.name "Main") value c =
      .done () { c with
        fs := afterCreate env c.fs user u
        session := { c.session with currentAction := some "create account" }
        sent := c.sent ++ [ack env ""] } := by
  rw [handle_of_carries env user u value _ _ _ hm (by decide)]
  have hex : pathExists env c.fs (accountFile u) = false := by
    unfold pathExists accountFile
    rw [resolve_under_user env c.fs u "account" hb hu plain_account]
    rw [isDir_of_none (userPath_ne_nil env u) hnone.at_user]
    rfl
  -- the four writes
  let fs1 := c.fs.put (userPath env u) (some .dir)
  let fs2 := fs1.put (accountPath env u) (some (.file (encode env (.obj [("username", user)]))))
  let fs3 := fs2.put (gamesPath env u) (some .dir)
  have hb1 : HasUserDir env fs1 u :=
    ⟨based_put hb _ _ (by rw [length_userPath]; omega), put_same _ _ _⟩
  have hb2 : HasUserDir env fs2 u := hasUserDir_put hb1 _ _ (by rw [length_accountPath]; omega)
  have hb3 : HasGamesDir env fs3 u :=
    ⟨hasUserDir_put hb2 _ _ (by rw [length_gamesPath]; omega), put_same _ _ _⟩
  have h1 : ∀ c1 : Ctx, c1.fs = c.fs → mkdirSync env (userDir u) c1 =
      .done () { c1 with fs := fs1 } := by
    intro c1 e
    have := mkdirSync_ok env (userDir u) (userPath env u) c1
      (by rw [e]; exact resolve_userDir env c.fs u hb hu)
      (by rw [e]; exact present_of_none (userPath_ne_nil env u) hnone.at_user)
      (by rw [e]; simp [isDir, userPath, hb.2])
    rw [this, e]
  have h2 : ∀ c1 : Ctx, c1.fs = fs1 → writeJSON env (accountFile u) (.obj [("username", user)]) c1 =
      .done () { c1 with fs := fs2 } := by
    intro c1 e
    have := writeJSON_ok env (accountFile u) (accountPath env u) (.obj [("username", user)]) c1
      (by rw [e]; exact resolve_accountFile env fs1 u hu hb1)
      (by
        rw [e]
        have : fs1 (accountPath env u) = none := by
          simp only [fs1]
          rw [put_of_length _ _ _ _ (by rw [length_accountPath, length_userPath]; omega)]
          exact hnone.at_account
        exact isDir_of_none (accountPath_ne_nil env u) this)
      (by rw [e]; exact hasUserDir_isDir hb1)
    rw [this, e]
  have h3 : ∀ c1 : Ctx, c1.fs = fs2 → mkdirSync env (gamesDir u) c1 =
      .done () { c1 with fs := fs3 } := by
    intro c1 e
    have := mkdirSync_ok env (gamesDir u) (gamesPath env u) c1
      (by rw [e]; exact resolve_gamesDir env fs2 u hu hb2)
      (by
        rw [e]
        have : fs2 (gamesPath env u) = none := by
          simp only [fs2, fs1]
          rw [put_other _ _ _ _ (accountPath_ne_gamesPath env u),
            put_of_length _ _ _ _ (by rw [length_gamesPath, length_userPath]; omega)]
          exact hnone.at_games
        exact present_of_none (gamesPath_ne_nil env u) this)
      (by rw [e]; exact hasUserDir_isDir hb2)
    rw [this, e]
  have h4 : ∀ c1 : Ctx, c1.fs = fs3 → writeJSON env (playedFile u) (.arr []) c1 =
      .done () { c1 with fs := afterCreate env c.fs user u } := by
    intro c1 e
    have := writeJSON_ok env (playedFile u) (playedPath env u) (.arr []) c1
      (by rw [e]; exact resolve_playedFile env fs3 u hu hb3)
      (by
        rw [e]
        have : fs3 (playedPath env u) = none := by
          simp only [fs3, fs2, fs1]
          rw [put_of_length _ _ _ _ (by rw [length_playedPath, length_gamesPath]; omega),
            put_of_length _ _ _ _ (by rw [length_playedPath, length_accountPath]; omega),
            put_of_length _ _ _ _ (by rw [length_playedPath, length_userPath]; omega)]
          exact hnone.at_played
        exact isDir_of_none (playedPath_ne_nil env u) this)
      (by rw [e]; exact hasGamesDir_isDir hb3)
    rw [this, e]
    rfl
  simp only [serveCommand, bind_apply, Eff.andThen, existsSync, hex, pure_apply]
  simp [handleSet, setAction, bind_apply, Eff.andThen, setCurrentAction, h1, h2, h3, h4,
    received_apply]

/-! ### The branches of the handler where they succeed -/

theorem dataName_append (k : String) : dataName ("data/" ++ k) = some k := by
  have h : ("data/" ++ k).data = 'd' :: 'a' :: 't' :: 'a' :: '/' :: k.data := by
    rw [String.data_append]; rfl
  unfold dataName
  rw [h]
  rfl

theorem dataName_has_account : dataName "has account" = none := by decide
theorem dataName_action : dataName "action" = none := by decide
theorem dataName_password : dataName "password" = none := by decide
theorem dataName_game : dataName "game" = none := by decide

theorem pathExists_account_of_none (env : Env) (fs : FS) (u : String) (hu : PlainName u)
    (h : HasUserDir env fs u) (hnone : fs (accountPath env u) = none) :
    pathExists env fs (accountFile u) = false := by
  rw [pathExists_account env fs u hu h]
  exact present_of_none (accountPath_ne_nil env u) hnone

theorem serveCommand_of_account (env : Env) (user : JVal) (u : String)
    (verb fld : Option String) (key val : String) (c : Ctx) (account : JVal)
    (hu : PlainName u) (hfs : HasUserDir env c.fs u) (hacc : AccountLoads env c.fs u account) :
    serveCommand env user u verb fld key val c =
      ((if verb = some "get" then handleGet env u fld key
        else if verb = some "set" then handleSet env user u account key val
        else if verb = some "delete" then handleDelete env u fld key
        else pure ()) : Eff Unit) c := by
  rcases hacc with ⟨hnone, rfl⟩ | ⟨text, hfile, hdec⟩
  · simp only [serveCommand, bind_apply, Eff.andThen, existsSync,
      pathExists_account_of_none env c.fs u hu hfs hnone, pure_apply]
    rfl
  · have hres := resolve_accountFile env c.fs u hu hfs
    have hload := loadJSON_ok env _ (accountPath env u) text account c hres hfile hdec
    simp only [serveCommand, bind_apply, Eff.andThen, existsSync,
      pathExists_account env c.fs u hu hfs, present_of_file hfile, if_true, hload]

theorem handleGet_data (env : Env) (u : String) (fld : Option String) (key k : String)
    (c : Ctx) (props : List (String × JVal)) (hk : dataName key = some k)
    (hbuf : c.session.gamedata = .obj props) :
    handleGet env u fld key c =
      .done () { c with sent := c.sent ++ [response env fld (lookupProp props k)] } := by
  have hne : key ≠ "has account" := by
    intro e; rw [e, dataName_has_account] at hk; cases hk
  simp [handleGet, hne, hk, bind_apply, Eff.andThen, getCtx, hbuf, getProp, liftExcept,
    pure_apply, respond_apply]

theorem writeJSON_game (env : Env) (u g : String) (v : JVal) (c : Ctx) (hu : PlainName u)
    (hg : PlainName g) (hfs : HasGamesDir env c.fs u)
    (hfile : c.fs (gamePath env u g) ≠ some .dir) :
    writeJSON env (gameFile u (some g)) v c =
      .done () { c with fs := c.fs.put (gamePath env u g) (some (.file (encode env v))) } := by
  refine writeJSON_ok env _ (gamePath env u g) v c (resolve_gameFile env c.fs u g hu hg hfs) ?_
    (hasGamesDir_isDir hfs)
  simp [isDir, hfile, gamePath_ne_nil]

theorem handleDelete_obj (env : Env) (u g : String) (fld : Option String) (key : String)
    (c : Ctx) (props : List (String × JVal)) (hu : PlainName u) (hg : PlainName g)
    (hfs : HasGamesDir env c.fs u) (hfile : c.fs (gamePath env u g) ≠ some .dir)
    (hid : c.session.gameid = some g) (hbuf : c.session.gamedata = .obj props) :
    handleDelete env u fld key c =
      .done () { c with
        fs := c.fs.put (gamePath env u g) (some (.file (encode env (.obj (deleteOwn props key)))))
        session := { c.session with gamedata := .obj (deleteOwn props key) }
        sent := c.sent ++ [response env fld .undefined] } := by
  have hw : ∀ c1 : Ctx, c1.fs = c.fs → ∀ v, writeJSON env (gameFile u (some g)) v c1 =
      .done () { c1 with fs := c.fs.put (gamePath env u g) (some (.file (encode env v))) } := by
    intro c1 e v
    have := writeJSON_game env u g v c1 hu hg (by rw [e]; exact hfs) (by rw [e]; exact hfile)
    rw [this, e]
  simp [handleDelete, bind_apply, Eff.andThen, getCtx, hbuf, hid, deleteProp, liftExcept,
    pure_apply, setGamedata, hw, respond_apply]

theorem handleSet_data (env : Env) (user : JVal) (u g : String) (account : JVal)
    (key k val : String) (c : Ctx) (props : List (String × JVal)) (hu : PlainName u)
    (hg : PlainName g) (hfs : HasGamesDir env c.fs u)
    (hfile : c.fs (gamePath env u g) ≠ some .dir)
    (hk : dataName key = some k)
    (hid : c.session.gameid = some g) (hbuf : c.session.gamedata = .obj props) :
    handleSet env user u account key val c =
      .done () { c with
        fs := c.fs.put (gamePath env u g)
          (some (.file (encode env (.obj (assignProp props k val)))))
        session := { c.session with gamedata := .obj (assignProp props k val) }
        sent := c.sent ++ [ack env ""] } := by
  have h1 : key ≠ "action" := by intro e; rw [e, dataName_action] at hk; cases hk
  have h2 : key ≠ "password" := by intro e; rw [e, dataName_password] at hk; cases hk
  have h3 : key ≠ "game" := by intro e; rw [e, dataName_game] at hk; cases hk
  have hw : ∀ c1 : Ctx, c1.fs = c.fs → ∀ v, writeJSON env (gameFile u (some g)) v c1 =
      .done () { c1 with fs := c.fs.put (gamePath env u g) (some (.file (encode env v))) } := by
    intro c1 e v
    have := writeJSON_game env u g v c1 hu hg (by rw [e]; exact hfs) (by rw [e]; exact hfile)
    rw [this, e]
  simp [handleSet, h1, h2, h3, hk, setData, bind_apply, Eff.andThen, getCtx, hbuf, hid, setProp,
    liftExcept, pure_apply, setGamedata, hw, received_apply]

theorem loadJSON_played (env : Env) (u : String) (c : Ctx) (text : String) (v : JVal)
    (hu : PlainName u) (hfs : HasGamesDir env c.fs u)
    (hfile : c.fs (playedPath env u) = some (.file text))
    (hdec : decodeText env text = some v) :
    loadJSON env (playedFile u) c = .done v c :=
  loadJSON_ok env _ (playedPath env u) text v c (resolve_playedFile env c.fs u hu hfs) hfile hdec

theorem loadJSON_game (env : Env) (u g : String) (c : Ctx) (text : String) (v : JVal)
    (hu : PlainName u) (hg : PlainName g) (hfs : HasGamesDir env c.fs u)
    (hfile : c.fs (gamePath env u g) = some (.file text))
    (hdec : decodeText env text = some v) :
    loadJSON env (gameFile u (some g)) c = .done v c :=
  loadJSON_ok env _ (gamePath env u g) text v c (resolve_gameFile env c.fs u g hu hg hfs) hfile
    hdec

theorem setGame_new (env : Env) (u g : String) (c : Ctx) (text : String) (items : List JVal)
    (hu : PlainName u) (hg : PlainName g) (hfs : HasGamesDir env c.fs u)
    (hindex : c.fs (playedPath env u) = some (.file text))
    (hdec : decodeText env text = some (.arr items))
    (hnew : (items.any fun x => strictEqStr x g) = false)
    (hfile : c.fs (gamePath env u g) ≠ some .dir) :
    setGame env u g c =
      .done () { c with
        fs := afterFirstVisit env c.fs u g items
        session := { c.session with gameid := some g, gamedata := .obj [] }
        sent := c.sent ++ [ack env "false"] } := by
  have hl : ∀ c1 : Ctx, c1.fs = c.fs → loadJSON env (playedFile u) c1 = .done (.arr items) c1 := by
    intro c1 e
    exact loadJSON_played env u c1 text _ hu (by rw [e]; exact hfs) (by rw [e]; exact hindex) hdec
  have hw1 : ∀ c1 : Ctx, c1.fs = c.fs → writeJSON env (gameFile u (some g)) (.obj []) c1 =
      .done () { c1 with
        fs := c.fs.put (gamePath env u g) (some (.file (encode env (.obj [])))) } := by
    intro c1 e
    have := writeJSON_game env u g (.obj []) c1 hu hg (by rw [e]; exact hfs)
      (by rw [e]; exact hfile)
    rw [this, e]
  have hfs1 : HasGamesDir env
      (c.fs.put (gamePath env u g) (some (.file (encode env (.obj []))))) u :=
    hasGamesDir_put hfs _ _ (by rw [length_gamePath]; omega)
  have hw2 : ∀ c1 : Ctx,
      c1.fs = c.fs.put (gamePath env u g) (some (.file (encode env (.obj [])))) →
      writeJSON env (playedFile u) (.arr (items ++ [.str g])) c1 =
        .done () { c1 with fs := afterFirstVisit env c.fs u g items } := by
    intro c1 e
    have := writeJSON_ok env (playedFile u) (playedPath env u) (.arr (items ++ [.str g])) c1
      (by rw [e]; exact resolve_playedFile env _ u hu hfs1)
      (by
        rw [e]
        by_cases hp : playedPath env u = gamePath env u g
        · rw [hp]
          exact isDir_of_file (gamePath_ne_nil env u g) (put_same _ _ _)
        · have : (c.fs.put (gamePath env u g) (some (.file (encode env (.obj [])))))
              (playedPath env u) = some (.file text) := by
            rw [put_other _ _ _ _ hp]; exact hindex
          exact isDir_of_file (playedPath_ne_nil env u) this)
      (by rw [e]; exact hasGamesDir_isDir hfs1)
    rw [this, e]
    rfl
  simp [setGame, bind_apply, Eff.andThen, setGameid, hl, includesStr, hnew, liftExcept,
    pure_apply, setGamedata, hw1, pushStr, hw2, received_apply]

theorem setGame_known (env : Env) (u g : String) (c : Ctx) (text gtext : String)
    (items : List JVal) (record : JVal)
    (hu : PlainName u) (hg : PlainName g) (hfs : HasGamesDir env c.fs u)
    (hindex : c.fs (playedPath env u) = some (.file text))
    (hdec : decodeText env text = some (.arr items))
    (hknown : (items.any fun x => strictEqStr x g) = true)
    (hfile : c.fs (gamePath env u g) = some (.file gtext))
    (hrec : decodeText env gtext = some record) :
    setGame env u g c =
      .done () { c with
        session := { c.session with gameid := some g, gamedata := record }
        sent := c.sent ++ [ack env "true"] } := by
  have hl : ∀ c1 : Ctx, c1.fs = c.fs → loadJSON env (playedFile u) c1 = .done (.arr items) c1 := by
    intro c1 e
    exact loadJSON_played env u c1 text _ hu (by rw [e]; exact hfs) (by rw [e]; exact hindex) hdec
  have hg1 : ∀ c1 : Ctx, c1.fs = c.fs →
      loadJSON env (gameFile u (some g)) c1 = .done record c1 := by
    intro c1 e
    exact loadJSON_game env u g c1 gtext _ hu hg (by rw [e]; exact hfs) (by rw [e]; exact hfile)
      hrec
  simp [setGame, bind_apply, Eff.andThen, setGameid, hl, includesStr, hknown, liftExcept,
    pure_apply, setGamedata, hg1, received_apply]

theorem setGame_index_object (env : Env) (u g : String) (c : Ctx) (text : String)
    (props : List (String × JVal))
    (hu : PlainName u) (hfs : HasGamesDir env c.fs u)
    (hindex : c.fs (playedPath env u) = some (.file text))
    (hdec : decodeText env text = some (.obj props)) :
    setGame env u g c =
      .thrown .typeError { c with session := { c.session with gameid := some g } } := by
  have hl : ∀ c1 : Ctx, c1.fs = c.fs →
      loadJSON env (playedFile u) c1 = .done (.obj props) c1 := by
    intro c1 e
    exact loadJSON_played env u c1 text _ hu (by rw [e]; exact hfs) (by rw [e]; exact hindex) hdec
  simp [setGame, bind_apply, Eff.andThen, setGameid, hl, includesStr, liftExcept, throwErr]

theorem handleSet_game (env : Env) (user : JVal) (u : String) (account : JVal) (val : String) :
    handleSet env user u account "game" val = setGame env u val := by
  simp [handleSet]

theorem setAction_delete_game (env : Env) (user : JVal) (u g : String) (c : Ctx) (text : String)
    (hu : PlainName u) (hg : PlainName g) (hfs : HasGamesDir env c.fs u)
    (hid : c.session.gameid = some g)
    (hfile : c.fs (gamePath env u g) = some (.file text)) :
    setAction env user u "delete game" c =
      .done () { c with
        fs := c.fs.put (gamePath env u g) none
        session := { c.session with currentAction := some "delete game" } } := by
  have hres := resolve_gameFile env c.fs u g hu hg hfs
  simp [setAction, bind_apply, Eff.andThen, setCurrentAction, getCtx, hid, existsSync,
    pathExists, hres, present_of_file hfile, unlinkSync, hfile, pure_apply]

theorem handleSet_action (env : Env) (user : JVal) (u : String) (account : JVal) (val : String) :
    handleSet env user u account "action" val = setAction env user u val := by
  simp [handleSet]

/-! ### Commands of a session where they succeed -/

theorem gamePath_ne_accountPath (env : Env) (u g : String) :
    gamePath env u g ≠ accountPath env u := by
  intro h
  have := congrArg List.length h
  rw [length_gamePath, length_accountPath] at this
  omega

theorem playedPath_ne_accountPath (env : Env) (u : String) :
    playedPath env u ≠ accountPath env u := gamePath_ne_accountPath env u "played"

theorem accountLoads_put (env : Env) (fs : FS) (u : String) (account : JVal) (p : List String)
    (n : Option Node) (hp : p ≠ accountPath env u) (h : AccountLoads env fs u account) :
    AccountLoads env (fs.put p n) u account := by
  unfold AccountLoads at h ⊢
  rw [put_other _ _ _ _ (Ne.symm hp)]
  exact h

theorem afterFirstVisit_hasGamesDir (env : Env) (fs : FS) (u g : String) (items : List JVal)
    (h : HasGamesDir env fs u) : HasGamesDir env (afterFirstVisit env fs u g items) u := by
  unfold afterFirstVisit
  exact hasGamesDir_put (hasGamesDir_put h _ _ (by rw [length_gamePath]; omega)) _ _
    (by rw [length_playedPath]; omega)

theorem afterFirstVisit_accountLoads (env : Env) (fs : FS) (u g : String) (items : List JVal)
    (account : JVal) (h : AccountLoads env fs u account) :
    AccountLoads env (afterFirstVisit env fs u g items) u account := by
  unfold afterFirstVisit
  exact accountLoads_put _ _ _ _ _ _ (playedPath_ne_accountPath env u)
    (accountLoads_put _ _ _ _ _ _ (gamePath_ne_accountPath env u g) h)

theorem afterFirstVisit_played (env : Env) (fs : FS) (u g : String) (items : List JVal) :
    afterFirstVisit env fs u g items (playedPath env u) =
      some (.file (encode env (.arr (items ++ [.str g])))) := by
  unfold afterFirstVisit
  exact put_same _ _ _

/-- The first visit of a game: `set;game;g` for a plain `g` that the index does not list. -/
theorem handle_first_visit (env : Env) (user : JVal) (u g : String) (account : JVal)
    (visit : JVal) (c : Ctx) (text : String) (items : List JVal)
    (hu : PlainName u) (hg : PlainName g) (hfs : HasGamesDir env c.fs u)
    (hacc : AccountLoads env c.fs u account)
    (hindex : c.fs (playedPath env u) = some (.file text))
    (hdec : decodeText env text = some (.arr items))
    (hnew : (items.any fun x => strictEqStr x g) = false)
    (hfile : c.fs (gamePath env u g) ≠ some .dir)
    (hvisit : Carries env visit "set" "game" g) :
    handle env user u (env.cloud.name "Main") visit c =
      .done () { c with
        fs := afterFirstVisit env c.fs u g items
        session := { c.session with gameid := some g, gamedata := .obj [] }
        sent := c.sent ++ [ack env "false"] } := by
  rw [handle_of_carries env _ _ visit _ _ _ hvisit (by decide),
    serveCommand_of_account env _ _ _ _ _ _ _ _ hu hfs.1 hacc]
  simp only [reduceCtorEq, if_false, if_true, handleSet_game]
  exact setGame_new env u g c text items hu hg hfs hindex hdec hnew hfile

theorem handle_set_data (env : Env) (user : JVal) (u g k v : String) (account : JVal)
    (store : JVal) (c : Ctx) (props : List (String × JVal))
    (hu : PlainName u) (hg : PlainName g) (hfs : HasGamesDir env c.fs u)
    (hacc : AccountLoads env c.fs u account)
    (hfile : c.fs (gamePath env u g) ≠ some .dir)
    (hid : c.session.gameid = some g) (hbuf : c.session.gamedata = .obj props)
    (hstore : Carries env store "set" ("data/" ++ k) v) :
    handle env user u (env.cloud.name "Main") store c =
      .done () { c with
        fs := c.fs.put (gamePath env u g)
          (some (.file (encode env (.obj (assignProp props k v)))))
        session := { c.session with gamedata := .obj (assignProp props k v) }
        sent := c.sent ++ [ack env ""] } := by
  rw [handle_of_carries env _ _ store _ _ _ hstore (by decide),
    serveCommand_of_account env _ _ _ _ _ _ _ _ hu hfs.1 hacc]
  simp only [reduceCtorEq, if_false, if_true]
  exact handleSet_data env user u g account _ k v c props hu hg hfs hfile (dataName_append k)
    hid hbuf

theorem ownProp_deleteOwn_of_ne (props : List (String × JVal)) (key k : String) (h : key ≠ k) :
    ownProp (deleteOwn props key) k = ownProp props k := by
  induction props with
  | nil => rfl
  | cons p rest ih =>
    obtain ⟨a, w⟩ := p
    by_cases ha : a = key
    · subst ha
      simp [deleteOwn, ownProp, ih, h]
    · by_cases hk : a = k
      · subst hk
        have hne : ¬ a = key := ha
        simp [deleteOwn, ownProp, hne]
      · simp [deleteOwn, ownProp, ha, hk, ih]

theorem data_key_ne (k : String) : "data/" ++ k ≠ k := by
  intro h
  have := congrArg String.length h
  simp [String.length_append] at this
  have h5 : "data/".length = 5 := by decide
  omega

theorem afterCreate_hasGamesDir (env : Env) (fs : FS) (user : JVal) (u : String)
    (h : Based env fs) : HasGamesDir env (afterCreate env fs user u) u := by
  unfold afterCreate
  refine hasGamesDir_put ⟨hasUserDir_put ⟨based_put (based_put h _ _ ?_) _ _ ?_, ?_⟩ _ _ ?_,
    put_same _ _ _⟩ _ _ ?_
  · rw [length_userPath]; omega
  · rw [length_accountPath]; omega
  · rw [put_of_length _ _ _ _ (by rw [length_userPath, length_accountPath]; omega)]
    exact put_same _ _ _
  · rw [length_gamesPath]; omega
  · rw [length_playedPath]; omega

theorem afterCreate_account (env : Env) (fs : FS) (user : JVal) (u : String) :
    afterCreate env fs user u (accountPath env u) =
      some (.file (encode env (.obj [("username", user)]))) := by
  unfold afterCreate
  rw [put_of_length _ _ _ _ (by rw [length_accountPath, length_playedPath]; omega),
    put_other _ _ _ _ (accountPath_ne_gamesPath env _).symm, put_same]

theorem afterCreate_played (env : Env) (fs : FS) (user : JVal) (u : String) :
    afterCreate env fs user u (playedPath env u) = some (.file (encode env (.arr []))) := by
  unfold afterCreate
  exact put_same _ _ _

theorem gamePath_ne_playedPath (env : Env) (u g : String) (h : g ≠ "played") :
    gamePath env u g ≠ playedPath env u := by
  simp [gamePath, playedPath, h]

theorem NoRecords.at_game {env : Env} {fs : FS} {u : String} (h : NoRecords env fs u)
    (g : String) : fs (gamePath env u g) = none := h [g, "games"]

theorem afterCreate_game (env : Env) (fs : FS) (user : JVal) (u g : String)
    (hg : g ≠ "played") (hnone : NoRecords env fs u) :
    afterCreate env fs user u (gamePath env u g) = none := by
  unfold afterCreate
  rw [put_other _ _ _ _ (gamePath_ne_playedPath env u g hg),
    put_of_length _ _ _ _ (by rw [length_gamePath, length_gamesPath]; omega),
    put_of_length _ _ _ _ (by rw [length_gamePath, length_accountPath]; omega),
    put_of_length _ _ _ _ (by rw [length_gamePath, length_userPath]; omega)]
  exact hnone.at_game g

theorem loadJSON_missing (env : Env) (path p : List String) (c : Ctx)
    (hres : resolve env.cwd c.fs path = some p) (hnone : c.fs p = none) :
    loadJSON env path c = .thrown .storage c := by
  simp [loadJSON, bind_apply, Eff.andThen, readFileSync, hres, hnone]

theorem setGame_known_missing (env : Env) (u g : String) (c : Ctx) (text : String)
    (items : List JVal)
    (hu : PlainName u) (hg : PlainName g) (hfs : HasGamesDir env c.fs u)
    (hindex : c.fs (playedPath env u) = some (.file text))
    (hdec : decodeText env text = some (.arr items))
    (hknown : (items.any fun x => strictEqStr x g) = true)
    (hnone : c.fs (gamePath env u g) = none) :
    setGame env u g c =
      .thrown .storage { c with session := { c.session with gameid := some g } } := by
  have hl : ∀ c1 : Ctx, c1.fs = c.fs → loadJSON env (playedFile u) c1 = .done (.arr items) c1 := by
    intro c1 e
    exact loadJSON_played env u c1 text _ hu (by rw [e]; exact hfs) (by rw [e]; exact hindex) hdec
  have hg1 : ∀ c1 : Ctx, c1.fs = c.fs →
      loadJSON env (gameFile u (some g)) c1 = .thrown .storage c1 := by
    intro c1 e
    exact loadJSON_missing env _ (gamePath env u g) c1
      (by rw [e]; exact resolve_gameFile env c.fs u g hu hg hfs) (by rw [e]; exact hnone)
  simp [setGame, bind_apply, Eff.andThen, setGameid, hl, includesStr, hknown, liftExcept,
    pure_apply, hg1]

theorem handle_known_visit (env : Env) (user : JVal) (u g : String) (account : JVal)
    (visit : JVal) (c : Ctx) (text gtext : String) (items : List JVal) (record : JVal)
    (hu : PlainName u) (hg : PlainName g) (hfs : HasGamesDir env c.fs u)
    (hacc : AccountLoads env c.fs u account)
    (hindex : c.fs (playedPath env u) = some (.file text))
    (hdec : decodeText env text = some (.arr items))
    (hknown : (items.any fun x => strictEqStr x g) = true)
    (hfile : c.fs (gamePath env u g) = some (.file gtext))
    (hrec : decodeText env gtext = some record)
    (hvisit : Carries env visit "set" "game" g) :
    handle env user u (env.cloud.name "Main") visit c =
      .done () { c with
        session := { c.session with gameid := some g, gamedata := record }
        sent := c.sent ++ [ack env "true"] } := by
  rw [handle_of_carries env _ _ visit _ _ _ hvisit (by decide),
    serveCommand_of_account env user u _ _ _ _ c account hu hfs.1 hacc]
  simp only [reduceCtorEq, if_false, if_true, handleSet_game]
  exact setGame_known env u g c text gtext items record hu hg hfs hindex hdec hknown hfile hrec

theorem handle_get_data (env : Env) (user : JVal) (u k : String) (account : JVal)
    (get : JVal) (val : String) (c : Ctx) (props : List (String × JVal))
    (hu : PlainName u) (hfs : HasUserDir env c.fs u)
    (hacc : AccountLoads env c.fs u account)
    (hbuf : c.session.gamedata = .obj props)
    (hget : Carries env get "get" ("data/" ++ k) val) :
    handle env user u (env.cloud.name "Main") get c =
      .done () { c with
        sent := c.sent ++ [response env (field1 env get) (lookupProp props k)] } := by
  rw [handle_of_carries env _ _ get _ _ _ hget (by decide),
    serveCommand_of_account env user u _ _ _ _ c account hu hfs hacc]
  simp only [if_true]
  exact handleGet_data env u _ _ k c props (dataName_append k) hbuf

theorem any_append_self (items : List JVal) (g : String) :
    ((items ++ [JVal.str g]).any fun x => strictEqStr x g) = true := by
  simp [List.any_append, strictEqStr]

theorem lookupProp_assign_new (k v : String) (hk : k ≠ "__proto__") :
    lookupProp (assignProp [] k v) k = .str v := by
  simp [lookupProp, assignProp, hk, setOwn, ownProp]

theorem handle_delete (env : Env) (user : JVal) (u g key : String) (account : JVal)
    (del : JVal) (val : String) (c : Ctx) (props : List (String × JVal))
    (hu : PlainName u) (hg : PlainName g) (hfs : HasGamesDir env c.fs u)
    (hacc : AccountLoads env c.fs u account)
    (hfile : c.fs (gamePath env u g) ≠ some .dir)
    (hid : c.session.gameid = some g) (hbuf : c.session.gamedata = .obj props)
    (hdel : Carries env del "delete" key val) :
    handle env user u (env.cloud.name "Main") del c =
      .done () { c with
        fs := c.fs.put (gamePath env u g) (some (.file (encode env (.obj (deleteOwn props key)))))
        session := { c.session with gamedata := .obj (deleteOwn props key) }
        sent := c.sent ++ [response env (field1 env del) .undefined] } := by
  rw [handle_of_carries env _ _ del _ _ _ hdel (by decide),
    serveCommand_of_account env user u _ _ _ _ c account hu hfs.1 hacc]
  simp only [reduceCtorEq, if_false, if_true]
  exact handleDelete_obj env u g _ _ c props hu hg hfs hfile hid hbuf

/-! ### C2 -/

theorem emptyData_based : Based sampleEnv emptyData := ⟨by decide, by decide⟩

theorem emptyData_noRecords (u : String) : NoRecords sampleEnv emptyData u := by
  intro q
  unfold emptyData
  rw [if_neg]
  intro h
  rcases h with h | h <;>
  · have := congrArg List.length h
    simp [userPath, sampleEnv] at this

/-- C2, as the code has it: for a user with nothing stored whose code is a single path name of
at most `nameMax` bytes, `set;action;create account` and then `set;password;p` are each
acknowledged with `received`; in any later session of the same user that finds the
directory of the user and the account file as the two commands left it, `set;action;log in` is
acknowledged with `received` and a following `set;password;q` with the payload `true` if `q = p`
and `false` otherwise. -/
theorem password_round_trip (env : Env) (user p : String) (create password : JVal) (c : Ctx)
    (hu : PlainName (usercodeOf env user)) (hbase : Based env c.fs)
    (hnone : NoRecords env c.fs (usercodeOf env user))
    (hcreate : Carries env create "set" "action" "create account")
    (hpassword : Carries env password "set" "password" p)
    (hcodec1 : Lossless env (.obj [("username", .str user)]))
    (hcodec2 : Lossless env (.obj [("username", .str user), ("password", .str p)])) :
    ∃ c1 c2 : Ctx,
      handle env (.str user) (usercodeOf env user) (env.cloud.name "Main") create c =
        .done () c1 ∧
      c1.sent = c.sent ++ [ack env ""] ∧
      handle env (.str user) (usercodeOf env user) (env.cloud.name "Main") password c1 =
        .done () c2 ∧
      c2.sent = c1.sent ++ [ack env ""] ∧
      ∀ (later : Ctx) (login attempt : JVal) (q : String),
        HasUserDir env later.fs (usercodeOf env user) →
        later.fs (accountPath env (usercodeOf env user)) =
          c2.fs (accountPath env (usercodeOf env user)) →
        Carries env login "set" "action" "log in" →
        Carries env attempt "set" "password" q →
        ∃ c3 c4 : Ctx,
          handle env (.str user) (usercodeOf env user) (env.cloud.name "Main") login later =
            .done () c3 ∧
          c3.sent = later.sent ++ [ack env ""] ∧
          handle env (.str user) (usercodeOf env user) (env.cloud.name "Main") attempt c3 =
            .done () c4 ∧
          c4.sent = c3.sent ++ [ack env (if q = p then "true" else "false")] := by
  have h1 := handle_create_account env (.str user) (usercodeOf env user) create c hu hbase hnone
    hcreate
  -- the store after the creation
  have hdir : HasUserDir env (afterCreate env c.fs (.str user) (usercodeOf env user))
      (usercodeOf env user) := by
    unfold afterCreate
    refine hasUserDir_put (hasUserDir_put (hasUserDir_put ⟨based_put hbase _ _ ?_, put_same _ _ _⟩
      _ _ ?_) _ _ ?_) _ _ ?_
    · rw [length_userPath]; omega
    · rw [length_accountPath]; omega
    · rw [length_gamesPath]; omega
    · rw [length_playedPath]; omega
  have hfile : afterCreate env c.fs (.str user) (usercodeOf env user)
      (accountPath env (usercodeOf env user)) =
        some (.file (encode env (.obj [("username", .str user)]))) := by
    unfold afterCreate
    rw [put_of_length _ _ _ _ (by rw [length_accountPath, length_playedPath]; omega),
      put_other _ _ _ _ (accountPath_ne_gamesPath env _).symm, put_same]
  have hset : setProp (.obj [("username", .str user)]) "password" p =
      .ok (.obj [("username", .str user), ("password", .str p)]) := by
    simp [setProp, assignProp, setOwn]
  have h2 := handle_create_password env (.str user) (usercodeOf env user) password
    { c with
      fs := afterCreate env c.fs (.str user) (usercodeOf env user)
      session := { c.session with currentAction := some "create account" }
      sent := c.sent ++ [ack env ""] }
    _ _ _ p hu hdir hfile hcodec1 hset rfl hpassword
  refine ⟨_, _, h1, rfl, h2, rfl, ?_⟩
  intro later login attempt q hlater hsame hlogin hattempt
  have hacc : later.fs (accountPath env (usercodeOf env user)) =
      some (.file (encode env (.obj [("username", .str user), ("password", .str p)]))) := by
    rw [hsame]
    exact put_same _ _ _
  have h3 := handle_login_action env (.str user) (usercodeOf env user) login later _ _ hu hlater
    hacc hcodec2 hlogin
  have hpw : getProp (.obj [("username", .str user), ("password", .str p)]) "password" =
      .ok (.str p) := by
    simp [getProp, lookupProp, ownProp]
  have h4 := handle_login_password env (.str user) (usercodeOf env user) attempt
    { later with
      session := { later.session with currentAction := some "log in" }
      sent := later.sent ++ [ack env ""] }
    _ _ _ q hu hlater hacc hcodec2 hpw rfl hattempt
  refine ⟨_, _, h3, rfl, h4, ?_⟩
  by_cases hq : q = p
  · simp [hq, strictEqStr]
  · have : ¬ p = q := fun e => hq e.symm
    simp [hq, strictEqStr, this]

/-- Witness of C2: user `7` on the bare data directory, password `pw`. -/
theorem password_round_trip_witness :
    ∃ c1 c2 : Ctx,
      handle sampleEnv (.str "7") (usercodeOf sampleEnv "7") (sampleEnv.cloud.name "Main")
        (.str "set;action;create account") freshCtx = .done () c1 ∧
      c1.sent = freshCtx.sent ++ [ack sampleEnv ""] ∧
      handle sampleEnv (.str "7") (usercodeOf sampleEnv "7") (sampleEnv.cloud.name "Main")
        (.str "set;password;pw") c1 = .done () c2 ∧
      c2.sent = c1.sent ++ [ack sampleEnv ""] ∧
      ∀ (later : Ctx) (login attempt : JVal) (q : String),
        HasUserDir sampleEnv later.fs (usercodeOf sampleEnv "7") →
        later.fs (accountPath sampleEnv (usercodeOf sampleEnv "7")) =
          c2.fs (accountPath sampleEnv (usercodeOf sampleEnv "7")) →
        Carries sampleEnv login "set" "action" "log in" →
        Carries sampleEnv attempt "set" "password" q →
        ∃ c3 c4 : Ctx,
          handle sampleEnv (.str "7") (usercodeOf sampleEnv "7") (sampleEnv.cloud.name "Main")
            login later = .done () c3 ∧
          c3.sent = later.sent ++ [ack sampleEnv ""] ∧
          handle sampleEnv (.str "7") (usercodeOf sampleEnv "7") (sampleEnv.cloud.name "Main")
            attempt c3 = .done () c4 ∧
          c4.sent = c3.sent ++ [ack sampleEnv (if q = "pw" then "true" else "false")] :=
  password_round_trip sampleEnv "7" "pw" (.str "set;action;create account")
    (.str "set;password;pw") freshCtx (by decide) emptyData_based (emptyData_noRecords _)
    ⟨by decide, by decide, by decide⟩ ⟨by decide, by decide, by decide⟩ (by rfl) (by rfl)

set_option maxRecDepth 100000 in
/-- Counterexample to C2: nothing is stored for the user whose code has 256 bytes, and
`set;action;create account` throws the storage error of `mkdirSync` (line 297) without an
acknowledgement. -/
theorem long_user_code_is_refused :
    NoRecords sampleEnv freshCtx.fs (usercodeOf sampleEnv longCode) ∧
    nameBytes (usercodeOf sampleEnv longCode) = 256 ∧
    (handle sampleEnv (.str longCode) (usercodeOf sampleEnv longCode)
      (sampleEnv.cloud.name "Main") (.str "set;action;create account")
      freshCtx).thrownErr = some .storage ∧
    (handle sampleEnv (.str longCode) (usercodeOf sampleEnv longCode)
      (sampleEnv.cloud.name "Main") (.str "set;action;create account")
      freshCtx).ctx.sent = [] :=
  ⟨emptyData_noRecords _, by decide, by rfl, by rfl⟩

/-! ### C3 -/

/-- C3 at the game id `played`, for every cloud adapter and codec: when the index of the user
does not list `played`, `set;game;played` is acknowledged with `false` and `set;data/k;v` with
`received`, and in the next session `set;game;played` throws a TypeError and acknowledges
nothing, because the record of the game was written to the file of the index. -/
theorem revisit_of_played_throws (env : Env) (user : JVal) (u k v : String) (account : JVal)
    (visit store : JVal) (c : Ctx) (text : String) (items : List JVal)
    (hu : PlainName u) (hfs : HasGamesDir env c.fs u)
    (hacc : AccountLoads env c.fs u account)
    (hindex : c.fs (playedPath env u) = some (.file text))
    (hdec : decodeText env text = some (.arr items))
    (hnew : (items.any fun x => strictEqStr x "played") = false)
    (hvisit : Carries env visit "set" "game" "played")
    (hstore : Carries env store "set" ("data/" ++ k) v)
    (hcodec : Lossless env (.obj (assignProp [] k v))) :
    ∃ c1 c2 : Ctx,
      handle env user u (env.cloud.name "Main") visit c = .done () c1 ∧
      c1.sent = c.sent ++ [ack env "false"] ∧
      handle env user u (env.cloud.name "Main") store c1 = .done () c2 ∧
      c2.sent = c1.sent ++ [ack env ""] ∧
      (handle env user u (env.cloud.name "Main") visit (newSession c2.fs)).thrownErr =
        some .typeError ∧
      (handle env user u (env.cloud.name "Main") visit (newSession c2.fs)).ctx.sent = [] := by
  have hsame : gamePath env u "played" = playedPath env u := rfl
  have h1 := handle_first_visit env user u "played" account visit c text items hu plain_played
    hfs hacc hindex hdec hnew (by rw [hsame, hindex]; exact fun h => by cases h) hvisit
  have hfs1 := afterFirstVisit_hasGamesDir env c.fs u "played" items hfs
  have hacc1 := afterFirstVisit_accountLoads env c.fs u "played" items account hacc
  have h2 := handle_set_data env user u "played" k v account store
    { c with
      fs := afterFirstVisit env c.fs u "played" items
      session := { c.session with gameid := some "played", gamedata := .obj [] }
      sent := c.sent ++ [ack env "false"] }
    [] hu plain_played hfs1 hacc1
    (by
      show afterFirstVisit env c.fs u "played" items (gamePath env u "played") ≠ some .dir
      rw [hsame, afterFirstVisit_played]; exact fun h => by cases h)
    rfl rfl hstore
  have hfs2 : HasGamesDir env ((afterFirstVisit env c.fs u "played" items).put
      (gamePath env u "played") (some (.file (encode env (.obj (assignProp [] k v)))))) u :=
    hasGamesDir_put hfs1 _ _ (by rw [length_gamePath]; omega)
  have hacc2 := accountLoads_put env _ u account (gamePath env u "played")
    (some (.file (encode env (.obj (assignProp [] k v))))) (gamePath_ne_accountPath env u _)
    hacc1
  have h3 : handle env user u (env.cloud.name "Main") visit
      (newSession ((afterFirstVisit env c.fs u "played" items).put
        (gamePath env u "played") (some (.file (encode env (.obj (assignProp [] k v))))))) =
      .thrown .typeError
        { newSession ((afterFirstVisit env c.fs u "played" items).put
            (gamePath env u "played")
            (some (.file (encode env (.obj (assignProp [] k v)))))) with
          session := { Session.fresh with gameid := some "played" } } := by
    rw [handle_of_carries env _ _ visit _ _ _ hvisit (by decide),
      serveCommand_of_account env user u _ _ _ _
        (newSession ((afterFirstVisit env c.fs u "played" items).put
          (gamePath env u "played") (some (.file (encode env (.obj (assignProp [] k v)))))))
        account hu hfs2.1 hacc2]
    simp only [reduceCtorEq, if_false, if_true, handleSet_game]
    exact setGame_index_object env u "played" _ _ (assignProp [] k v) hu hfs2
      (by rw [← hsame]; exact put_same _ _ _) hcodec
  refine ⟨_, _, h1, rfl, h2, rfl, ?_, ?_⟩
  · rw [h3]; rfl
  · rw [h3]; rfl

/-- Witness of C3 at `played`: user `7` with an empty index stores `score = 42`. -/
theorem revisit_of_played_throws_witness :
    ∃ c1 c2 : Ctx,
      handle sampleEnv (.str "7") "7" (sampleEnv.cloud.name "Main") (.str "set;game;played")
        (newSession accountStore) = .done () c1 ∧
      c1.sent = (newSession accountStore).sent ++ [ack sampleEnv "false"] ∧
      handle sampleEnv (.str "7") "7" (sampleEnv.cloud.name "Main") (.str "set;data/score;42")
        c1 = .done () c2 ∧
      c2.sent = c1.sent ++ [ack sampleEnv ""] ∧
      (handle sampleEnv (.str "7") "7" (sampleEnv.cloud.name "Main") (.str "set;game;played")
        (newSession c2.fs)).thrownErr = some .typeError ∧
      (handle sampleEnv (.str "7") "7" (sampleEnv.cloud.name "Main") (.str "set;game;played")
        (newSession c2.fs)).ctx.sent = [] :=
  revisit_of_played_throws sampleEnv (.str "7") "7" "score" "42"
    (.obj [("username", .str "7")]) (.str "set;game;played") (.str "set;data/score;42")
    (newSession accountStore) "L" [] (by decide)
    (afterCreate_hasGamesDir sampleEnv emptyData _ _ emptyData_based)
    (Or.inr ⟨"U", rfl, rfl⟩) rfl rfl rfl ⟨by decide, by decide, by decide⟩
    ⟨by decide, by decide, by decide⟩ (by rfl)

/-- The commands of user `7` evaluated: the games index exists and is empty; `set;game;played`
is acknowledged with `false` and `set;data/score;42` with `received`, but both records are written
to the file of the index, which then holds the score; in the next session `set;game;played` throws
a TypeError (the index is no list any more) and nothing is acknowledged. -/
theorem revisit_of_game_played_throws :
    (accountStore (playedPath sampleEnv "7")).map
        (fun n => match n with
          | .file text => decodeText sampleEnv text
          | .dir => none) = some (some (.arr [])) ∧
    afterPlayed.ctx.sent = [ack sampleEnv "false", ack sampleEnv ""] ∧
    afterPlayed.ctx.fs (playedPath sampleEnv "7") =
      some (.file (encode sampleEnv (.obj [("score", .str "42")]))) ∧
    (handle sampleEnv (.str "7") "7" (sampleEnv.cloud.name "Main") (.str "set;game;played")
      (newSession afterPlayed.ctx.fs)).thrownErr = some .typeError ∧
    (handle sampleEnv (.str "7") "7" (sampleEnv.cloud.name "Main") (.str "set;game;played")
      (newSession afterPlayed.ctx.fs)).ctx.sent = [] :=
  ⟨rfl, rfl, rfl, rfl, rfl⟩

/-- The first visit of a game and the next session, for a game id other than `played`: the
scenario of C3 as the code runs it on every plain game id that does not collide with the index. -/
theorem first_visit_round_trip (env : Env) (user : JVal) (u g k v : String) (account : JVal)
    (visit store get : JVal) (val : String) (c : Ctx) (text : String) (items : List JVal)
    (hu : PlainName u) (hg : PlainName g) (hplayed : g ≠ "played") (hk : k ≠ "__proto__")
    (hfs : HasGamesDir env c.fs u) (hacc : AccountLoads env c.fs u account)
    (hindex : c.fs (playedPath env u) = some (.file text))
    (hdec : decodeText env text = some (.arr items))
    (hnew : (items.any fun x => strictEqStr x g) = false)
    (hfile : c.fs (gamePath env u g) ≠ some .dir)
    (hvisit : Carries env visit "set" "game" g)
    (hstore : Carries env store "set" ("data/" ++ k) v)
    (hget : Carries env get "get" ("data/" ++ k) val)
    (hcodec1 : Lossless env (.arr (items ++ [.str g])))
    (hcodec2 : Lossless env (.obj (assignProp [] k v))) :
    ∃ c1 c2 c3 c4 : Ctx,
      handle env user u (env.cloud.name "Main") visit c = .done () c1 ∧
      c1.sent = c.sent ++ [ack env "false"] ∧
      c1.fs (gamePath env u g) = some (.file (encode env (.obj []))) ∧
      c1.fs (playedPath env u) = some (.file (encode env (.arr (items ++ [.str g])))) ∧
      handle env user u (env.cloud.name "Main") store c1 = .done () c2 ∧
      c2.sent = c1.sent ++ [ack env ""] ∧
      handle env user u (env.cloud.name "Main") visit (newSession c2.fs) = .done () c3 ∧
      c3.sent = [ack env "true"] ∧
      handle env user u (env.cloud.name "Main") get c3 = .done () c4 ∧
      c4.sent = c3.sent ++ [response env (field1 env get) (.str v)] := by
  have hne := gamePath_ne_playedPath env u g hplayed
  have h1 := handle_first_visit env user u g account visit c text items hu hg hfs hacc hindex
    hdec hnew hfile hvisit
  have hfs1 := afterFirstVisit_hasGamesDir env c.fs u g items hfs
  have hacc1 := afterFirstVisit_accountLoads env c.fs u g items account hacc
  have hgame1 : afterFirstVisit env c.fs u g items (gamePath env u g) =
      some (.file (encode env (.obj []))) := by
    unfold afterFirstVisit
    rw [put_other _ _ _ _ hne, put_same]
  have h2 := handle_set_data env user u g k v account store
    { c with
      fs := afterFirstVisit env c.fs u g items
      session := { c.session with gameid := some g, gamedata := .obj [] }
      sent := c.sent ++ [ack env "false"] }
    [] hu hg hfs1 hacc1
    (by
      show afterFirstVisit env c.fs u g items (gamePath env u g) ≠ some .dir
      rw [hgame1]; exact fun h => by cases h)
    rfl rfl hstore
  have hfs2 : HasGamesDir env ((afterFirstVisit env c.fs u g items).put
      (gamePath env u g) (some (.file (encode env (.obj (assignProp [] k v)))))) u :=
    hasGamesDir_put hfs1 _ _ (by rw [length_gamePath]; omega)
  have hacc2 := accountLoads_put env _ u account (gamePath env u g)
    (some (.file (encode env (.obj (assignProp [] k v))))) (gamePath_ne_accountPath env u _)
    hacc1
  have hindex2 : ((afterFirstVisit env c.fs u g items).put
      (gamePath env u g) (some (.file (encode env (.obj (assignProp [] k v))))))
      (playedPath env u) = some (.file (encode env (.arr (items ++ [.str g])))) := by
    rw [put_other _ _ _ _ hne.symm, afterFirstVisit_played]
  have h3 := handle_known_visit env user u g account visit
    (newSession ((afterFirstVisit env c.fs u g items).put
      (gamePath env u g) (some (.file (encode env (.obj (assignProp [] k v)))))))
    _ _ (items ++ [JVal.str g]) (.obj (assignProp [] k v)) hu hg hfs2 hacc2 hindex2 hcodec1
    (any_append_self items g) (put_same _ _ _) hcodec2 hvisit
  have h4 := handle_get_data env user u k account get val
    { newSession ((afterFirstVisit env c.fs u g items).put
        (gamePath env u g) (some (.file (encode env (.obj (assignProp [] k v)))))) with
      session := { Session.fresh with gameid := some g, gamedata := .obj (assignProp [] k v) }
      sent := [] ++ [ack env "true"] }
    (assignProp [] k v) hu hfs2.1 hacc2 rfl hget
  rw [lookupProp_assign_new k v hk] at h4
  exact ⟨_, _, _, _, h1, rfl, hgame1, afterFirstVisit_played env c.fs u g items, h2, rfl, h3,
    rfl, h4, rfl⟩

/-- The scenario of C3 for user `7`, the game `level1` and the score `42`. -/
theorem first_visit_round_trip_sample :
    ∃ c1 c2 c3 c4 : Ctx,
      handle sampleEnv (.str "7") "7" (sampleEnv.cloud.name "Main") (.str "set;game;level1")
        (newSession accountStore) = .done () c1 ∧
      c1.sent = (newSession accountStore).sent ++ [ack sampleEnv "false"] ∧
      c1.fs (gamePath sampleEnv "7" "level1") = some (.file (encode sampleEnv (.obj []))) ∧
      c1.fs (playedPath sampleEnv "7") =
        some (.file (encode sampleEnv (.arr ([] ++ [.str "level1"])))) ∧
      handle sampleEnv (.str "7") "7" (sampleEnv.cloud.name "Main") (.str "set;data/score;42")
        c1 = .done () c2 ∧
      c2.sent = c1.sent ++ [ack sampleEnv ""] ∧
      handle sampleEnv (.str "7") "7" (sampleEnv.cloud.name "Main") (.str "set;game;level1")
        (newSession c2.fs) = .done () c3 ∧
      c3.sent = [ack sampleEnv "true"] ∧
      handle sampleEnv (.str "7") "7" (sampleEnv.cloud.name "Main") (.str "get;data/score")
        c3 = .done () c4 ∧
      c4.sent = c3.sent ++
        [response sampleEnv (field1 sampleEnv (.str "get;data/score")) (.str "42")] :=
  first_visit_round_trip sampleEnv (.str "7") "7" "level1" "score" "42"
    (.obj [("username", .str "7")]) (.str "set;game;level1") (.str "set;data/score;42")
    (.str "get;data/score") "" (newSession accountStore) "L" [] (by decide) (by decide)
    (by decide) (by decide) (afterCreate_hasGamesDir sampleEnv emptyData _ _ emptyData_based)
    (Or.inr ⟨"U", rfl, rfl⟩) rfl rfl rfl (by decide) ⟨by decide, by decide, by decide⟩
    ⟨by decide, by decide, by decide⟩ ⟨by decide, by decide, by decide⟩ (by rfl) (by rfl)

/-! ### C4 -/

/-- C4 on the code, for every cloud adapter and codec: in a session whose buffer holds `v` under
`k`, `delete;data/k` is answered with an empty response and removes the property `data/k`; the
buffer and the stored record still hold `v` under `k`, and the following `get;data/k` responds
with `v`. -/
theorem delete_keeps_data_entry (env : Env) (user : JVal) (u g k : String) (v account : JVal)
    (del get : JVal) (val0 val1 : String) (c : Ctx) (props : List (String × JVal))
    (hu : PlainName u) (hg : PlainName g) (hfs : HasGamesDir env c.fs u)
    (hacc : AccountLoads env c.fs u account)
    (hid : c.session.gameid = some g) (hbuf : c.session.gamedata = .obj props)
    (hk : ownProp props k = some v)
    (hfile : c.fs (gamePath env u g) ≠ some .dir)
    (hdel : Carries env del "delete" ("data/" ++ k) val0)
    (hget : Carries env get "get" ("data/" ++ k) val1) :
    ∃ c1 c2 : Ctx,
      handle env user u (env.cloud.name "Main") del c = .done () c1 ∧
      c1.sent = c.sent ++ [response env (field1 env del) .undefined] ∧
      c1.session.gamedata = .obj (deleteOwn props ("data/" ++ k)) ∧
      lookupProp (deleteOwn props ("data/" ++ k)) k = v ∧
      c1.fs (gamePath env u g) = some (.file (encode env c1.session.gamedata)) ∧
      handle env user u (env.cloud.name "Main") get c1 = .done () c2 ∧
      c2.sent = c1.sent ++ [response env (field1 env get) v] := by
  have hlook : lookupProp (deleteOwn props ("data/" ++ k)) k = v := by
    unfold lookupProp
    rw [ownProp_deleteOwn_of_ne props _ k (data_key_ne k), hk]
  have h1 : handle env user u (env.cloud.name "Main") del c =
      .done () { c with
        fs := c.fs.put (gamePath env u g)
          (some (.file (encode env (.obj (deleteOwn props ("data/" ++ k))))))
        session := { c.session with gamedata := .obj (deleteOwn props ("data/" ++ k)) }
        sent := c.sent ++ [response env (field1 env del) .undefined] } := by
    rw [handle_of_carries env user u del _ _ _ hdel (by decide),
      serveCommand_of_account env user u _ _ _ _ c account hu hfs.1 hacc]
    simp only [reduceCtorEq, if_false, if_true]
    exact handleDelete_obj env u g _ _ c props hu hg hfs hfile hid hbuf
  have hfs1 : HasGamesDir env
      (c.fs.put (gamePath env u g)
        (some (.file (encode env (.obj (deleteOwn props ("data/" ++ k))))))) u :=
    hasGamesDir_put hfs _ _ (by rw [length_gamePath]; omega)
  have hacc1 := accountLoads_put env c.fs u account (gamePath env u g)
    (some (.file (encode env (.obj (deleteOwn props ("data/" ++ k))))))
    (gamePath_ne_accountPath env u g) hacc
  have h2 : handle env user u (env.cloud.name "Main") get
      { c with
        fs := c.fs.put (gamePath env u g)
          (some (.file (encode env (.obj (deleteOwn props ("data/" ++ k))))))
        session := { c.session with gamedata := .obj (deleteOwn props ("data/" ++ k)) }
        sent := c.sent ++ [response env (field1 env del) .undefined] } =
      .done () { c with
        fs := c.fs.put (gamePath env u g)
          (some (.file (encode env (.obj (deleteOwn props ("data/" ++ k))))))
        session := { c.session with gamedata := .obj (deleteOwn props ("data/" ++ k)) }
        sent := (c.sent ++ [response env (field1 env del) .undefined]) ++
          [response env (field1 env get) (lookupProp (deleteOwn props ("data/" ++ k)) k)] } := by
    rw [handle_of_carries env user u get _ _ _ hget (by decide),
      serveCommand_of_account env user u _ _ _ _ _ account hu hfs1.1 hacc1]
    simp only [if_true]
    exact handleGet_data env u _ _ k _ _ (dataName_append k) rfl
  refine ⟨_, _, h1, rfl, rfl, hlook, ?_, h2, ?_⟩
  · exact put_same _ _ _
  · simp only [hlook]

/-- Witness of C4 on the code: the session of user `7` in the game `level1` with the score
`42`. -/
theorem delete_keeps_data_entry_witness :
    ∃ c1 c2 : Ctx,
      handle sampleEnv (.str "7") "7" (sampleEnv.cloud.name "Main") (.str "delete;data/score")
        scoreCtx = .done () c1 ∧
      c1.sent = scoreCtx.sent ++
        [response sampleEnv (field1 sampleEnv (.str "delete;data/score")) .undefined] ∧
      c1.session.gamedata = .obj (deleteOwn [("score", .str "42")] ("data/" ++ "score")) ∧
      lookupProp (deleteOwn [("score", .str "42")] ("data/" ++ "score")) "score" = .str "42" ∧
      c1.fs (gamePath sampleEnv "7" "level1") =
        some (.file (encode sampleEnv c1.session.gamedata)) ∧
      handle sampleEnv (.str "7") "7" (sampleEnv.cloud.name "Main") (.str "get;data/score")
        c1 = .done () c2 ∧
      c2.sent = c1.sent ++
        [response sampleEnv (field1 sampleEnv (.str "get;data/score")) (.str "42")] :=
  delete_keeps_data_entry sampleEnv (.str "7") "7" "level1" "score" (.str "42")
    (.obj [("username", .str "7")]) (.str "delete;data/score") (.str "get;data/score") "" ""
    scoreCtx [("score", .str "42")] (by decide) (by decide)
    ⟨⟨⟨rfl, rfl⟩, rfl⟩, rfl⟩ (Or.inr ⟨"U", rfl, rfl⟩) rfl rfl rfl (by decide)
    ⟨by decide, by decide, by decide⟩ ⟨by decide, by decide, by decide⟩

/-- The commands of user `7` evaluated: in a session whose buffer for `level1` holds `score = 42`,
`delete;data/score` is answered with an empty response but removes the property `data/score`, not
`score`: the buffer and the stored record keep the score, and the following `get;data/score`
responds with `42`. -/
theorem delete_of_data_key_keeps_entry :
    (handleAll sampleEnv (.str "7") "7" [.str "set;game;level1"]
      (newSession afterLevel.ctx.fs)).ctx.session.gamedata = .obj [("score", .str "42")] ∧
    (handleAll sampleEnv (.str "7") "7"
      [.str "set;game;level1", .str "delete;data/score", .str "get;data/score"]
      (newSession afterLevel.ctx.fs)).ctx.sent =
        [ack sampleEnv "true", response sampleEnv (some "data/score") .undefined,
         response sampleEnv (some "data/score") (.str "42")] ∧
    (handleAll sampleEnv (.str "7") "7" [.str "set;game;level1", .str "delete;data/score"]
      (newSession afterLevel.ctx.fs)).ctx.session.gamedata = .obj [("score", .str "42")] ∧
    (handleAll sampleEnv (.str "7") "7" [.str "set;game;level1", .str "delete;data/score"]
      (newSession afterLevel.ctx.fs)).ctx.fs (gamePath sampleEnv "7" "level1") =
        some (.file (encode sampleEnv (.obj [("score", .str "42")]))) :=
  ⟨rfl, rfl, rfl, rfl⟩

/-! ### C5 -/

/-- C5 on the code, for every cloud adapter and codec: after `set;action;create account`,
`set;game;g` and `set;action;delete game` the index lists `g` and no record is stored for `g`;
the next `set;game;g` throws a storage error. -/
theorem deleted_game_stays_listed (env : Env) (user g : String) (create visit del : JVal)
    (c : Ctx)
    (hu : PlainName (usercodeOf env user)) (hg : PlainName g) (hplayed : g ≠ "played")
    (hbase : Based env c.fs) (hnone : NoRecords env c.fs (usercodeOf env user))
    (hcreate : Carries env create "set" "action" "create account")
    (hvisit : Carries env visit "set" "game" g)
    (hdel : Carries env del "set" "action" "delete game")
    (hcodec1 : Lossless env (.obj [("username", .str user)]))
    (hcodec2 : Lossless env (.arr []))
    (hcodec3 : Lossless env (.arr [.str g])) :
    ∃ c3 : Ctx,
      handleAll env (.str user) (usercodeOf env user) [create, visit, del] c = .done () c3 ∧
      c3.sent = c.sent ++ [ack env "", ack env "false"] ∧
      (∃ text, c3.fs (playedPath env (usercodeOf env user)) = some (.file text) ∧
        decodeText env text = some (.arr [.str g])) ∧
      c3.fs (gamePath env (usercodeOf env user) g) = none ∧
      (handle env (.str user) (usercodeOf env user) (env.cloud.name "Main") visit
        (newSession c3.fs)).thrownErr = some .storage := by
  -- create account
  have h1 := handle_create_account env (.str user) (usercodeOf env user) create c hu hbase hnone
    hcreate
  have hfs1 := afterCreate_hasGamesDir env c.fs (.str user) (usercodeOf env user) hbase
  have hacc1 : AccountLoads env (afterCreate env c.fs (.str user) (usercodeOf env user))
      (usercodeOf env user) (.obj [("username", .str user)]) :=
    Or.inr ⟨_, afterCreate_account env c.fs _ _, hcodec1⟩
  -- first visit
  have h2 : handle env (.str user) (usercodeOf env user) (env.cloud.name "Main") visit
      { c with
        fs := afterCreate env c.fs (.str user) (usercodeOf env user)
        session := { c.session with currentAction := some "create account" }
        sent := c.sent ++ [ack env ""] } =
      .done () { c with
        fs := afterFirstVisit env (afterCreate env c.fs (.str user) (usercodeOf env user))
          (usercodeOf env user) g []
        session := { currentAction := some "create account", gameid := some g,
                     gamedata := .obj [] }
        sent := (c.sent ++ [ack env ""]) ++ [ack env "false"] } := by
    rw [handle_of_carries env _ _ visit _ _ _ hvisit (by decide),
      serveCommand_of_account env _ _ _ _ _ _ _ _ hu hfs1.1 hacc1]
    simp only [reduceCtorEq, if_false, if_true, handleSet_game]
    exact setGame_new env _ g _ _ [] hu hg hfs1 (afterCreate_played env c.fs _ _) hcodec2 rfl
      (by
        show afterCreate env c.fs (.str user) (usercodeOf env user)
          (gamePath env (usercodeOf env user) g) ≠ some .dir
        rw [afterCreate_game env c.fs _ _ g hplayed hnone]
        exact fun h => by cases h)
  -- the store after the first visit
  have hfs2 : HasGamesDir env
      (afterFirstVisit env (afterCreate env c.fs (.str user) (usercodeOf env user))
        (usercodeOf env user) g []) (usercodeOf env user) := by
    unfold afterFirstVisit
    exact hasGamesDir_put (hasGamesDir_put hfs1 _ _ (by rw [length_gamePath]; omega)) _ _
      (by rw [length_playedPath]; omega)
  have hacc2 : AccountLoads env
      (afterFirstVisit env (afterCreate env c.fs (.str user) (usercodeOf env user))
        (usercodeOf env user) g []) (usercodeOf env user) (.obj [("username", .str user)]) := by
    unfold afterFirstVisit
    refine accountLoads_put _ _ _ _ _ _ ?_ (accountLoads_put _ _ _ _ _ _
      (gamePath_ne_accountPath env _ g) hacc1)
    intro h
    have := congrArg List.length h
    rw [length_playedPath, length_accountPath] at this
    omega
  have hgame2 : afterFirstVisit env (afterCreate env c.fs (.str user) (usercodeOf env user))
      (usercodeOf env user) g [] (gamePath env (usercodeOf env user) g) =
        some (.file (encode env (.obj []))) := by
    unfold afterFirstVisit
    rw [put_other _ _ _ _ (gamePath_ne_playedPath env _ g hplayed), put_same]
  have hplayed2 : afterFirstVisit env (afterCreate env c.fs (.str user) (usercodeOf env user))
      (usercodeOf env user) g [] (playedPath env (usercodeOf env user)) =
        some (.file (encode env (.arr [.str g]))) := by
    unfold afterFirstVisit
    exact put_same _ _ _
  -- delete game
  have h3 : handle env (.str user) (usercodeOf env user) (env.cloud.name "Main") del
      { c with
        fs := afterFirstVisit env (afterCreate env c.fs (.str user) (usercodeOf env user))
          (usercodeOf env user) g []
        session := { currentAction := some "create account", gameid := some g,
                     gamedata := .obj [] }
        sent := (c.sent ++ [ack env ""]) ++ [ack env "false"] } =
      .done () { c with
        fs := (afterFirstVisit env (afterCreate env c.fs (.str user) (usercodeOf env user))
          (usercodeOf env user) g []).put (gamePath env (usercodeOf env user) g) none
        session := { currentAction := some "delete game", gameid := some g,
                     gamedata := .obj [] }
        sent := (c.sent ++ [ack env ""]) ++ [ack env "false"] } := by
    rw [handle_of_carries env _ _ del _ _ _ hdel (by decide),
      serveCommand_of_account env _ _ _ _ _ _ _ _ hu hfs2.1 hacc2]
    simp only [reduceCtorEq, if_false, if_true, handleSet_action]
    exact setAction_delete_game env _ _ g _ _ hu hg hfs2 rfl hgame2
  have hplayed3 : ((afterFirstVisit env (afterCreate env c.fs (.str user) (usercodeOf env user))
      (usercodeOf env user) g []).put (gamePath env (usercodeOf env user) g) none)
      (playedPath env (usercodeOf env user)) = some (.file (encode env (.arr [.str g]))) := by
    rw [put_other _ _ _ _ (gamePath_ne_playedPath env _ g hplayed).symm]
    exact hplayed2
  refine ⟨{ c with
      fs := (afterFirstVisit env (afterCreate env c.fs (.str user) (usercodeOf env user))
        (usercodeOf env user) g []).put (gamePath env (usercodeOf env user) g) none
      session := { currentAction := some "delete game", gameid := some g, gamedata := .obj [] }
      sent := (c.sent ++ [ack env ""]) ++ [ack env "false"] },
    ?_, ?_, ⟨_, hplayed3, hcodec3⟩, put_same _ _ _, ?_⟩
  · simp only [handleAll, h1, h2, h3]
  · simp
  · -- the next visit
    have hfs3 : HasGamesDir env
        ((afterFirstVisit env (afterCreate env c.fs (.str user) (usercodeOf env user))
          (usercodeOf env user) g []).put (gamePath env (usercodeOf env user) g) none)
        (usercodeOf env user) :=
      hasGamesDir_put hfs2 _ _ (by rw [length_gamePath]; omega)
    have hacc3 := accountLoads_put env _ (usercodeOf env user) _
      (gamePath env (usercodeOf env user) g) none (gamePath_ne_accountPath env _ g) hacc2
    have h4 : handle env (.str user) (usercodeOf env user) (env.cloud.name "Main") visit
        (newSession ((afterFirstVisit env
          (afterCreate env c.fs (.str user) (usercodeOf env user))
          (usercodeOf env user) g []).put (gamePath env (usercodeOf env user) g) none)) =
        .thrown .storage
          { newSession ((afterFirstVisit env
              (afterCreate env c.fs (.str user) (usercodeOf env user))
              (usercodeOf env user) g []).put (gamePath env (usercodeOf env user) g) none) with
            session := { Session.fresh with gameid := some g } } := by
      rw [handle_of_carries env _ _ visit _ _ _ hvisit (by decide),
        serveCommand_of_account env _ _ _ _ _ _ _ _ hu hfs3.1 hacc3]
      simp only [reduceCtorEq, if_false, if_true, handleSet_game]
      exact setGame_known_missing env _ g _ _ [.str g] hu hg hfs3 hplayed3 hcodec3
        (by simp [strictEqStr]) (put_same _ _ _)
    rw [h4]
    rfl

/-- Witness of C5 on the code: user `7` and the game `level1`. -/
theorem deleted_game_stays_listed_witness :
    ∃ c3 : Ctx,
      handleAll sampleEnv (.str "7") (usercodeOf sampleEnv "7")
        [.str "set;action;create account", .str "set;game;level1",
         .str "set;action;delete game"] freshCtx = .done () c3 ∧
      c3.sent = freshCtx.sent ++ [ack sampleEnv "", ack sampleEnv "false"] ∧
      (∃ text, c3.fs (playedPath sampleEnv (usercodeOf sampleEnv "7")) = some (.file text) ∧
        decodeText sampleEnv text = some (.arr [.str "level1"])) ∧
      c3.fs (gamePath sampleEnv (usercodeOf sampleEnv "7") "level1") = none ∧
      (handle sampleEnv (.str "7") (usercodeOf sampleEnv "7") (sampleEnv.cloud.name "Main")
        (.str "set;game;level1") (newSession c3.fs)).thrownErr = some .storage :=
  deleted_game_stays_listed sampleEnv "7" "level1" (.str "set;action;create account")
    (.str "set;game;level1") (.str "set;action;delete game") freshCtx (by decide) (by decide)
    (by decide) emptyData_based (emptyData_noRecords _) ⟨by decide, by decide, by decide⟩
    ⟨by decide, by decide, by decide⟩ ⟨by decide, by decide, by decide⟩ (by rfl) (by rfl)
    (by rfl)

/-- The commands of user `7` evaluated, `set;action;create account`, `set;game;level1` and
`set;action;delete game`: the three
commands are handled without a throw, the games index lists `level1`, and no record is stored for
`level1`; the next `set;game;level1` throws a storage error. -/
theorem deleted_game_stays_in_index :
    afterDelete.thrownErr = none ∧
    (afterDelete.ctx.fs (playedPath sampleEnv "7")).map
        (fun n => match n with
          | .file text => decodeText sampleEnv text
          | .dir => none) = some (some (.arr [.str "level1"])) ∧
    afterDelete.ctx.fs (gamePath sampleEnv "7" "level1") = none ∧
    (handle sampleEnv (.str "7") "7" (sampleEnv.cloud.name "Main") (.str "set;game;level1")
      (newSession afterDelete.ctx.fs)).thrownErr = some .storage :=
  ⟨rfl, rfl, rfl, rfl⟩

/-! ### C6 -/

/-- C6 at the command `set;game;played`, for every cloud adapter and codec: when
`received;false` is written, the buffer is the empty object and the stored record of the active
game decodes to the index, a list that ends with `played`. -/
theorem record_of_played_differs (env : Env) (user : JVal) (u : String) (account : JVal)
    (visit : JVal) (c : Ctx) (text : String) (items : List JVal)
    (hu : PlainName u) (hfs : HasGamesDir env c.fs u)
    (hacc : AccountLoads env c.fs u account)
    (hindex : c.fs (playedPath env u) = some (.file text))
    (hdec : decodeText env text = some (.arr items))
    (hnew : (items.any fun x => strictEqStr x "played") = false)
    (hvisit : Carries env visit "set" "game" "played")
    (hcodec : Lossless env (.arr (items ++ [.str "played"]))) :
    ∃ c1 : Ctx,
      handle env user u (env.cloud.name "Main") visit c = .done () c1 ∧
      c1.sent = c.sent ++ [ack env "false"] ∧
      c1.session.gameid = some "played" ∧
      c1.session.gamedata = .obj [] ∧
      ∃ stored, c1.fs (gamePath env u "played") = some (.file stored) ∧
        decodeText env stored = some (.arr (items ++ [.str "played"])) := by
  have hsame : gamePath env u "played" = playedPath env u := rfl
  have h1 := handle_first_visit env user u "played" account visit c text items hu plain_played
    hfs hacc hindex hdec hnew (by rw [hsame, hindex]; exact fun h => by cases h) hvisit
  refine ⟨_, h1, rfl, rfl, rfl, _, ?_, hcodec⟩
  show afterFirstVisit env c.fs u "played" items (gamePath env u "played") = _
  rw [hsame, afterFirstVisit_played]

/-- Witness of C6 at `played`: user `7` with an empty index. -/
theorem record_of_played_differs_witness :
    ∃ c1 : Ctx,
      handle sampleEnv (.str "7") "7" (sampleEnv.cloud.name "Main") (.str "set;game;played")
        (newSession accountStore) = .done () c1 ∧
      c1.sent = (newSession accountStore).sent ++ [ack sampleEnv "false"] ∧
      c1.session.gameid = some "played" ∧
      c1.session.gamedata = .obj [] ∧
      ∃ stored, c1.fs (gamePath sampleEnv "7" "played") = some (.file stored) ∧
        decodeText sampleEnv stored = some (.arr ([] ++ [.str "played"])) :=
  record_of_played_differs sampleEnv (.str "7") "7" (.obj [("username", .str "7")])
    (.str "set;game;played") (newSession accountStore) "L" [] (by decide)
    (afterCreate_hasGamesDir sampleEnv emptyData _ _ emptyData_based)
    (Or.inr ⟨"U", rfl, rfl⟩) rfl rfl rfl ⟨by decide, by decide, by decide⟩ (by rfl)

/-- The command `set;game;played` of user `7` evaluated, whose games directory exists and whose
index does not list `played`: when `received;false` is written to the Main slot the buffer is the empty
object, while the file of the game `played`, being the file of the index, decodes to the list
that holds `played`. -/
theorem record_of_game_played_differs_from_buffer :
    (handle sampleEnv (.str "7") "7" (sampleEnv.cloud.name "Main") (.str "set;game;played")
      (newSession accountStore)).ctx.sent = [ack sampleEnv "false"] ∧
    (handle sampleEnv (.str "7") "7" (sampleEnv.cloud.name "Main") (.str "set;game;played")
      (newSession accountStore)).ctx.session.gamedata = .obj [] ∧
    ((handle sampleEnv (.str "7") "7" (sampleEnv.cloud.name "Main") (.str "set;game;played")
      (newSession accountStore)).ctx.fs (gamePath sampleEnv "7" "played")).map
        (fun n => match n with
          | .file text => decodeText sampleEnv text
          | .dir => none) = some (some (.arr [.str "played"])) :=
  ⟨rfl, rfl, rfl⟩

/-- The record of the active game after a command that changes the buffer, for a game id other
than `played`: `set;data/k;v` and `delete;key` in a session with the active game `g`, and the
first visit `set;game;g`, leave the file of `g` holding the encoded buffer. -/
theorem record_holds_buffer (env : Env) (user : JVal) (u g k v key : String) (account : JVal)
    (store del visit : JVal) (val : String) (c : Ctx) (props : List (String × JVal))
    (hu : PlainName u) (hg : PlainName g) (hplayed : g ≠ "played")
    (hfs : HasGamesDir env c.fs u) (hacc : AccountLoads env c.fs u account)
    (hfile : c.fs (gamePath env u g) ≠ some .dir)
    (hstore : Carries env store "set" ("data/" ++ k) v)
    (hdel : Carries env del "delete" key val)
    (hvisit : Carries env visit "set" "game" g) :
    (c.session.gameid = some g → c.session.gamedata = .obj props →
      ∃ c1, handle env user u (env.cloud.name "Main") store c = .done () c1 ∧
        c1.sent = c.sent ++ [ack env ""] ∧
        c1.fs (gamePath env u g) = some (.file (encode env c1.session.gamedata))) ∧
    (c.session.gameid = some g → c.session.gamedata = .obj props →
      ∃ c1, handle env user u (env.cloud.name "Main") del c = .done () c1 ∧
        c1.sent = c.sent ++ [response env (field1 env del) .undefined] ∧
        c1.fs (gamePath env u g) = some (.file (encode env c1.session.gamedata))) ∧
    (∀ text items, c.fs (playedPath env u) = some (.file text) →
      decodeText env text = some (.arr items) →
      (items.any fun x => strictEqStr x g) = false →
      ∃ c1, handle env user u (env.cloud.name "Main") visit c = .done () c1 ∧
        c1.sent = c.sent ++ [ack env "false"] ∧
        c1.session.gameid = some g ∧
        c1.fs (gamePath env u g) = some (.file (encode env c1.session.gamedata))) := by
  refine ⟨?_, ?_, ?_⟩
  · intro hid hbuf
    exact ⟨_, handle_set_data env user u g k v account store c props hu hg hfs hacc hfile hid
      hbuf hstore, rfl, put_same _ _ _⟩
  · intro hid hbuf
    exact ⟨_, handle_delete env user u g key account del val c props hu hg hfs hacc hfile hid
      hbuf hdel, rfl, put_same _ _ _⟩
  · intro text items hindex hdec hnew
    refine ⟨_, handle_first_visit env user u g account visit c text items hu hg hfs hacc hindex
      hdec hnew hfile hvisit, rfl, rfl, ?_⟩
    show afterFirstVisit env c.fs u g items (gamePath env u g) = _
    unfold afterFirstVisit
    rw [put_other _ _ _ _ (gamePath_ne_playedPath env u g hplayed), put_same]

/-! ### C7 -/

/-- C7: a command on the Main slot that `handle` has no branch for (a verb other than `get`,
`set`, `delete`, `end`; a `get` or a `set` with a key that is not recognized for the verb) leaves
the whole state of the session as it was: no `cloud.set` is made, no file changes, the game-data
buffer and the other session variables keep their values. -/
theorem unrecognized_is_ignored (env : Env) (user : JVal) (usercode : String) (value : JVal)
    (c : Ctx) (h : Unrecognized env value) :
    (handle env user usercode (env.cloud.name "Main") value c).ctx = c := by
  unfold Unrecognized at h
  unfold handle
  simp only [ne_eq, not_true_eq_false, if_false]
  rcases h with ⟨h1, h2, h3, h4⟩ | ⟨h1, h2, h3⟩ | ⟨h1, h2, h3, h4, h5⟩
  · rw [if_neg h4]
    exact serveCommand_ignored env user usercode _ _ _ _ c (Or.inl ⟨h1, h2, h3⟩)
  · rw [if_neg (by rw [h1]; decide)]
    exact serveCommand_ignored env user usercode _ _ _ _ c (Or.inr (Or.inl ⟨h1, h2, h3⟩))
  · rw [if_neg (by rw [h1]; decide)]
    exact serveCommand_ignored env user usercode _ _ _ _ c
      (Or.inr (Or.inr ⟨h1, h2, h3, h4, h5⟩))

/-- Witness of C7: the command `foo;bar`. -/
theorem unrecognized_is_ignored_witness :
    (handle sampleEnv (.str "7") "7" (sampleEnv.cloud.name "Main") (.str "foo;bar")
      freshCtx).ctx = freshCtx :=
  unrecognized_is_ignored sampleEnv (.str "7") "7" (.str "foo;bar") freshCtx
    (Or.inl (by decide))


/-! ### C11 -/

theorem pathExists_account_of_no_records (env : Env) (fs : FS) (u : String) (hu : PlainName u)
    (hb : Based env fs) (hnone : NoRecords env fs u) :
    pathExists env fs (accountFile u) = false := by
  unfold pathExists accountFile
  rw [resolve_under_user env fs u "account" hb hu plain_account,
    isDir_of_none (userPath_ne_nil env u) hnone.at_user]
  rfl

theorem resolve_playedFile_of_no_records (env : Env) (fs : FS) (u : String) (hu : PlainName u)
    (hb : Based env fs) (hnone : NoRecords env fs u) :
    resolve env.cwd fs (playedFile u) = none := by
  unfold playedFile
  rw [resolve_under_games env fs u "played" hb hu plain_played,
    isDir_of_none (userPath_ne_nil env u) hnone.at_user]
  simp

theorem handle_game_of_no_records (env : Env) (user : JVal) (u g : String) (visit : JVal)
    (c : Ctx) (hu : PlainName u) (hb : Based env c.fs) (hnone : NoRecords env c.fs u)
    (hvisit : Carries env visit "set" "game" g) :
    handle env user u (env.cloud.name "Main") visit c =
      .thrown .storage { c with session := { c.session with gameid := some g } } := by
  rw [handle_of_carries env _ _ visit _ _ _ hvisit (by decide)]
  have hres := resolve_playedFile_of_no_records env c.fs u hu hb hnone
  simp only [serveCommand, bind_apply, Eff.andThen, existsSync,
    pathExists_account_of_no_records env c.fs u hu hb hnone, pure_apply]
  simp [handleSet, setGame, bind_apply, Eff.andThen, setGameid, loadJSON, readFileSync, hres]

/-- C11, as the code has it: for a user without stored records `set;game;g` throws a storage
error at the load of the games index, with nothing written and nothing acknowledged; the handler
tests no account, so where the games directory and the index exist without an account file,
`set;game;g` for a plain id the index does not list is acknowledged with `false` and a following
`set;data/k;v` with `received`. -/
theorem game_commands_without_account (env : Env) (user : JVal) (u g k v : String)
    (visit store : JVal) (hu : PlainName u)
    (hvisit : Carries env visit "set" "game" g)
    (hstore : Carries env store "set" ("data/" ++ k) v) :
    (∀ c : Ctx, Based env c.fs → NoRecords env c.fs u →
      ∃ c1, handle env user u (env.cloud.name "Main") visit c = .thrown .storage c1 ∧
        c1.fs = c.fs ∧ c1.sent = c.sent) ∧
    (∀ (c : Ctx) (text : String) (items : List JVal), PlainName g →
      HasGamesDir env c.fs u → c.fs (accountPath env u) = none →
      c.fs (playedPath env u) = some (.file text) →
      decodeText env text = some (.arr items) →
      (items.any fun x => strictEqStr x g) = false →
      c.fs (gamePath env u g) ≠ some .dir →
      ∃ c1 c2, handle env user u (env.cloud.name "Main") visit c = .done () c1 ∧
        c1.sent = c.sent ++ [ack env "false"] ∧
        handle env user u (env.cloud.name "Main") store c1 = .done () c2 ∧
        c2.sent = c1.sent ++ [ack env ""]) := by
  refine ⟨?_, ?_⟩
  · intro c hb hnone
    exact ⟨_, handle_game_of_no_records env user u g visit c hu hb hnone hvisit, rfl, rfl⟩
  · intro c text items hg hfs hacc hindex hdec hnew hfile
    have hl : AccountLoads env c.fs u (.obj []) := Or.inl ⟨hacc, rfl⟩
    have h1 := handle_first_visit env user u g (.obj []) visit c text items hu hg hfs hl hindex
      hdec hnew hfile hvisit
    have hfs1 := afterFirstVisit_hasGamesDir env c.fs u g items hfs
    have hl1 := afterFirstVisit_accountLoads env c.fs u g items (.obj []) hl
    have h2 := handle_set_data env user u g k v (.obj []) store
      { c with
        fs := afterFirstVisit env c.fs u g items
        session := { c.session with gameid := some g, gamedata := .obj [] }
        sent := c.sent ++ [ack env "false"] }
      [] hu hg hfs1 hl1
      (by
        show afterFirstVisit env c.fs u g items (gamePath env u g) ≠ some .dir
        unfold afterFirstVisit
        by_cases hp : gamePath env u g = playedPath env u
        · rw [hp, put_same]; exact fun h => by cases h
        · rw [put_other _ _ _ _ hp, put_same]; exact fun h => by cases h)
      rfl rfl hstore
    exact ⟨_, _, h1, rfl, h2, rfl⟩

/-- Witness of C11: user `7` on the bare data directory, and on a store that holds the games
directory and the empty index but no account file. -/
theorem game_commands_without_account_witness :
    (∃ c1, handle sampleEnv (.str "7") "7" (sampleEnv.cloud.name "Main")
        (.str "set;game;level1") freshCtx = .thrown .storage c1 ∧
      c1.fs = freshCtx.fs ∧ c1.sent = freshCtx.sent) ∧
    (∃ c1 c2, handle sampleEnv (.str "7") "7" (sampleEnv.cloud.name "Main")
        (.str "set;game;level1") (newSession gamesOnly) = .done () c1 ∧
      c1.sent = (newSession gamesOnly).sent ++ [ack sampleEnv "false"] ∧
      handle sampleEnv (.str "7") "7" (sampleEnv.cloud.name "Main")
        (.str "set;data/score;42") c1 = .done () c2 ∧
      c2.sent = c1.sent ++ [ack sampleEnv ""]) :=
  ⟨(game_commands_without_account sampleEnv (.str "7") "7" "level1" "score" "42"
      (.str "set;game;level1") (.str "set;data/score;42") (by decide)
      ⟨by decide, by decide, by decide⟩ ⟨by decide, by decide, by decide⟩).1 freshCtx
      emptyData_based (emptyData_noRecords _),
   (game_commands_without_account sampleEnv (.str "7") "7" "level1" "score" "42"
      (.str "set;game;level1") (.str "set;data/score;42") (by decide)
      ⟨by decide, by decide, by decide⟩ ⟨by decide, by decide, by decide⟩).2
      (newSession gamesOnly) "L" [] (by decide) ⟨⟨⟨rfl, rfl⟩, rfl⟩, rfl⟩ rfl rfl rfl rfl
      (by decide)⟩

/-- Counterexample to C11: nothing is stored for user `7`, and `set;game;level1` throws a
storage error without an acknowledgement. -/
theorem game_before_account_throws :
    NoRecords sampleEnv freshCtx.fs "7" ∧
    (handle sampleEnv (.str "7") "7" (sampleEnv.cloud.name "Main") (.str "set;game;level1")
      freshCtx).thrownErr = some .storage ∧
    (handle sampleEnv (.str "7") "7" (sampleEnv.cloud.name "Main") (.str "set;game;level1")
      freshCtx).ctx.sent = [] :=
  ⟨emptyData_noRecords _, rfl, rfl⟩

/-! ### C12 -/

theorem components_traversal (u : String) (hu : PlainName u) :
    components [".", "data", u, "games", "../account"] =
      [".", "data", u, "games", "..", "account"] := by
  have h := splitOnChar_of_not_mem '/' u.data hu.clean.1
  have e1 : (splitOnChar '/' ".".data).map String.mk = ["."] := by decide
  have e2 : (splitOnChar '/' "data".data).map String.mk = ["data"] := by decide
  have e3 : (splitOnChar '/' "games".data).map String.mk = ["games"] := by decide
  have e4 : (splitOnChar '/' "../account".data).map String.mk = ["..", "account"] := by decide
  simp only [components, List.flatMap_cons, List.flatMap_nil, e1, e2, e3, e4, h, List.map_cons,
    List.map_nil, List.append_nil, List.cons_append, List.nil_append]

theorem resolve_traversal (env : Env) (fs : FS) (u : String) (hu : PlainName u)
    (h : HasGamesDir env fs u) :
    resolve env.cwd fs (gameFile u (some "../account")) = some (accountPath env u) := by
  have hnul : ([".", "data", u, "games", "..", "account"].any
      fun c => c.data.contains (Char.ofNat 0)) = false := by
    have := hu.clean.2
    simp [this]
  have h1 : enter env.cwd "." = env.cwd := by simp [enter]
  have h2 : isDir fs ("data" :: env.cwd) = true := by simp [isDir, h.1.1.2]
  have h3 : isDir fs (u :: "data" :: env.cwd) = true := hasUserDir_isDir h.1
  have h4 : isDir fs ("games" :: u :: "data" :: env.cwd) = true := hasGamesDir_isDir h
  have h5 : enter ("games" :: u :: "data" :: env.cwd) ".." = u :: "data" :: env.cwd := by
    simp [enter]
  have hlong : ([".", "data", u, "games", "..", "account"].any
      fun c => decide (nameMax < nameBytes c)) = false := by
    rw [List.any_eq_false]
    intro s hs
    simp at hs
    rcases hs with rfl | rfl | rfl | rfl | rfl | rfl
    · decide
    · decide
    · simpa using hu.short
    · decide
    · decide
    · decide
  have hpath : ¬ pathMax ≤ pathBytes [".", "data", u, "games", "../account"] := by
    have hshort := hu.short
    have hlast : nameBytes "../account" = 10 := by decide
    simp only [pathBytes, List.map_cons, List.map_nil, List.sum_cons, List.sum_nil,
      List.length_cons, List.length_nil, nameBytes_dot, nameBytes_data, nameBytes_games,
      hlast, nameMax, pathMax] at hshort ⊢
    omega
  unfold resolve gameFile
  rw [Option.getD_some, components_traversal u hu, hnul, hlong, if_neg hpath]
  simp [walk, h1, h.1.1.1, enter_plain _ _ plain_data, h2, enter_plain _ _ hu, h3,
    enter_plain _ _ plain_games, h4, h5, enter_plain _ _ plain_account, accountPath, userPath]

/-- C12 at the game id `../account`, for every cloud adapter and codec: with that id active,
`set;action;delete game` returns without a message and the account file of the user is gone. -/
theorem delete_game_removes_account (env : Env) (user : JVal) (u : String) (del : JVal)
    (c : Ctx) (text : String) (account : JVal)
    (hu : PlainName u) (hfs : HasGamesDir env c.fs u)
    (hfile : c.fs (accountPath env u) = some (.file text))
    (hdec : decodeText env text = some account)
    (hid : c.session.gameid = some "../account")
    (hdel : Carries env del "set" "action" "delete game") :
    ∃ c1, handle env user u (env.cloud.name "Main") del c = .done () c1 ∧
      c1.sent = c.sent ∧
      c1.fs (accountPath env u) = none ∧
      pathExists env c1.fs (accountFile u) = false := by
  have hres := resolve_traversal env c.fs u hu hfs
  have h1 : handle env user u (env.cloud.name "Main") del c =
      .done () { c with
        fs := c.fs.put (accountPath env u) none
        session := { c.session with currentAction := some "delete game" } } := by
    rw [handle_of_carries env _ _ del _ _ _ hdel (by decide),
      serveCommand_of_account env user u _ _ _ _ c account hu hfs.1 (Or.inr ⟨text, hfile, hdec⟩)]
    simp only [reduceCtorEq, if_false, if_true, handleSet_action]
    simp [setAction, bind_apply, Eff.andThen, setCurrentAction, getCtx, hid, existsSync,
      pathExists, hres, present_of_file hfile, unlinkSync, hfile, pure_apply]
  refine ⟨_, h1, rfl, put_same _ _ _, ?_⟩
  have hfs1 : HasUserDir env (c.fs.put (accountPath env u) none) u :=
    hasUserDir_put hfs.1 _ _ (by rw [length_accountPath]; omega)
  exact pathExists_account_of_none env _ u hu hfs1 (put_same _ _ _)

/-- Witness of C12 at `../account`: user `7` with a stored account, in the session that has
handled `set;game;../account`. -/
theorem delete_game_removes_account_witness :
    (traversalCtx.fs (accountPath sampleEnv "7")).isSome = true ∧
      ∃ c1, handle sampleEnv (.str "7") "7" (sampleEnv.cloud.name "Main")
          (.str "set;action;delete game") traversalCtx = .done () c1 ∧
        c1.sent = traversalCtx.sent ∧
        c1.fs (accountPath sampleEnv "7") = none ∧
        pathExists sampleEnv c1.fs (accountFile "7") = false :=
  ⟨rfl, delete_game_removes_account sampleEnv (.str "7") "7" (.str "set;action;delete game")
    traversalCtx "E" (.obj []) (by decide)
    ⟨⟨⟨rfl, rfl⟩, rfl⟩, rfl⟩ rfl rfl rfl
    ⟨by decide, by decide, by decide⟩⟩

/-- The commands of user `7` evaluated: `set;game;../account` and `set;action;delete game` are
handled without a throw, and the account file, stored before, is gone. -/
theorem account_removed_by_delete_game :
    (accountStore (accountPath sampleEnv "7")).isSome = true ∧
    (handleAll sampleEnv (.str "7") "7"
      [.str "set;game;../account", .str "set;action;delete game"]
      (newSession accountStore)).thrownErr = none ∧
    (handleAll sampleEnv (.str "7") "7"
      [.str "set;game;../account", .str "set;action;delete game"]
      (newSession accountStore)).ctx.fs (accountPath sampleEnv "7") = none :=
  ⟨rfl, rfl, rfl⟩

/-- The frame of `set;action;delete game` for an active game whose id is a plain name: nothing
is written to a slot, and the file system changes at the record of that game only, which is
removed when it is a file. -/
theorem delete_game_frame (env : Env) (user : JVal) (u g : String) (account : JVal)
    (del : JVal) (c : Ctx) (hu : PlainName u) (hg : PlainName g)
    (hfs : HasGamesDir env c.fs u) (hacc : AccountLoads env c.fs u account)
    (hid : c.session.gameid = some g)
    (hnodir : c.fs (gamePath env u g) ≠ some .dir)
    (hdel : Carries env del "set" "action" "delete game") :
    ∃ c1, handle env user u (env.cloud.name "Main") del c = .done () c1 ∧
      c1.sent = c.sent ∧
      c1.fs (gamePath env u g) = none ∧
      ∀ p, p ≠ gamePath env u g → c1.fs p = c.fs p := by
  have hres := resolve_gameFile env c.fs u g hu hg hfs
  rw [handle_of_carries env _ _ del _ _ _ hdel (by decide),
    serveCommand_of_account env user u _ _ _ _ c account hu hfs.1 hacc]
  simp only [reduceCtorEq, if_false, if_true, handleSet_action]
  cases hf : c.fs (gamePath env u g) with
  | none =>
    refine ⟨{ c with session := { c.session with currentAction := some "delete game" } },
      ?_, rfl, hf, fun _ _ => rfl⟩
    simp [setAction, bind_apply, Eff.andThen, setCurrentAction, getCtx, hid, existsSync,
      pathExists, hres, present_of_none (gamePath_ne_nil env u g) hf, pure_apply]
  | some n =>
    cases n with
    | dir => exact absurd hf hnodir
    | file text =>
      refine ⟨_, setAction_delete_game env user u g c text hu hg hfs hid hf, rfl,
        put_same _ _ _, fun p hp => put_other _ _ _ _ hp⟩

/-! ### C13 -/

theorem isDir_put_file (fs : FS) (p q : List String) (text : String)
    (hfile : isDir fs p = false) : isDir (fs.put p (some (.file text))) q = isDir fs q := by
  by_cases hq : q = p
  · subst hq
    have hne : q ≠ [] := by
      intro h
      simp [isDir, h] at hfile
    rw [hfile]
    simp [isDir, put_same, hne]
  · unfold isDir
    rw [put_other fs p q _ hq]

theorem walk_put_file (fs : FS) (p : List String) (text : String)
    (hfile : isDir fs p = false) :
    ∀ (names cur : List String),
      walk (fs.put p (some (.file text))) cur names = walk fs cur names := by
  intro names
  induction names with
  | nil => intro cur; rfl
  | cons c rest ih =>
    intro cur
    cases rest with
    | nil => rfl
    | cons d rest =>
      simp only [walk, isDir_put_file fs p _ text hfile]
      split
      · exact ih _
      · rfl

theorem resolve_put_file (cwd : List String) (fs : FS) (p path : List String) (text : String)
    (hfile : isDir fs p = false) :
    resolve cwd (fs.put p (some (.file text))) path = resolve cwd fs path := by
  unfold resolve
  rw [walk_put_file fs p text hfile]

theorem writeJSON_done (env : Env) (path : List String) (v : JVal) (c c1 : Ctx)
    (h : writeJSON env path v c = .done () c1) :
    ∃ p, resolve env.cwd c.fs path = some p ∧ isDir c.fs p = false ∧
      c1 = { c with fs := c.fs.put p (some (.file (encode env v))) } := by
  unfold writeJSON writeFileSync at h
  cases hres : resolve env.cwd c.fs path with
  | none => simp [hres] at h
  | some p =>
    simp only [hres] at h
    cases hd : isDir c.fs p with
    | true => simp [hd] at h
    | false =>
      cases hpar : isDir c.fs p.tail with
      | false => simp [hd, hpar] at h
      | true =>
        simp [hd, hpar] at h
        exact ⟨p, rfl, hd, h.symm⟩

/-- C13: let `expand` give back every text that `compress` packed and let `JSON.parse`
give back the value `v` from `JSON.stringify(v)`. Then the content that `writeJSON` makes for
`v` decodes to `v`, and after `writeJSON(file, v)` has returned `loadJSON(file)` returns `v` and
changes nothing. -/
theorem written_record_loads (env : Env) (v : JVal)
    (hlz : ∀ s, env.codec.expand (env.codec.compress s) = some s)
    (hjson : env.codec.jsonParse (env.codec.jsonStringify v) = some v) :
    decodeText env (encode env v) = some v ∧
      ∀ (file : List String) (c c1 : Ctx), writeJSON env file v c = .done () c1 →
        loadJSON env file c1 = .done v c1 := by
  have hdec : decodeText env (encode env v) = some v := by
    simp [decodeText, encode, hlz, hjson]
  refine ⟨hdec, ?_⟩
  intro file c c1 hwrite
  obtain ⟨p, hres, hfile, hc1⟩ := writeJSON_done env file v c c1 hwrite
  subst hc1
  exact loadJSON_ok env file p (encode env v) v _
    (by simp only []; rw [resolve_put_file env.cwd c.fs p file _ hfile]; exact hres)
    (put_same _ _ _) hdec

/-- Witness of C13: the account record of user `7`, written to the account file,
is loaded from it. -/
theorem written_record_loads_witness :
    ∃ c1, writeJSON sampleEnv (accountFile "7") (.obj [("username", .str "7")])
          (newSession accountStore) = .done () c1 ∧
      loadJSON sampleEnv (accountFile "7") c1 = .done (.obj [("username", .str "7")]) c1 :=
  ⟨{ newSession accountStore with
      fs := accountStore.put (accountPath sampleEnv "7")
        (some (.file (encode sampleEnv (.obj [("username", .str "7")])))) },
    rfl,
    (written_record_loads sampleEnv (.obj [("username", .str "7")]) (fun _ => rfl) rfl).2
      (accountFile "7") (newSession accountStore) _ rfl⟩

/-! ### C14 -/

/-- C14: `get;has account` returns with one message more on the Main slot, the response to the
requested key whose value tells whether the account path of the user names anything; the file
system and the session variables are as before. An account file that exists has to load, since
line 261 decodes it before the branch runs. -/
theorem has_account_is_answered (env : Env) (user : JVal) (u : String) (value : JVal)
    (val : String) (c : Ctx)
    (hget : Carries env value "get" "has account" val)
    (hload : pathExists env c.fs (accountFile u) = true →
      ∃ account, loadJSON env (accountFile u) c = .done account c) :
    handle env user u (env.cloud.name "Main") value c =
      .done () { c with
        sent := c.sent ++
          [response env (field1 env value) (.bool (pathExists env c.fs (accountFile u)))] } := by
  rw [handle_of_carries env _ _ value _ _ _ hget (by decide)]
  cases hex : pathExists env c.fs (accountFile u) with
  | false =>
    simp [serveCommand, bind_apply, Eff.andThen, existsSync, hex, pure_apply, handleGet,
      respond_apply]
  | true =>
    obtain ⟨account, hacc⟩ := hload hex
    simp [serveCommand, bind_apply, Eff.andThen, existsSync, hex, pure_apply, handleGet,
      respond_apply, hacc]

/-- Witness of C14: user `7` is answered `false` on the bare data directory and `true` on the
store with an account. -/
theorem has_account_is_answered_witness :
    (pathExists sampleEnv freshCtx.fs (accountFile "7") = false ∧
      handle sampleEnv (.str "7") "7" (sampleEnv.cloud.name "Main") (.str "get;has account")
          freshCtx =
        .done () { freshCtx with
          sent := freshCtx.sent ++
            [response sampleEnv (field1 sampleEnv (.str "get;has account"))
              (.bool (pathExists sampleEnv freshCtx.fs (accountFile "7")))] }) ∧
    (pathExists sampleEnv (newSession accountStore).fs (accountFile "7") = true ∧
      handle sampleEnv (.str "7") "7" (sampleEnv.cloud.name "Main") (.str "get;has account")
          (newSession accountStore) =
        .done () { newSession accountStore with
          sent := (newSession accountStore).sent ++
            [response sampleEnv (field1 sampleEnv (.str "get;has account"))
              (.bool (pathExists sampleEnv (newSession accountStore).fs (accountFile "7")))] }) :=
  ⟨⟨rfl, has_account_is_answered sampleEnv (.str "7") "7" (.str "get;has account") "" freshCtx
      ⟨by decide, by decide, by decide⟩ (fun h => absurd h (by decide))⟩,
   ⟨rfl, has_account_is_answered sampleEnv (.str "7") "7" (.str "get;has account") ""
      (newSession accountStore) ⟨by decide, by decide, by decide⟩
      (fun _ => ⟨.obj [("username", .str "7")], rfl⟩)⟩⟩

/-! ### C15 -/

theorem waiterBound_initial (env : Env) (fs : FS) : WaiterBound (initial env fs) := by
  simp [WaiterBound, initial, loopTop, Pc.isParked]

theorem onSet_waiterBound (env : Env) (s : RunState) (name : String) (value : JVal)
    (h : WaiterBound s) : WaiterBound (onSet env s name value) := by
  obtain ⟨h1, h2⟩ := h
  unfold onSet
  split
  · exact ⟨h1, h2⟩
  · unfold queueBranch
    split
    · split
      · exact ⟨h1, h2⟩
      · unfold callAddToQueue
        cases hadd : s.addToQueue <;> cases hpc : s.pc <;>
          simp_all [WaiterBound, Pc.isParked]
    · exact ⟨h1, h2⟩

theorem onSetHandle_waiterBound (env : Env) (s : RunState) (name : String) (value : JVal)
    (h : WaiterBound s) : WaiterBound (onSetHandle env s name value) := by
  obtain ⟨h1, h2⟩ := h
  unfold onSetHandle
  split
  · rename_i user usercode hpc
    have hplain : s.addToQueue ≠ .waiter := by
      intro hw
      have := h1.1 hw
      simp [hpc, Pc.isParked] at this
    split
    · rename_i a c hc
      by_cases hend : c.ended = true <;>
        simp_all [WaiterBound, Pc.isParked]
    · simp_all [WaiterBound, Pc.isParked]
  · exact ⟨h1, h2⟩

theorem step_waiterBound (env : Env) (s : RunState) (e : Event) (h : WaiterBound s) :
    WaiterBound (step env s e) := by
  cases e with
  | addvariable name value =>
    unfold step
    cases hpc : s.pc <;> simp only [] <;>
      first
        | exact h
        | (unfold onAddVariable
           split
           · split
             · exact h
             · exact h
           · exact h)
  | set name value =>
    unfold step
    cases hpc : s.pc <;> simp only [] <;>
      first
        | exact h
        | exact onSetHandle_waiterBound env _ name value (onSet_waiterBound env s name value h)
  | resume =>
    obtain ⟨h1, h2⟩ := h
    unfold step onResume
    cases hpc : s.pc with
    | parked => exact ⟨h1, h2⟩
    | crashed => exact ⟨h1, h2⟩
    | serving user usercode => exact ⟨h1, h2⟩
    | woken =>
      simp only []
      have hplain : s.addToQueue ≠ .waiter := by
        intro hw
        have := h1.1 hw
        simp [hpc, Pc.isParked] at this
      simp [WaiterBound, startSession, Pc.isParked, hplain]
    | finishing =>
      simp only []
      have hplain : s.addToQueue ≠ .waiter := by
        intro hw
        have := h1.1 hw
        simp [hpc, Pc.isParked] at this
      unfold loopTop
      cases ht : s.queue.tail with
      | nil => simp [WaiterBound, Pc.isParked]
      | cons a rest => simp [WaiterBound, Pc.isParked, hplain]

theorem runEvents_waiterBound (env : Env) (events : List Event) :
    ∀ s : RunState, WaiterBound s → WaiterBound (runEvents env s events) := by
  induction events with
  | nil => intro s h; exact h
  | cons e rest ih =>
    intro s h
    exact ih (step env s e) (step_waiterBound env s e h)

theorem step_set_parked (env : Env) (s : RunState) (value : JVal)
    (hpc : s.pc.isParked = true) (hw : s.addToQueue = .waiter) (hq : s.queue = [])
    (hguard : env.cloud.usetw = true → env.cloud.name "Queue" ∉ s.recent) :
    (step env s (.set (env.cloud.name "Queue") value)).queue = [env.cloud.stringify value] ∧
      (step env s (.set (env.cloud.name "Queue") value)).pc.isWoken = true ∧
      (step env s (.set (env.cloud.name "Queue") value)).addToQueue = .plain ∧
      (step env s (.set (env.cloud.name "Queue") value)).recent = s.recent := by
  have hpc2 : s.pc = .parked := by
    cases h : s.pc <;> simp [h, Pc.isParked] at hpc; rfl
  have hg : ¬(env.cloud.usetw = true ∧ env.cloud.name "Queue" ∈ s.recent) :=
    fun h => hguard h.1 h.2
  have hset : onSet env s (env.cloud.name "Queue") value =
      { s with
        addToQueue := .plain
        queue := [env.cloud.stringify value]
        pc := .woken
        sent := s.sent ++ [(env.cloud.name "Queue", .num 0)] } := by
    simp [onSet, hg, queueBranch, hq, callAddToQueue, hw, hpc2]
  simp [step, hpc2, hset, onSetHandle, Pc.isWoken]

theorem step_set_woken (env : Env) (s : RunState) (value : JVal)
    (hpc : s.pc.isWoken = true) (hadd : s.addToQueue = .plain)
    (hnew : env.cloud.stringify value ∉ s.queue)
    (hguard : env.cloud.usetw = true → env.cloud.name "Queue" ∉ s.recent) :
    (step env s (.set (env.cloud.name "Queue") value)).queue =
        s.queue ++ [env.cloud.stringify value] ∧
      (step env s (.set (env.cloud.name "Queue") value)).pc.isWoken = true ∧
      (step env s (.set (env.cloud.name "Queue") value)).addToQueue = .plain ∧
      (step env s (.set (env.cloud.name "Queue") value)).recent = s.recent := by
  have hpc2 : s.pc = .woken := by
    cases h : s.pc <;> simp [h, Pc.isWoken] at hpc; rfl
  have hg : ¬(env.cloud.usetw = true ∧ env.cloud.name "Queue" ∈ s.recent) :=
    fun h => hguard h.1 h.2
  have hset : onSet env s (env.cloud.name "Queue") value =
      { s with
        queue := s.queue ++ [env.cloud.stringify value]
        sent := s.sent ++ [(env.cloud.name "Queue", .num 0)] } := by
    simp [onSet, hg, queueBranch, hnew, callAddToQueue, hadd]
  simp [step, hpc2, hset, onSetHandle, Pc.isWoken, hadd]

theorem arrivals_while_woken (env : Env) (values : List JVal) :
    ∀ s : RunState, s.pc.isWoken = true → s.addToQueue = .plain →
      (env.cloud.usetw = true → env.cloud.name "Queue" ∉ s.recent) →
      (s.queue ++ values.map env.cloud.stringify).Nodup →
      (runEvents env s (values.map (Event.set (env.cloud.name "Queue")))).queue =
          s.queue ++ values.map env.cloud.stringify ∧
        (runEvents env s (values.map (Event.set (env.cloud.name "Queue")))).pc.isWoken = true ∧
        (runEvents env s (values.map (Event.set (env.cloud.name "Queue")))).addToQueue =
          .plain := by
  induction values with
  | nil => intro s hpc hadd _ _; simp [runEvents, hpc, hadd]
  | cons v rest ih =>
    intro s hpc hadd hguard hnodup
    have hnew : env.cloud.stringify v ∉ s.queue := by
      intro hmem
      rw [List.map_cons, List.nodup_append] at hnodup
      exact hnodup.2.2 hmem (List.mem_cons_self _ _)
    obtain ⟨h1, h2, h3, h4⟩ := step_set_woken env s v hpc hadd hnew hguard
    have hrest := ih (step env s (.set (env.cloud.name "Queue") v)) h2 h3
      (by rw [h4]; exact hguard)
      (by rw [h1, List.append_assoc]; simpa using hnodup)
    simp only [List.map_cons, runEvents, List.foldl_cons] at hrest ⊢
    rw [h1, List.append_assoc] at hrest
    simpa using hrest

/-- C15: whenever the serve loop is parked on the empty queue, the closure of line 226 is
the value of `addToQueue`; the first arrival in the Queue slot puts the plain append back,
stores its identifier as the only entry and wakes the loop; further arrivals with new
identifiers are appended behind it by the plain append while the loop stays woken, and from then
on the closure is the value of `addToQueue` only while the loop is parked again. -/
theorem waiter_wakes_once (env : Env) (fs : FS) (events : List Event) (value : JVal)
    (values : List JVal) (more : List Event)
    (hparked : (runEvents env (initial env fs) events).pc.isParked = true)
    (hguard : env.cloud.usetw = true →
      env.cloud.name "Queue" ∉ (runEvents env (initial env fs) events).recent)
    (hdistinct : (env.cloud.stringify value :: values.map env.cloud.stringify).Nodup) :
    (runEvents env (initial env fs) events).addToQueue = .waiter ∧
      (runEvents env (initial env fs) events).queue = [] ∧
      (step env (runEvents env (initial env fs) events)
          (.set (env.cloud.name "Queue") value)).queue = [env.cloud.stringify value] ∧
      (step env (runEvents env (initial env fs) events)
          (.set (env.cloud.name "Queue") value)).pc.isWoken = true ∧
      (step env (runEvents env (initial env fs) events)
          (.set (env.cloud.name "Queue") value)).addToQueue = .plain ∧
      (runEvents env (step env (runEvents env (initial env fs) events)
            (.set (env.cloud.name "Queue") value))
          (values.map (Event.set (env.cloud.name "Queue")))).queue =
        env.cloud.stringify value :: values.map env.cloud.stringify ∧
      (runEvents env (step env (runEvents env (initial env fs) events)
            (.set (env.cloud.name "Queue") value))
          (values.map (Event.set (env.cloud.name "Queue")))).pc.isWoken = true ∧
      (runEvents env (step env (runEvents env (initial env fs) events)
            (.set (env.cloud.name "Queue") value))
          (values.map (Event.set (env.cloud.name "Queue")))).addToQueue = .plain ∧
      ((runEvents env (runEvents env (step env (runEvents env (initial env fs) events)
              (.set (env.cloud.name "Queue") value))
            (values.map (Event.set (env.cloud.name "Queue")))) more).addToQueue = .waiter ↔
        (runEvents env (runEvents env (step env (runEvents env (initial env fs) events)
              (.set (env.cloud.name "Queue") value))
            (values.map (Event.set (env.cloud.name "Queue")))) more).pc.isParked = true) := by
  have hinv := runEvents_waiterBound env events (initial env fs) (waiterBound_initial env fs)
  have hw := hinv.1.2 hparked
  have hq := hinv.2 hparked
  obtain ⟨h1, h2, h3, h4⟩ :=
    step_set_parked env (runEvents env (initial env fs) events) value hparked hw hq hguard
  obtain ⟨h5, h6, h7⟩ := arrivals_while_woken env values
    (step env (runEvents env (initial env fs) events) (.set (env.cloud.name "Queue") value))
    h2 h3 (by rw [h4]; exact hguard) (by rw [h1]; simpa using hdistinct)
  refine ⟨hw, hq, h1, h2, h3, ?_, h6, h7, ?_⟩
  · rw [h5, h1]; rfl
  · exact (runEvents_waiterBound env more _
      (runEvents_waiterBound env _ _
        (step_waiterBound env _ _ hinv))).1

/-- Witness of C15, the sample server right after its start: `a` wakes the loop, `b` and `c` are
appended behind it. -/
theorem waiter_wakes_once_witness :
    (runEvents sampleEnv (initial sampleEnv emptyData) []).addToQueue = .waiter ∧
      (runEvents sampleEnv
          (step sampleEnv (runEvents sampleEnv (initial sampleEnv emptyData) [])
            (.set (sampleEnv.cloud.name "Queue") (.str "a")))
          ([JVal.str "b", JVal.str "c"].map
            (Event.set (sampleEnv.cloud.name "Queue")))).queue = ["a", "b", "c"] :=
  have h := waiter_wakes_once sampleEnv emptyData [] (.str "a") [.str "b", .str "c"] []
    (by rfl) (by intro h; exact absurd h (by decide)) (by decide)
  ⟨h.1, h.2.2.2.2.2.1⟩

/-! ### C16 -/

theorem onAddVariable_of_other (env : Env) (s : RunState) (name : String) (value : JVal)
    (h : value ≠ .num 0) : onAddVariable env s name value = s := by
  unfold onAddVariable
  split
  · exact absurd rfl h
  · rfl

theorem queueBranch_recent (env : Env) (s : RunState) (name : String) (value : JVal) :
    (queueBranch env s name value).recent = s.recent := by
  unfold queueBranch
  split
  · split
    · rfl
    · unfold callAddToQueue
      cases s.addToQueue <;> rfl
  · rfl

/-- C16: on Turbowarp an `addvariable` event of slot `n` with the value 0 adds one
occurrence of `n` to `recent` and any other `addvariable` event adds none; a `set` event of `n`
that finds an occurrence takes one out and does nothing else, and one that finds none runs the
queue branch, which leaves `recent` alone. So after one `addvariable` of `n` on a state without
occurrences the first `set` of `n` gives back the state and the second is processed. Off
Turbowarp `addvariable` changes nothing and every `set` event runs the queue branch. -/
theorem turbowarp_skips_one_set (env : Env) (s : RunState) (n : String) (value later : JVal) :
    (env.cloud.usetw = true →
      (onAddVariable env s n (.num 0)).recent.count n = s.recent.count n + 1 ∧
      (value ≠ .num 0 → onAddVariable env s n value = s) ∧
      (0 < s.recent.count n →
        onSet env s n value = { s with recent := s.recent.erase n } ∧
        (s.recent.erase n).count n + 1 = s.recent.count n) ∧
      (s.recent.count n = 0 →
        onSet env s n value = queueBranch env s n value ∧
        (queueBranch env s n value).recent = s.recent ∧
        onSet env (onAddVariable env s n (.num 0)) n value = s ∧
        onSet env (onSet env (onAddVariable env s n (.num 0)) n value) n later =
          queueBranch env s n later)) ∧
    (env.cloud.usetw = false →
      onAddVariable env s n value = s ∧ onSet env s n value = queueBranch env s n value) := by
  constructor
  · intro htw
    have hadd : onAddVariable env s n (.num 0) = { s with recent := s.recent ++ [n] } := by
      simp [onAddVariable, htw]
    refine ⟨?_, onAddVariable_of_other env s n value, ?_, ?_⟩
    · rw [hadd]
      simp [List.count_append]
    · intro hpos
      have hmem : n ∈ s.recent := List.count_pos_iff.mp hpos
      refine ⟨by simp [onSet, htw, hmem], ?_⟩
      rw [List.count_erase_self]
      omega
    · intro hzero
      have hmem : n ∉ s.recent := List.count_eq_zero.mp hzero
      have hskip : onSet env (onAddVariable env s n (.num 0)) n value = s := by
        rw [hadd]
        have herase : (s.recent ++ [n]).erase n = s.recent := by
          rw [List.erase_append_right _ hmem]
          simp
        simp [onSet, htw, herase]
      refine ⟨by simp [onSet, hmem], queueBranch_recent env s n value, hskip, ?_⟩
      rw [hskip]
      simp [onSet, hmem]
  · intro hoff
    constructor
    · unfold onAddVariable
      split
      · simp [hoff]
      · rfl
    · simp [onSet, hoff]

/-- Witness of C16, the sample Turbowarp server: after the Queue slot is created with 0, the first
`set` of the slot is skipped and the second one admits its user. -/
theorem turbowarp_skips_one_set_witness :
    onSet turbowarpEnv (onAddVariable turbowarpEnv turbowarpStart "Queue" (.num 0)) "Queue"
        (.str "a") = turbowarpStart ∧
      (onSet turbowarpEnv
        (onSet turbowarpEnv (onAddVariable turbowarpEnv turbowarpStart "Queue" (.num 0))
          "Queue" (.str "a")) "Queue" (.str "b")).queue = ["b"] :=
  have h := ((turbowarp_skips_one_set turbowarpEnv turbowarpStart "Queue" (.str "a")
    (.str "b")).1 rfl).2.2.2 rfl
  ⟨h.2.2.1, by rw [h.2.2.2]; rfl⟩

/-! ### C17 -/

theorem step_starts_fresh (env : Env) (s : RunState) (e : Event) (user : JVal)
    (usercode : String) (hstart : (step env s e).pc = .serving user usercode)
    (hnew : ∀ u c, s.pc ≠ .serving u c) :
    (step env s e).session = Session.fresh := by
  cases e with
  | addvariable name value =>
    exfalso
    have : (step env s (.addvariable name value)).pc = s.pc := by
      unfold step
      cases hpc : s.pc <;> simp only [] <;>
        first
          | rw [hpc]
          | (unfold onAddVariable
             split
             · split <;> rw [hpc]
             · rw [hpc])
    rw [this] at hstart
    exact hnew _ _ hstart
  | set name value =>
    exfalso
    have hpcset : ∀ u c, (onSet env s name value).pc ≠ .serving u c := by
      intro u c h
      unfold onSet at h
      split at h
      · exact hnew _ _ h
      · unfold queueBranch at h
        split at h
        · split at h
          · exact hnew _ _ h
          · unfold callAddToQueue at h
            cases hadd : s.addToQueue <;> cases hpc : s.pc <;> simp_all
        · exact hnew _ _ h
    unfold step at hstart
    cases hpc : s.pc <;> simp only [hpc] at hstart
    case serving u c => exact hnew _ _ hpc
    case crashed => cases hstart
    all_goals
      unfold onSetHandle at hstart
      split at hstart
      · rename_i u c h
        exact hpcset _ _ h
      · exact hpcset _ _ hstart
  | resume =>
    unfold step onResume at hstart ⊢
    cases hpc : s.pc with
    | woken => simp [startSession]
    | serving u c => exact absurd hpc (hnew _ _)
    | parked => simp [hpc] at hstart
    | crashed => simp [hpc] at hstart
    | finishing =>
      exfalso
      simp only [hpc] at hstart
      unfold loopTop at hstart
      split at hstart <;> cases hstart

theorem handle_get_data_loaded (env : Env) (user : JVal) (u k : String) (get : JVal)
    (val : String) (c : Ctx) (props : List (String × JVal))
    (hload : pathExists env c.fs (accountFile u) = true →
      ∃ account, loadJSON env (accountFile u) c = .done account c)
    (hbuf : c.session.gamedata = .obj props)
    (hget : Carries env get "get" ("data/" ++ k) val) :
    handle env user u (env.cloud.name "Main") get c =
      .done () { c with
        sent := c.sent ++ [response env (field1 env get) (lookupProp props k)] } := by
  rw [handle_of_carries env _ _ get _ _ _ hget (by decide)]
  have hdata := handleGet_data env u (field1 env get) _ k c props (dataName_append k) hbuf
  cases hex : pathExists env c.fs (accountFile u) with
  | false =>
    simp [serveCommand, bind_apply, Eff.andThen, existsSync, hex, pure_apply, hdata]
  | true =>
    obtain ⟨account, hacc⟩ := hload hex
    simp [serveCommand, bind_apply, Eff.andThen, existsSync, hex, pure_apply, hacc, hdata]

/-- C17: a step that takes the serve loop into a session from any state that is not
itself inside a session leaves the action unset, the game-data buffer empty and the game id
null, whatever the session variables held before; a `get;data/k` handled first in that session
is answered from the empty buffer, so with `undefined` or with what `Object.prototype` holds
under `k`. -/
theorem new_session_is_fresh (env : Env) (s : RunState) (e : Event) (user : JVal)
    (usercode : String) (get : JVal) (k val : String)
    (hstart : (step env s e).pc = .serving user usercode)
    (hnew : ∀ u c, s.pc ≠ .serving u c)
    (hget : Carries env get "get" ("data/" ++ k) val)
    (hload : pathExists env (step env s e).fs (accountFile usercode) = true →
      ∃ account, loadJSON env (accountFile usercode)
        { fs := (step env s e).fs, sent := (step env s e).sent,
          session := (step env s e).session, ended := false } =
        .done account
          { fs := (step env s e).fs, sent := (step env s e).sent,
            session := (step env s e).session, ended := false }) :
    (step env s e).session.currentAction = none ∧
      (step env s e).session.gamedata = .obj [] ∧
      (step env s e).session.gameid = none ∧
      handle env user usercode (env.cloud.name "Main") get
          { fs := (step env s e).fs, sent := (step env s e).sent,
            session := (step env s e).session, ended := false } =
        .done ()
          { fs := (step env s e).fs
            sent := (step env s e).sent ++
              [response env (field1 env get) (lookupProp [] k)]
            session := (step env s e).session
            ended := false } := by
  have hfresh := step_starts_fresh env s e user usercode hstart hnew
  have hbuf : (step env s e).session.gamedata = .obj [] := by rw [hfresh]; rfl
  refine ⟨by rw [hfresh]; rfl, hbuf, by rw [hfresh]; rfl, ?_⟩
  exact handle_get_data_loaded env user usercode k get val _ [] hload hbuf hget

/-- Witness of C17: the session of user `b` starts after a session that left a
buffered score behind, and `get;data/score` is answered with `undefined`. -/
theorem new_session_is_fresh_witness :
    staleWoken.session.gamedata = .obj [("score", .str "42")] ∧
      (step sampleEnv staleWoken .resume).session.gamedata = .obj [] ∧
      (handle sampleEnv (.str "b") "b" (sampleEnv.cloud.name "Main") (.str "get;data/score")
          { fs := (step sampleEnv staleWoken .resume).fs
            sent := (step sampleEnv staleWoken .resume).sent
            session := (step sampleEnv staleWoken .resume).session
            ended := false }).ctx.sent =
        (step sampleEnv staleWoken .resume).sent ++
          [response sampleEnv (field1 sampleEnv (.str "get;data/score")) .undefined] :=
  have h := new_session_is_fresh sampleEnv staleWoken .resume (.str "b") "b"
    (.str "get;data/score") "score" "" rfl (fun _ _ h => nomatch h)
    ⟨by decide, by decide, by decide⟩ (fun h => absurd h (by decide))
  ⟨rfl, h.2.1, by rw [h.2.2.2]; rfl⟩

/-! ### C18 -/

theorem setAction_create_of_existing (env : Env) (user : JVal) (u : String) (c : Ctx)
    (hu : PlainName u) (hfs : HasUserDir env c.fs u) :
    setAction env user u "create account" c =
      .thrown .storage
        { c with session := { c.session with currentAction := some "create account" } } := by
  have hres := resolve_userDir env c.fs u hfs.1 hu
  have hp : present c.fs (userPath env u) = true := by simp [present, hfs.2]
  simp [setAction, bind_apply, Eff.andThen, setCurrentAction, mkdirSync, hres, hp]

/-- C18: for a user whose directory exists, `set;action;create account` throws; the file
system and the messages sent are as before, so nothing is acknowledged; and where the account of
the user loads at line 260 the error is the storage error of `mkdirSync` (line 297). -/
theorem create_account_twice_fails (env : Env) (user : JVal) (u : String) (create : JVal)
    (c : Ctx) (hu : PlainName u) (hfs : HasUserDir env c.fs u)
    (hcreate : Carries env create "set" "action" "create account") :
    ∃ e c1, handle env user u (env.cloud.name "Main") create c = .thrown e c1 ∧
      c1.fs = c.fs ∧ c1.sent = c.sent ∧
      ∀ account, AccountLoads env c.fs u account → e = .storage := by
  rw [handle_of_carries env _ _ create _ _ _ hcreate (by decide)]
  have hbranch : ∀ account : JVal,
      handleSet env user u account "action" "create account" c =
        .thrown .storage
          { c with session := { c.session with currentAction := some "create account" } } := by
    intro account
    rw [handleSet_action]
    exact setAction_create_of_existing env user u c hu hfs
  by_cases hex : pathExists env c.fs (accountFile u) = true
  · cases hl : loadJSON env (accountFile u) c with
    | done account c1 =>
      have hc := loadJSON_done env _ c c1 account hl
      subst hc
      refine ⟨.storage,
        { c1 with session := { c1.session with currentAction := some "create account" } },
        ?_, rfl, rfl, fun _ _ => rfl⟩
      simp [serveCommand, bind_apply, Eff.andThen, existsSync, hex, hl, hbranch]
    | thrown e c1 =>
      have hc := loadJSON_ctx env (accountFile u) c
      rw [hl] at hc
      change c1 = c at hc
      subst hc
      refine ⟨e, c1, ?_, rfl, rfl, ?_⟩
      · simp [serveCommand, bind_apply, Eff.andThen, existsSync, hex, hl]
      · intro account hacc
        rcases hacc with ⟨hnone, _⟩ | ⟨text, hfile, hdec⟩
        · rw [pathExists_account_of_none env c1.fs u hu hfs hnone] at hex
          cases hex
        · rw [loadJSON_ok env _ (accountPath env u) text account c1
            (resolve_accountFile env c1.fs u hu hfs) hfile hdec] at hl
          cases hl
  · have hex' : pathExists env c.fs (accountFile u) = false := by
      cases h : pathExists env c.fs (accountFile u) <;> simp_all
    refine ⟨.storage,
      { c with session := { c.session with currentAction := some "create account" } },
      ?_, rfl, rfl, fun _ _ => rfl⟩
    simp [serveCommand, bind_apply, Eff.andThen, existsSync, hex', pure_apply, hbranch]

/-- Witness of C18: user `7` on the store that `set;action;create account` left. -/
theorem create_account_twice_fails_witness :
    ∃ e c1, handle sampleEnv (.str "7") "7" (sampleEnv.cloud.name "Main")
        (.str "set;action;create account") (newSession accountStore) = .thrown e c1 ∧
      c1.fs = (newSession accountStore).fs ∧ c1.sent = (newSession accountStore).sent ∧
      ∀ account, AccountLoads sampleEnv (newSession accountStore).fs "7" account →
        e = .storage :=
  create_account_twice_fails sampleEnv (.str "7") "7" (.str "set;action;create account")
    (newSession accountStore) (by decide)
    (afterCreate_hasGamesDir sampleEnv emptyData _ _ emptyData_based).1
    ⟨by decide, by decide, by decide⟩

end ScratchCloudServer
